import Mathlib

/-!
Shallow embedding of src/vsfsck.c, the VSFS consistency checker.

Modelling conventions:
* Machine integers are modelled as Nat.  All block numbers, counters and
  bitmap bytes that the program manipulates are small nonnegative values.
* The global program state (superblock, the two bitmap buffers, the inode
  table, the block-reference tracker and the two error counters) is a record
  St threaded explicitly through each function.
* The raw image is modelled word-addressably by img : Nat -> Nat -> Nat
  (block number, 32-bit-word index within the block).  The checker reads the
  image directly only when it walks a single-indirect block, and writes it
  directly only when fix_errors zeroes entries of a modified indirect block;
  both are modelled through img.  The metadata regions of the image are
  represented by the structured fields of St (which is what the program
  itself reads and writes back via write_superblock / write_bitmaps /
  write_inodes); those write-backs are modelled as emitted write events.
* Bitmaps are byte maps Nat -> Nat, exactly as the uint8_t buffers in the
  source, with get_bit / set_bit / clear_bit translated literally.
-/

set_option maxHeartbeats 1000000

namespace Vsfsck

/-- Geometry constants from the source (#define lines). -/
def BLOCK_SIZE : Nat := 4096
def TOTAL_BLOCKS : Nat := 64
def INODE_SIZE : Nat := 256
def INODE_COUNT : Nat := 80
def MAGIC_NUMBER : Nat := 0xD34D
/-- Number of 32-bit entries in one block (BLOCK_SIZE / sizeof(uint32_t)). -/
def ENTRIES_PER_BLOCK : Nat := 1024

/-- Superblock structure from the source (superblock_t). -/
structure Superblock where
  magic : Nat
  block_size : Nat
  total_blocks : Nat
  inode_bitmap_block : Nat
  data_bitmap_block : Nat
  inode_table_start : Nat
  data_block_start : Nat
  inode_size : Nat
  inode_count : Nat
deriving DecidableEq, Repr

/-- Inode structure from the source (inode_t).  The twelve direct block
pointers are modelled as a function used at indices 0..11. -/
structure Inode where
  mode : Nat
  uid : Nat
  gid : Nat
  size : Nat
  atime : Nat
  ctime : Nat
  mtime : Nat
  dtime : Nat
  nlink : Nat
  blocks : Nat
  direct_blocks : Nat → Nat
  indirect_block : Nat
  double_indirect : Nat
  triple_indirect : Nat

/-- Global program state: the globals of vsfsck.c threaded explicitly. -/
structure St where
  superblock : Superblock
  inode_bitmap : Nat → Nat
  data_bitmap : Nat → Nat
  inodes : Nat → Inode
  img : Nat → Nat → Nat
  block_referenced : Nat → Bool
  block_referenced_by : Nat → Int
  errors_found : Nat
  errors_fixed : Nat

/-- get_bit from the source: (bitmap[i/8] >> (i%8)) & 1. -/
def get_bit (bitmap : Nat → Nat) (bit_index : Nat) : Nat :=
  (bitmap (bit_index / 8) >>> (bit_index % 8)) &&& 1

/-- set_bit from the source: bitmap[i/8] |= (1 << (i%8)). -/
def set_bit (bitmap : Nat → Nat) (bit_index : Nat) : Nat → Nat :=
  fun k => if k = bit_index / 8 then bitmap k ||| (1 <<< (bit_index % 8)) else bitmap k

/-- clear_bit from the source: bitmap[i/8] &= ~(1 << (i%8)) on a uint8_t,
i.e. the byte is and-ed with the 8-bit complement of the mask. -/
def clear_bit (bitmap : Nat → Nat) (bit_index : Nat) : Nat → Nat :=
  fun k => if k = bit_index / 8 then bitmap k &&& (255 ^^^ (1 <<< (bit_index % 8))) else bitmap k

/-- is_valid_inode from the source: nlink > 0 and dtime == 0. -/
def is_valid_inode (inodes : Nat → Inode) (inode_index : Nat) : Bool :=
  decide (0 < (inodes inode_index).nlink ∧ (inodes inode_index).dtime = 0)

/-- One field comparison of check_superblock: on mismatch the consistent
flag drops to false and the error counter advances. -/
def sbStep (acc : Bool × Nat) (bad : Prop) [Decidable bad] : Bool × Nat :=
  if bad then (false, acc.2 + 1) else acc

/-- check_superblock from the source: nine independent field comparisons,
each mismatch clearing the consistent flag and incrementing errors_found;
the inode-count field additionally tolerates the value 0. -/
def check_superblock (s : St) : Bool × St :=
  let sb := s.superblock
  let c1 := sbStep (true, s.errors_found) (sb.magic ≠ MAGIC_NUMBER)
  let c2 := sbStep c1 (sb.block_size ≠ BLOCK_SIZE)
  let c3 := sbStep c2 (sb.total_blocks ≠ TOTAL_BLOCKS)
  let c4 := sbStep c3 (sb.inode_bitmap_block ≠ 1)
  let c5 := sbStep c4 (sb.data_bitmap_block ≠ 2)
  let c6 := sbStep c5 (sb.inode_table_start ≠ 3)
  let c7 := sbStep c6 (sb.data_block_start ≠ 8)
  let c8 := sbStep c7 (sb.inode_size ≠ INODE_SIZE)
  let c9 := sbStep c8 (sb.inode_count ≠ INODE_COUNT ∧ sb.inode_count ≠ 0)
  (c9.1, { s with errors_found := c9.2 })

/-- check_inode_bitmap_consistency from the source: for every inode slot,
compare the bitmap bit against recomputed validity; either direction of
mismatch clears the flag and increments errors_found. -/
def check_inode_bitmap_consistency (s : St) : Bool × St :=
  let r := (List.range INODE_COUNT).foldl
    (fun (acc : Bool × Nat) i =>
      let bit_value := get_bit s.inode_bitmap i
      let valid := is_valid_inode s.inodes i
      if bit_value ≠ 0 ∧ ¬ valid then (false, acc.2 + 1)
      else if bit_value = 0 ∧ valid then (false, acc.2 + 1)
      else acc)
    (true, s.errors_found)
  (r.1, { s with errors_found := r.2 })

/-- mark_block_referenced from the source: out-of-range block numbers are
skipped; an already-referenced block is left to the duplicate pass; the
first claimant is recorded. -/
def mark_block_referenced (s : St) (block_num : Nat) (inode_num : Nat) : St :=
  if block_num < s.superblock.data_block_start ∨ TOTAL_BLOCKS ≤ block_num then s
  else if s.block_referenced block_num then s
  else
    { s with
      block_referenced := fun b => if b = block_num then true else s.block_referenced b
      block_referenced_by := fun b => if b = block_num then (inode_num : Int) else s.block_referenced_by b }

/-- Direct-pointer loop of the reference walk: mark each nonzero direct
block of inode i. -/
def markDirects (s : St) (i : Nat) : St :=
  (List.range 12).foldl
    (fun st j =>
      if (st.inodes i).direct_blocks j ≠ 0 then
        mark_block_referenced st ((st.inodes i).direct_blocks j) i
      else st) s

/-- Indirect-entry loop of the reference walk: read the indirect block of
inode i off the image and mark each nonzero entry. -/
def markEntries (s : St) (i : Nat) : St :=
  let entries := s.img ((s.inodes i).indirect_block)
  (List.range ENTRIES_PER_BLOCK).foldl
    (fun st j => if entries j ≠ 0 then mark_block_referenced st (entries j) i else st) s

/-- Reference-walk of one inode in check_data_bitmap_consistency: marks the
nonzero direct blocks, then, if the single-indirect pointer is nonzero,
marks the indirect block itself and every nonzero entry read from the image
at that block. -/
def markInode (s : St) (i : Nat) : St :=
  if is_valid_inode s.inodes i then
    let s1 := markDirects s i
    if (s1.inodes i).indirect_block ≠ 0 then
      markEntries (mark_block_referenced s1 ((s1.inodes i).indirect_block) i) i
    else s1
  else s

/-- Reset of the block-reference tracker (the loop at the top of
check_data_bitmap_consistency and in main). -/
def resetRefs (s : St) : St :=
  { s with block_referenced := fun _ => false, block_referenced_by := fun _ => -1 }

/-- Full reference walk of check_data_bitmap_consistency: reset the
tracker, then walk all eighty inodes. -/
def markAll (s : St) : St := (List.range INODE_COUNT).foldl markInode (resetRefs s)

/-- check_data_bitmap_consistency from the source: rebuild the reference
tracker from every valid inode, then compare each data-region bitmap bit
against it. -/
def check_data_bitmap_consistency (s : St) : Bool × St :=
  let s1 := markAll s
  let start := s1.superblock.data_block_start
  let r := (List.range' start (TOTAL_BLOCKS - start)).foldl
    (fun (acc : Bool × Nat) i =>
      let bit_value := get_bit s1.data_bitmap (i - start)
      if bit_value ≠ 0 ∧ ¬ s1.block_referenced i then (false, acc.2 + 1)
      else if bit_value = 0 ∧ s1.block_referenced i then (false, acc.2 + 1)
      else acc)
    (true, s1.errors_found)
  (r.1, { s1 with errors_found := r.2 })

/-- Claimant recording of one inode in check_duplicate_blocks: every nonzero
direct pointer below TOTAL_BLOCKS appends the inode index to that block's
claimant list; a nonzero indirect pointer below TOTAL_BLOCKS appends the
inode for the indirect block itself and for every nonzero in-bounds entry
read from the image. -/
def recordInode (s : St) (refs : Nat → List Nat) (i : Nat) : Nat → List Nat :=
  if is_valid_inode s.inodes i then
    let refs1 := (List.range 12).foldl
      (fun r j =>
        let bn := (s.inodes i).direct_blocks j
        if bn ≠ 0 ∧ bn < TOTAL_BLOCKS then
          fun b => if b = bn then r b ++ [i] else r b
        else r) refs
    let ib := (s.inodes i).indirect_block
    if ib ≠ 0 ∧ ib < TOTAL_BLOCKS then
      let refs2 : Nat → List Nat := fun b => if b = ib then refs1 b ++ [i] else refs1 b
      let entries := s.img ib
      (List.range ENTRIES_PER_BLOCK).foldl
        (fun r j =>
          let bn := entries j
          if bn ≠ 0 ∧ bn < TOTAL_BLOCKS then
            fun b => if b = bn then r b ++ [i] else r b
          else r) refs2
    else refs1
  else refs

/-- Per-block claimant lists built by check_duplicate_blocks (the local
arrays block_references / reference_counts, with a list per block). -/
def dupRefs (s : St) : Nat → List Nat :=
  (List.range INODE_COUNT).foldl (recordInode s) (fun _ => [])

/-- check_duplicate_blocks from the source: record every claimant per block,
then report each data-region block with more than one recorded claim. -/
def check_duplicate_blocks (s : St) : Bool × St :=
  let refs := dupRefs s
  let start := s.superblock.data_block_start
  let r := (List.range' start (TOTAL_BLOCKS - start)).foldl
    (fun (acc : Bool × Nat) i =>
      if 1 < (refs i).length then (false, acc.2 + 1) else acc)
    (true, s.errors_found)
  (r.1, { s with errors_found := r.2 })

/-- check_bad_blocks from the source: for every valid inode flag each
nonzero out-of-range direct pointer, an out-of-range indirect pointer, and
(for an in-range indirect pointer) each nonzero out-of-range entry read
from the image. -/
def check_bad_blocks (s : St) : Bool × St :=
  let r := (List.range INODE_COUNT).foldl
    (fun (acc : Bool × Nat) i =>
      if is_valid_inode s.inodes i then
        let acc1 := (List.range 12).foldl
          (fun (a : Bool × Nat) j =>
            let bn := (s.inodes i).direct_blocks j
            if bn ≠ 0 ∧ (bn < s.superblock.data_block_start ∨ TOTAL_BLOCKS ≤ bn) then
              (false, a.2 + 1)
            else a) acc
        let ib := (s.inodes i).indirect_block
        if ib ≠ 0 then
          if ib < s.superblock.data_block_start ∨ TOTAL_BLOCKS ≤ ib then (false, acc1.2 + 1)
          else
            let entries := s.img ib
            (List.range ENTRIES_PER_BLOCK).foldl
              (fun (a : Bool × Nat) j =>
                let bn := entries j
                if bn ≠ 0 ∧ (bn < s.superblock.data_block_start ∨ TOTAL_BLOCKS ≤ bn) then
                  (false, a.2 + 1)
                else a) acc1
        else acc1
      else acc)
    (true, s.errors_found)
  (r.1, { s with errors_found := r.2 })

/-- Write events emitted towards the image, in program order: a modified
indirect block written back inside the bad-reference fix loop, then the
superblock, the two bitmaps, and the eighty inode-table records. -/
inductive WriteEv where
  | indirect (b : Nat)
  | superblock
  | inodeBitmap
  | dataBitmap
  | inodeTable (i : Nat)
deriving DecidableEq, Repr

/-- Pointwise update of the inode table at one index. -/
def updInode (inodes : Nat → Inode) (i : Nat) (v : Inode) : Nat → Inode :=
  fun k => if k = i then v else inodes k

theorem updInode_self (inodes : Nat → Inode) (i : Nat) (v : Inode) :
    updInode inodes i v i = v := by
  simp [updInode]

theorem updInode_ne (inodes : Nat → Inode) (i : Nat) (v : Inode) (k : Nat) (h : k ≠ i) :
    updInode inodes i v k = inodes k := by
  simp [updInode, h]

/-- Superblock-field steps of fix_errors: each of the nine fields is forced
to its supported constant when it differs (the inode-count condition here is
plain inequality with 80, with no tolerance for 0). -/
def fixMagic (s : St) : St :=
  if s.superblock.magic ≠ MAGIC_NUMBER then
    { s with superblock := { s.superblock with magic := MAGIC_NUMBER }, errors_fixed := s.errors_fixed + 1 }
  else s

def fixBlockSize (s : St) : St :=
  if s.superblock.block_size ≠ BLOCK_SIZE then
    { s with superblock := { s.superblock with block_size := BLOCK_SIZE }, errors_fixed := s.errors_fixed + 1 }
  else s

def fixTotalBlocks (s : St) : St :=
  if s.superblock.total_blocks ≠ TOTAL_BLOCKS then
    { s with superblock := { s.superblock with total_blocks := TOTAL_BLOCKS }, errors_fixed := s.errors_fixed + 1 }
  else s

def fixInodeBitmapBlock (s : St) : St :=
  if s.superblock.inode_bitmap_block ≠ 1 then
    { s with superblock := { s.superblock with inode_bitmap_block := 1 }, errors_fixed := s.errors_fixed + 1 }
  else s

def fixDataBitmapBlock (s : St) : St :=
  if s.superblock.data_bitmap_block ≠ 2 then
    { s with superblock := { s.superblock with data_bitmap_block := 2 }, errors_fixed := s.errors_fixed + 1 }
  else s

def fixInodeTableStart (s : St) : St :=
  if s.superblock.inode_table_start ≠ 3 then
    { s with superblock := { s.superblock with inode_table_start := 3 }, errors_fixed := s.errors_fixed + 1 }
  else s

def fixDataBlockStart (s : St) : St :=
  if s.superblock.data_block_start ≠ 8 then
    { s with superblock := { s.superblock with data_block_start := 8 }, errors_fixed := s.errors_fixed + 1 }
  else s

def fixInodeSize (s : St) : St :=
  if s.superblock.inode_size ≠ INODE_SIZE then
    { s with superblock := { s.superblock with inode_size := INODE_SIZE }, errors_fixed := s.errors_fixed + 1 }
  else s

def fixInodeCount (s : St) : St :=
  if s.superblock.inode_count ≠ INODE_COUNT then
    { s with superblock := { s.superblock with inode_count := INODE_COUNT }, errors_fixed := s.errors_fixed + 1 }
  else s

/-- Superblock-field portion of fix_errors, in source order. -/
def fix_superblock_fields (s : St) : St :=
  fixInodeCount (fixInodeSize (fixDataBlockStart (fixInodeTableStart
    (fixDataBitmapBlock (fixInodeBitmapBlock (fixTotalBlocks (fixBlockSize (fixMagic s))))))))

/-- One slot of the inode-bitmap portion of fix_errors: set or clear the
slot's bit to match recomputed validity. -/
def ibmFixStep (st : St) (i : Nat) : St :=
  let valid := is_valid_inode st.inodes i
  let bit_value := get_bit st.inode_bitmap i
  if bit_value ≠ 0 ∧ ¬ valid then
    { st with inode_bitmap := clear_bit st.inode_bitmap i,
              errors_fixed := st.errors_fixed + 1 }
  else if bit_value = 0 ∧ valid then
    { st with inode_bitmap := set_bit st.inode_bitmap i,
              errors_fixed := st.errors_fixed + 1 }
  else st

/-- Inode-bitmap portion of fix_errors. -/
def fix_inode_bitmap (s : St) : St :=
  (List.range INODE_COUNT).foldl ibmFixStep s

/-- One block of the data-bitmap portion of fix_errors: set or clear the
block's bit to match the block-reference tracker left by the last
consistency check. -/
def dbmFixStep (st : St) (i : Nat) : St :=
  let bit_index := i - st.superblock.data_block_start
  let bit_value := get_bit st.data_bitmap bit_index
  if bit_value ≠ 0 ∧ ¬ st.block_referenced i then
    { st with data_bitmap := clear_bit st.data_bitmap bit_index,
              errors_fixed := st.errors_fixed + 1 }
  else if bit_value = 0 ∧ st.block_referenced i then
    { st with data_bitmap := set_bit st.data_bitmap bit_index,
              errors_fixed := st.errors_fixed + 1 }
  else st

/-- Data-bitmap portion of fix_errors. -/
def fix_data_bitmap (s : St) : St :=
  (List.range' s.superblock.data_block_start (TOTAL_BLOCKS - s.superblock.data_block_start)).foldl
    dbmFixStep s

/-- Out-of-range test used by the bad-reference fix (and checks):
nonzero and outside [data_block_start, TOTAL_BLOCKS). -/
def badPtr (start bn : Nat) : Prop := bn ≠ 0 ∧ (bn < start ∨ TOTAL_BLOCKS ≤ bn)

instance (start bn : Nat) : Decidable (badPtr start bn) := by
  unfold badPtr; infer_instance

/-- One direct slot of the bad-reference fix: zero the slot when it holds
an out-of-range pointer. -/
def zeroDirect (st : St) (i j : Nat) : St :=
  if badPtr st.superblock.data_block_start ((st.inodes i).direct_blocks j) then
    { st with
      inodes := updInode st.inodes i
        { st.inodes i with
          direct_blocks := fun k => if k = j then 0 else (st.inodes i).direct_blocks k },
      errors_fixed := st.errors_fixed + 1 }
  else st

/-- Direct-pointer loop of the bad-reference fix for one inode. -/
def fixDirects (st : St) (i : Nat) : St :=
  (List.range 12).foldl (fun st j => zeroDirect st i j) st

/-- Bad-reference portion of fix_errors for one inode: zero each
out-of-range direct pointer, zero an out-of-range indirect pointer, and for
an in-range indirect pointer zero each out-of-range entry of the indirect
block, writing the block back (emitting a write event) when modified. -/
def fixBadInode (p : St × List WriteEv) (i : Nat) : St × List WriteEv :=
  let st := p.1
  if is_valid_inode st.inodes i then
    let st1 := fixDirects st i
    let ib := (st1.inodes i).indirect_block
    if ib ≠ 0 then
      if ib < st1.superblock.data_block_start ∨ TOTAL_BLOCKS ≤ ib then
        ({ st1 with
           inodes := updInode st1.inodes i { st1.inodes i with indirect_block := 0 },
           errors_fixed := st1.errors_fixed + 1 }, p.2)
      else
        let entries := st1.img ib
        let badCount := ((List.range ENTRIES_PER_BLOCK).filter
          (fun j => decide (badPtr st1.superblock.data_block_start (entries j)))).length
        if badCount ≠ 0 then
          ({ st1 with
             img := fun b => if b = ib then
                 (fun j => if j < ENTRIES_PER_BLOCK ∧ badPtr st1.superblock.data_block_start (entries j)
                   then 0 else entries j)
               else st1.img b,
             errors_fixed := st1.errors_fixed + badCount }, p.2 ++ [WriteEv.indirect ib])
        else (st1, p.2)
    else (st1, p.2)
  else p

/-- write_superblock from the source, as an emitted write event (the
superblock itself already lives in the state). -/
def write_superblock (p : St × List WriteEv) : St × List WriteEv :=
  (p.1, p.2 ++ [WriteEv.superblock])

/-- write_bitmaps from the source: inode bitmap then data bitmap. -/
def write_bitmaps (p : St × List WriteEv) : St × List WriteEv :=
  (p.1, p.2 ++ [WriteEv.inodeBitmap, WriteEv.dataBitmap])

/-- write_inodes from the source: one record write per inode slot. -/
def write_inodes (p : St × List WriteEv) : St × List WriteEv :=
  (p.1, p.2 ++ (List.range INODE_COUNT).map WriteEv.inodeTable)

/-- fix_errors from the source together with its trace of image writes, in
program order: superblock fields, inode bitmap, data bitmap, bad block
references (with immediate write-back of modified indirect blocks), then the
final write-back of superblock, bitmaps and inode table. -/
def fix_errors_core (s : St) : St × List WriteEv :=
  let s3 := fix_data_bitmap (fix_inode_bitmap (fix_superblock_fields s))
  let p := (List.range INODE_COUNT).foldl fixBadInode (s3, [])
  write_inodes (write_bitmaps (write_superblock p))

/-- State component of fix_errors. -/
def fix_errors (s : St) : St := (fix_errors_core s).1

/-- Image-write trace of fix_errors. -/
def fix_trace (s : St) : List WriteEv := (fix_errors_core s).2

/-- Sequential run of the five validators of main, keeping only the state
(the five Bool results feed the printed summary). -/
def check_all (s : St) : St :=
  (check_bad_blocks
    (check_duplicate_blocks
      (check_data_bitmap_consistency
        (check_inode_bitmap_consistency
          (check_superblock s).2).2).2).2).2

/-- Counter reset performed by main between the fix and the re-check. -/
def reset_counters (s : St) : St :=
  { s with errors_found := 0, errors_fixed := 0 }

/-- Initialization in main: zeroed error counters (globals start at zero)
and the reset of the block-reference tracker. -/
def init_state (s : St) : St :=
  resetRefs { s with errors_found := 0, errors_fixed := 0 }

/-- Driver portion of main after a successful open: check, then, when any
error was found, fix and re-check. -/
def run_driver (s : St) : St :=
  let s1 := check_all (init_state s)
  if 0 < s1.errors_found then check_all (reset_counters (fix_errors s1)) else s1

/-- main from the source: exit 1 on wrong argument count, exit 1 on open
failure, otherwise run the driver and exit 0 regardless of remaining
errors. -/
def vsfsck_main (argc : Nat) (open_ok : Bool) (s : St) : Nat × St :=
  if argc ≠ 2 then (1, s)
  else if ¬ open_ok then (1, s)
  else (0, run_driver s)

/-! ### Spec-side characterizations and generic fold lemmas -/

/-- Mismatch indicators for the nine superblock fields, in source order;
the ninth (inode count) tolerates zero.  Field tags 0..8. -/
def sbFindings (sb : Superblock) : List Nat :=
  (if sb.magic ≠ MAGIC_NUMBER then [0] else [])
  ++ (if sb.block_size ≠ BLOCK_SIZE then [1] else [])
  ++ (if sb.total_blocks ≠ TOTAL_BLOCKS then [2] else [])
  ++ (if sb.inode_bitmap_block ≠ 1 then [3] else [])
  ++ (if sb.data_bitmap_block ≠ 2 then [4] else [])
  ++ (if sb.inode_table_start ≠ 3 then [5] else [])
  ++ (if sb.data_block_start ≠ 8 then [6] else [])
  ++ (if sb.inode_size ≠ INODE_SIZE then [7] else [])
  ++ (if sb.inode_count ≠ INODE_COUNT ∧ sb.inode_count ≠ 0 then [8] else [])

theorem sbStep_snd (acc : Bool × Nat) (bad : Prop) [Decidable bad] :
    (sbStep acc bad).2 = acc.2 + (if bad then 1 else 0) := by
  unfold sbStep; split <;> simp

theorem sbStep_fst (acc : Bool × Nat) (bad : Prop) [Decidable bad] :
    (sbStep acc bad).1 = (acc.1 && decide (¬ bad)) := by
  unfold sbStep; split <;> simp_all

theorem check_superblock_errors (s : St) :
    (check_superblock s).2.errors_found = s.errors_found + (sbFindings s.superblock).length := by
  show (sbStep _ _).2 = _
  simp only [sbStep_snd, sbFindings, List.length_append, apply_ite List.length,
    List.length_cons, List.length_nil, Nat.zero_add]
  omega

theorem check_superblock_flag (s : St) :
    (check_superblock s).1 = true ↔ sbFindings s.superblock = [] := by
  show (sbStep _ _).1 = true ↔ _
  simp only [sbStep_fst, sbFindings, Bool.and_eq_true, decide_eq_true_eq,
    List.append_eq_nil, ite_eq_right_iff, reduceCtorEq, imp_false]
  tauto

theorem check_superblock_state (s : St) :
    (check_superblock s).2.superblock = s.superblock ∧
    (check_superblock s).2.inode_bitmap = s.inode_bitmap ∧
    (check_superblock s).2.data_bitmap = s.data_bitmap ∧
    (check_superblock s).2.inodes = s.inodes ∧
    (check_superblock s).2.img = s.img ∧
    (check_superblock s).2.block_referenced = s.block_referenced ∧
    (check_superblock s).2.errors_fixed = s.errors_fixed :=
  ⟨rfl, rfl, rfl, rfl, rfl, rfl, rfl⟩

/-- Folding a flag-and-count step over a list: the flag ends true iff no
element satisfies the (two-armed) error condition, and the count grows by
the number of elements satisfying it. -/
theorem foldl_twoIf (p q : Nat → Prop) [DecidablePred p] [DecidablePred q] (l : List Nat) :
    ∀ b e, l.foldl
      (fun acc i => if p i then (false, acc.2 + 1) else if q i then (false, acc.2 + 1) else acc)
      (b, e)
      = (b && l.all (fun i => decide (¬ (p i ∨ q i))),
         e + l.countP (fun i => decide (p i ∨ q i))) := by
  induction l with
  | nil => simp
  | cons x l ih =>
    intro b e
    by_cases hp : p x <;> by_cases hq : q x <;>
      simp [hp, hq, ih, List.countP_cons] <;> omega

/-- Transport of a fold along a projection, guarded by an invariant of the
folded state. -/
theorem foldl_hom_inv {α β : Type} (P : α → Prop) (f : α → β)
    (step : α → Nat → α) (stepb : β → Nat → β) (l : List Nat)
    (hP : ∀ a i, i ∈ l → P a → P (step a i))
    (h : ∀ a i, i ∈ l → P a → f (step a i) = stepb (f a) i) :
    ∀ a, P a → f (l.foldl step a) = l.foldl stepb (f a) ∧ P (l.foldl step a) := by
  induction l with
  | nil => intro a ha; exact ⟨rfl, ha⟩
  | cons x l ih =>
    intro a ha
    have hx : P (step a x) := hP a x (List.mem_cons_self x l) ha
    have hfx : f (step a x) = stepb (f a) x := h a x (List.mem_cons_self x l) ha
    have := ih (fun a i hi => hP a i (List.mem_cons_of_mem x hi))
      (fun a i hi => h a i (List.mem_cons_of_mem x hi)) (step a x) hx
    simpa [hfx] using this

/-- Projection left unchanged by every step of a fold. -/
theorem foldl_fix_inv {α β : Type} (P : α → Prop) (f : α → β)
    (step : α → Nat → α) (l : List Nat)
    (hP : ∀ a i, i ∈ l → P a → P (step a i))
    (h : ∀ a i, i ∈ l → P a → f (step a i) = f a) :
    ∀ a, P a → f (l.foldl step a) = f a := by
  intro a ha
  have := foldl_hom_inv P f step (fun b _ => b) l hP h a ha
  simpa [List.foldl_fixed] using this.1

/-- Folding boolean accumulation of indicators equals any. -/
theorem foldl_bor (g : Nat → Bool) (l : List Nat) :
    ∀ b : Bool, l.foldl (fun b i => b || g i) b = (b || l.any g) := by
  induction l with
  | nil => simp
  | cons x l ih => intro b; simp [ih, Bool.or_assoc]

/-- Disjoint count split for countP. -/
theorem countP_or_disjoint (p q : Nat → Bool) (l : List Nat)
    (h : ∀ i, i ∈ l → ¬ (p i = true ∧ q i = true)) :
    l.countP (fun i => p i || q i) = l.countP p + l.countP q := by
  induction l with
  | nil => simp
  | cons x l ih =>
    have hx := h x (List.mem_cons_self x l)
    have ih := ih (fun i hi => h i (List.mem_cons_of_mem x hi))
    by_cases hp : p x = true
    · by_cases hq : q x = true
      · exact absurd ⟨hp, hq⟩ hx
      · simp [List.countP_cons, hp, hq, ih]; omega
    · by_cases hq : q x = true <;> simp [List.countP_cons, hp, hq, ih] <;> omega

/-- Invariant used by inode-walk folds: inode table, image, superblock,
bitmaps and counters of the threaded state agree with a base state. -/
def MarkInv (s : St) (a : St) : Prop :=
  a.superblock = s.superblock ∧ a.inode_bitmap = s.inode_bitmap ∧
  a.data_bitmap = s.data_bitmap ∧ a.inodes = s.inodes ∧ a.img = s.img ∧
  a.errors_found = s.errors_found ∧ a.errors_fixed = s.errors_fixed

theorem mark_block_referenced_inv (s a : St) (bn i : Nat) (ha : MarkInv s a) :
    MarkInv s (mark_block_referenced a bn i) := by
  unfold mark_block_referenced
  split
  · exact ha
  · split
    · exact ha
    · exact ha

theorem mark_block_referenced_br (a : St) (bn i b : Nat) :
    (mark_block_referenced a bn i).block_referenced b
      = (a.block_referenced b ||
         (decide (b = bn) && decide (a.superblock.data_block_start ≤ bn) && decide (bn < TOTAL_BLOCKS))) := by
  unfold mark_block_referenced
  split
  · rename_i hout
    rcases hout with hlt | hge
    · have : ¬ a.superblock.data_block_start ≤ bn := by omega
      simp [this]
    · have : ¬ bn < TOTAL_BLOCKS := by omega
      simp [this]
  · rename_i hout
    have h1 : a.superblock.data_block_start ≤ bn := by omega
    have h2 : bn < TOTAL_BLOCKS := by omega
    split
    · rename_i hrefd
      by_cases hb : b = bn <;> simp [hb, h1, h2, hrefd]
    · by_cases hb : b = bn <;> simp [hb, h1, h2]

theorem foldl_inv {α : Type} (P : α → Prop) (step : α → Nat → α) (l : List Nat)
    (hP : ∀ a i, i ∈ l → P a → P (step a i)) :
    ∀ a, P a → P (l.foldl step a) := by
  induction l with
  | nil => intro a ha; exact ha
  | cons x l ih =>
    intro a ha
    exact ih (fun a i hi => hP a i (List.mem_cons_of_mem x hi)) _
      (hP a x (List.mem_cons_self x l) ha)

/-- Presence of a claim of inode i on block number b, read off the walk of
check_data_bitmap_consistency: a nonzero direct pointer equal to b, a
nonzero single-indirect pointer equal to b, or a nonzero entry equal to b
inside the block the (nonzero) single-indirect pointer names. -/
def inodeClaims (s : St) (i b : Nat) : Prop :=
  (∃ j, j < 12 ∧ (s.inodes i).direct_blocks j ≠ 0 ∧ b = (s.inodes i).direct_blocks j)
  ∨ ((s.inodes i).indirect_block ≠ 0 ∧ b = (s.inodes i).indirect_block)
  ∨ ((s.inodes i).indirect_block ≠ 0 ∧
     ∃ k, k < ENTRIES_PER_BLOCK ∧
       s.img ((s.inodes i).indirect_block) k ≠ 0 ∧ b = s.img ((s.inodes i).indirect_block) k)

instance (s : St) (i b : Nat) : Decidable (inodeClaims s i b) := by
  unfold inodeClaims; infer_instance

/-- Block b is referenced according to the walk: in data range and claimed
by some valid inode. -/
def specReferenced (s : St) (b : Nat) : Prop :=
  s.superblock.data_block_start ≤ b ∧ b < TOTAL_BLOCKS ∧
  ∃ i, i < INODE_COUNT ∧ is_valid_inode s.inodes i = true ∧ inodeClaims s i b

instance (s : St) (b : Nat) : Decidable (specReferenced s b) := by
  unfold specReferenced; infer_instance

theorem markDirects_inv (s a : St) (i : Nat) (ha : MarkInv s a) :
    MarkInv s (markDirects a i) := by
  unfold markDirects
  refine foldl_inv _ _ _ (fun a1 j _ hP => ?_) a ha
  dsimp only
  split
  · exact mark_block_referenced_inv s a1 _ i hP
  · exact hP

/-- Indicator: the direct-pointer walk of inode i marks block b at slot j. -/
def dirHit (s : St) (i b j : Nat) : Bool :=
  decide ((s.inodes i).direct_blocks j ≠ 0) &&
    (decide (b = (s.inodes i).direct_blocks j) &&
     decide (s.superblock.data_block_start ≤ (s.inodes i).direct_blocks j) &&
     decide ((s.inodes i).direct_blocks j < TOTAL_BLOCKS))

/-- Indicator: the indirect-entry walk of inode i marks block b at entry j. -/
def entryHit (s : St) (i b j : Nat) : Bool :=
  decide (s.img ((s.inodes i).indirect_block) j ≠ 0) &&
    (decide (b = s.img ((s.inodes i).indirect_block) j) &&
     decide (s.superblock.data_block_start ≤ s.img ((s.inodes i).indirect_block) j) &&
     decide (s.img ((s.inodes i).indirect_block) j < TOTAL_BLOCKS))

theorem markDirects_br (s a : St) (i b : Nat) (ha : MarkInv s a) :
    (markDirects a i).block_referenced b
      = (a.block_referenced b || (List.range 12).any (dirHit s i b)) := by
  have h := foldl_hom_inv (MarkInv s) (fun a => a.block_referenced b)
    (fun st j =>
      if (st.inodes i).direct_blocks j ≠ 0 then
        mark_block_referenced st ((st.inodes i).direct_blocks j) i
      else st)
    (fun x j => x || dirHit s i b j)
    (List.range 12)
    (fun a1 j _ hP => by
      dsimp only
      split
      · exact mark_block_referenced_inv s a1 _ i hP
      · exact hP)
    (fun a1 j _ hP => by
      dsimp only
      unfold dirHit
      split
      · rename_i hnz
        rw [hP.2.2.2.1] at hnz
        rw [mark_block_referenced_br, hP.1, hP.2.2.2.1]
        simp [hnz]
      · rename_i hnz
        rw [hP.2.2.2.1] at hnz
        simp at hnz
        simp [hnz])
    a ha
  obtain ⟨h1, -⟩ := h
  dsimp only at h1
  unfold markDirects
  rw [h1, foldl_bor]

theorem markEntries_inv (s a : St) (i : Nat) (ha : MarkInv s a) :
    MarkInv s (markEntries a i) := by
  unfold markEntries
  refine foldl_inv _ _ _ (fun a1 j _ hP => ?_) a ha
  dsimp only
  split
  · exact mark_block_referenced_inv s a1 _ i hP
  · exact hP

theorem markEntries_br (s a : St) (i b : Nat) (ha : MarkInv s a) :
    (markEntries a i).block_referenced b
      = (a.block_referenced b || (List.range ENTRIES_PER_BLOCK).any (entryHit s i b)) := by
  have h := foldl_hom_inv (MarkInv s) (fun a => a.block_referenced b)
    (fun st j =>
      if a.img ((a.inodes i).indirect_block) j ≠ 0 then
        mark_block_referenced st (a.img ((a.inodes i).indirect_block) j) i
      else st)
    (fun x j => x || entryHit s i b j)
    (List.range ENTRIES_PER_BLOCK)
    (fun a1 j _ hP => by
      dsimp only
      split
      · exact mark_block_referenced_inv s a1 _ i hP
      · exact hP)
    (fun a1 j _ hP => by
      dsimp only
      unfold entryHit
      rw [ha.2.2.2.2.1, ha.2.2.2.1]
      split
      · rename_i hnz
        rw [mark_block_referenced_br, hP.1]
        simp [hnz]
      · rename_i hnz
        simp at hnz
        simp [hnz])
    a ha
  obtain ⟨h1, -⟩ := h
  dsimp only at h1
  unfold markEntries
  rw [h1, foldl_bor]

theorem markInode_inv (s a : St) (i : Nat) (ha : MarkInv s a) :
    MarkInv s (markInode a i) := by
  unfold markInode
  split
  · have h1 := markDirects_inv s a i ha
    dsimp only
    split
    · exact markEntries_inv s _ i (mark_block_referenced_inv s _ _ i h1)
    · exact h1
  · exact ha

/-- Effect of one inode walk on the reference bit of block b. -/
theorem markInode_br (s a : St) (i b : Nat) (ha : MarkInv s a) :
    (markInode a i).block_referenced b
      = (a.block_referenced b ||
         (is_valid_inode s.inodes i &&
          decide (s.superblock.data_block_start ≤ b) && decide (b < TOTAL_BLOCKS) &&
          decide (inodeClaims s i b))) := by
  have hbody : (markInode a i).block_referenced b
      = (a.block_referenced b ||
         (is_valid_inode s.inodes i &&
          ((List.range 12).any (dirHit s i b) ||
           (decide ((s.inodes i).indirect_block ≠ 0) &&
            (decide (b = (s.inodes i).indirect_block) &&
             decide (s.superblock.data_block_start ≤ (s.inodes i).indirect_block) &&
             decide ((s.inodes i).indirect_block < TOTAL_BLOCKS))) ||
           (decide ((s.inodes i).indirect_block ≠ 0) &&
            (List.range ENTRIES_PER_BLOCK).any (entryHit s i b))))) := by
    unfold markInode
    rw [ha.2.2.2.1]
    by_cases hval : is_valid_inode s.inodes i = true
    · rw [if_pos hval, hval]
      have h1 := markDirects_inv s a i ha
      dsimp only
      rw [(markDirects_inv s a i ha).2.2.2.1]
      by_cases hib : (s.inodes i).indirect_block ≠ 0
      · rw [if_pos hib]
        have h2 := mark_block_referenced_inv s _ ((s.inodes i).indirect_block) i h1
        rw [markEntries_br s _ i b h2, mark_block_referenced_br,
            markDirects_br s a i b ha, h1.1]
        simp [hib, Bool.or_assoc]
      · rw [if_neg hib]
        rw [markDirects_br s a i b ha]
        simp at hib
        simp [hib]
    · rw [if_neg hval]
      simp at hval
      simp [hval]
  rw [hbody]
  by_cases hval : is_valid_inode s.inodes i = true
  · rw [hval]
    congr 1
    rw [Bool.eq_iff_iff]
    simp only [Bool.true_and, Bool.and_eq_true, Bool.or_eq_true, decide_eq_true_eq,
      List.any_eq_true, List.mem_range, dirHit, entryHit]
    unfold inodeClaims
    constructor
    · rintro ((⟨j, hj, hnz, ⟨hb, hge⟩, hlt⟩ | ⟨hnz, ⟨hb, hge⟩, hlt⟩) |
        ⟨hnz, k, hk, hnz2, ⟨hb, hge⟩, hlt⟩)
      · subst hb; exact ⟨⟨hge, hlt⟩, Or.inl ⟨j, hj, hnz, rfl⟩⟩
      · subst hb; exact ⟨⟨hge, hlt⟩, Or.inr (Or.inl ⟨hnz, rfl⟩)⟩
      · subst hb; exact ⟨⟨hge, hlt⟩, Or.inr (Or.inr ⟨hnz, k, hk, hnz2, rfl⟩)⟩
    · rintro ⟨⟨hge, hlt⟩, ⟨j, hj, hnz, hb⟩ | ⟨hnz, hb⟩ | ⟨hnz, k, hk, hnz2, hb⟩⟩
      · subst hb; exact Or.inl (Or.inl ⟨j, hj, hnz, ⟨rfl, hge⟩, hlt⟩)
      · subst hb; exact Or.inl (Or.inr ⟨hnz, ⟨rfl, hge⟩, hlt⟩)
      · subst hb; exact Or.inr ⟨hnz, k, hk, hnz2, ⟨rfl, hge⟩, hlt⟩
  · simp at hval
    simp [hval]

theorem resetRefs_markinv (s : St) : MarkInv s (resetRefs s) :=
  ⟨rfl, rfl, rfl, rfl, rfl, rfl, rfl⟩

theorem markAll_inv (s : St) : MarkInv s (markAll s) :=
  foldl_inv _ _ _ (fun a i _ hP => markInode_inv s a i hP) _ (resetRefs_markinv s)

/-- The reference tracker computed by the walk holds exactly the
specReferenced blocks. -/
theorem markAll_br (s : St) (b : Nat) :
    (markAll s).block_referenced b = decide (specReferenced s b) := by
  have h := foldl_hom_inv (MarkInv s) (fun a => a.block_referenced b)
    markInode
    (fun x i => x ||
      (is_valid_inode s.inodes i &&
       decide (s.superblock.data_block_start ≤ b) && decide (b < TOTAL_BLOCKS) &&
       decide (inodeClaims s i b)))
    (List.range INODE_COUNT)
    (fun a i _ hP => markInode_inv s a i hP)
    (fun a i _ hP => markInode_br s a i b hP)
    (resetRefs s) (resetRefs_markinv s)
  obtain ⟨h1, -⟩ := h
  dsimp only at h1
  unfold markAll
  rw [h1, foldl_bor]
  have h0 : (resetRefs s).block_referenced b = false := rfl
  rw [h0, Bool.false_or, Bool.eq_iff_iff]
  simp only [List.any_eq_true, List.mem_range, Bool.and_eq_true, decide_eq_true_eq]
  unfold specReferenced
  constructor
  · rintro ⟨i, hi, ⟨⟨hv, hge⟩, hlt⟩, hc⟩
    exact ⟨hge, hlt, i, hi, hv, hc⟩
  · rintro ⟨hge, hlt, i, hi, hv, hc⟩
    exact ⟨i, hi, ⟨⟨hv, hge⟩, hlt⟩, hc⟩

/-- Mismatch between the data bitmap and the reference walk at block b. -/
def dbmMismatch (s : St) (b : Nat) : Prop :=
  (get_bit s.data_bitmap (b - s.superblock.data_block_start) ≠ 0 ∧ ¬ specReferenced s b) ∨
  (get_bit s.data_bitmap (b - s.superblock.data_block_start) = 0 ∧ specReferenced s b)

instance (s : St) (b : Nat) : Decidable (dbmMismatch s b) := by
  unfold dbmMismatch; infer_instance

/-- Blocks examined by the data-bitmap pass. -/
def dataRange (s : St) : List Nat :=
  List.range' s.superblock.data_block_start (TOTAL_BLOCKS - s.superblock.data_block_start)

theorem check_data_bitmap_errors (s : St) :
    (check_data_bitmap_consistency s).2.errors_found
      = s.errors_found + (dataRange s).countP (fun b => decide (dbmMismatch s b)) := by
  obtain ⟨hsb, hibm, hdbm, hino, himg, hef, hex⟩ := markAll_inv s
  unfold check_data_bitmap_consistency dataRange
  dsimp only
  rw [hsb, hef]
  rw [foldl_twoIf
    (fun i => get_bit (markAll s).data_bitmap (i - s.superblock.data_block_start) ≠ 0 ∧
      ¬ (markAll s).block_referenced i = true)
    (fun i => get_bit (markAll s).data_bitmap (i - s.superblock.data_block_start) = 0 ∧
      (markAll s).block_referenced i = true)]
  refine congrArg (fun x => s.errors_found + x) ?_
  refine List.countP_congr (fun b _ => ?_)
  simp only [hdbm, markAll_br, decide_eq_true_eq, dbmMismatch]

theorem check_data_bitmap_flag (s : St) :
    (check_data_bitmap_consistency s).1 = true ↔ ∀ b ∈ dataRange s, ¬ dbmMismatch s b := by
  obtain ⟨hsb, hibm, hdbm, hino, himg, hef, hex⟩ := markAll_inv s
  unfold check_data_bitmap_consistency
  dsimp only
  rw [hsb, hef]
  rw [foldl_twoIf
    (fun i => get_bit (markAll s).data_bitmap (i - s.superblock.data_block_start) ≠ 0 ∧
      ¬ (markAll s).block_referenced i = true)
    (fun i => get_bit (markAll s).data_bitmap (i - s.superblock.data_block_start) = 0 ∧
      (markAll s).block_referenced i = true)]
  simp only [Bool.true_and, List.all_eq_true, decide_eq_true_eq]
  refine forall_congr' (fun b => imp_congr_right (fun _ => ?_))
  simp only [hsb, hdbm, markAll_br, dbmMismatch, decide_eq_true_eq]

theorem check_data_bitmap_state (s : St) :
    (check_data_bitmap_consistency s).2.superblock = s.superblock ∧
    (check_data_bitmap_consistency s).2.inode_bitmap = s.inode_bitmap ∧
    (check_data_bitmap_consistency s).2.data_bitmap = s.data_bitmap ∧
    (check_data_bitmap_consistency s).2.inodes = s.inodes ∧
    (check_data_bitmap_consistency s).2.img = s.img ∧
    (check_data_bitmap_consistency s).2.errors_fixed = s.errors_fixed := by
  obtain ⟨hsb, hibm, hdbm, hino, himg, hef, hex⟩ := markAll_inv s
  unfold check_data_bitmap_consistency
  dsimp only
  exact ⟨hsb, hibm, hdbm, hino, himg, hex⟩

theorem check_data_bitmap_br (s : St) (b : Nat) :
    (check_data_bitmap_consistency s).2.block_referenced b = decide (specReferenced s b) := by
  unfold check_data_bitmap_consistency
  dsimp only
  exact markAll_br s b

/-- Disagreement between the inode bitmap bit of slot i and recomputed
validity, in either direction. -/
def ibmMismatch (s : St) (i : Nat) : Prop :=
  (get_bit s.inode_bitmap i ≠ 0 ∧ ¬ is_valid_inode s.inodes i = true) ∨
  (get_bit s.inode_bitmap i = 0 ∧ is_valid_inode s.inodes i = true)

instance (s : St) (i : Nat) : Decidable (ibmMismatch s i) := by
  unfold ibmMismatch; infer_instance

theorem check_inode_bitmap_errors (s : St) :
    (check_inode_bitmap_consistency s).2.errors_found
      = s.errors_found + (List.range INODE_COUNT).countP (fun i => decide (ibmMismatch s i)) := by
  unfold check_inode_bitmap_consistency
  dsimp only
  rw [foldl_twoIf
    (fun i => get_bit s.inode_bitmap i ≠ 0 ∧ ¬ is_valid_inode s.inodes i = true)
    (fun i => get_bit s.inode_bitmap i = 0 ∧ is_valid_inode s.inodes i = true)]
  refine congrArg (fun x => s.errors_found + x) ?_
  refine List.countP_congr (fun i _ => ?_)
  simp only [decide_eq_true_eq, ibmMismatch]

theorem check_inode_bitmap_flag (s : St) :
    (check_inode_bitmap_consistency s).1 = true ↔
      ∀ i ∈ List.range INODE_COUNT, ¬ ibmMismatch s i := by
  unfold check_inode_bitmap_consistency
  dsimp only
  rw [foldl_twoIf
    (fun i => get_bit s.inode_bitmap i ≠ 0 ∧ ¬ is_valid_inode s.inodes i = true)
    (fun i => get_bit s.inode_bitmap i = 0 ∧ is_valid_inode s.inodes i = true)]
  simp only [Bool.true_and, List.all_eq_true, decide_eq_true_eq]
  exact forall_congr' (fun i => imp_congr_right (fun _ => Iff.rfl))

theorem check_inode_bitmap_state (s : St) :
    (check_inode_bitmap_consistency s).2.superblock = s.superblock ∧
    (check_inode_bitmap_consistency s).2.inode_bitmap = s.inode_bitmap ∧
    (check_inode_bitmap_consistency s).2.data_bitmap = s.data_bitmap ∧
    (check_inode_bitmap_consistency s).2.inodes = s.inodes ∧
    (check_inode_bitmap_consistency s).2.img = s.img ∧
    (check_inode_bitmap_consistency s).2.block_referenced = s.block_referenced ∧
    (check_inode_bitmap_consistency s).2.errors_fixed = s.errors_fixed :=
  ⟨rfl, rfl, rfl, rfl, rfl, rfl, rfl⟩

/-! ### Duplicate-check characterization -/

/-- Occurrence list contributed by inode i to block b during the duplicate
walk: one entry per recording direct slot, one for the indirect pointer
itself, one per recording entry of the indirect block (walk order). -/
def inodeClaimList (s : St) (i b : Nat) : List Nat :=
  ((List.range 12).filter
    (fun j => decide ((s.inodes i).direct_blocks j ≠ 0 ∧
      (s.inodes i).direct_blocks j < TOTAL_BLOCKS ∧ b = (s.inodes i).direct_blocks j))).map (fun _ => i)
  ++ (if (s.inodes i).indirect_block ≠ 0 ∧ (s.inodes i).indirect_block < TOTAL_BLOCKS ∧
        b = (s.inodes i).indirect_block then [i] else [])
  ++ (if (s.inodes i).indirect_block ≠ 0 ∧ (s.inodes i).indirect_block < TOTAL_BLOCKS then
      ((List.range ENTRIES_PER_BLOCK).filter
        (fun k => decide (s.img ((s.inodes i).indirect_block) k ≠ 0 ∧
          s.img ((s.inodes i).indirect_block) k < TOTAL_BLOCKS ∧
          b = s.img ((s.inodes i).indirect_block) k))).map (fun _ => i)
      else [])

/-- All claim occurrences recorded for block b, over the valid inodes in
index order. -/
def dupClaimants (s : St) (b : Nat) : List Nat :=
  (List.range INODE_COUNT).flatMap
    (fun i => if is_valid_inode s.inodes i then inodeClaimList s i b else [])

/-- Generic recording fold: conditional per-element append at a target
cell. -/
theorem foldl_record (l : List Nat) (cond : Nat → Prop) [DecidablePred cond]
    (tgt : Nat → Nat) (i b : Nat) :
    ∀ refs : Nat → List Nat,
      (l.foldl
        (fun r j => if cond j then (fun x => if x = tgt j then r x ++ [i] else r x) else r)
        refs) b
      = refs b ++ (l.filter (fun j => decide (cond j ∧ b = tgt j))).map (fun _ => i) := by
  induction l with
  | nil => simp
  | cons x l ih =>
    intro refs
    rw [List.foldl_cons]
    by_cases hc : cond x
    · rw [if_pos hc, ih]
      by_cases hb : b = tgt x
      · rw [if_pos hb]
        simp [List.filter_cons, hc, hb, List.append_assoc]
      · rw [if_neg hb]
        simp [List.filter_cons, hc, hb]
    · rw [if_neg hc, ih]
      simp [List.filter_cons, hc]

/-- Effect of one inode on the recorded claimant lists. -/
theorem recordInode_eq (s : St) (refs : Nat → List Nat) (i b : Nat) :
    recordInode s refs i b
      = refs b ++ (if is_valid_inode s.inodes i then inodeClaimList s i b else []) := by
  unfold recordInode inodeClaimList
  by_cases hval : is_valid_inode s.inodes i = true
  · rw [if_pos hval, if_pos hval]
    dsimp only
    by_cases hib : (s.inodes i).indirect_block ≠ 0 ∧ (s.inodes i).indirect_block < TOTAL_BLOCKS
    · rw [if_pos hib]
      rw [foldl_record (List.range ENTRIES_PER_BLOCK)
        (fun k => s.img ((s.inodes i).indirect_block) k ≠ 0 ∧
          s.img ((s.inodes i).indirect_block) k < TOTAL_BLOCKS)
        (fun k => s.img ((s.inodes i).indirect_block) k) i b]
      by_cases hb : b = (s.inodes i).indirect_block
      · rw [if_pos hb]
        rw [foldl_record (List.range 12)
          (fun j => (s.inodes i).direct_blocks j ≠ 0 ∧ (s.inodes i).direct_blocks j < TOTAL_BLOCKS)
          (fun j => (s.inodes i).direct_blocks j) i b]
        rw [if_pos ⟨hib.1, hib.2, hb⟩]
        simp [List.append_assoc, Bool.and_assoc, hib]
      · rw [if_neg hb]
        rw [foldl_record (List.range 12)
          (fun j => (s.inodes i).direct_blocks j ≠ 0 ∧ (s.inodes i).direct_blocks j < TOTAL_BLOCKS)
          (fun j => (s.inodes i).direct_blocks j) i b]
        rw [if_neg (fun h => hb h.2.2)]
        simp [List.append_assoc, Bool.and_assoc, hib]
    · rw [if_neg hib]
      rw [foldl_record (List.range 12)
        (fun j => (s.inodes i).direct_blocks j ≠ 0 ∧ (s.inodes i).direct_blocks j < TOTAL_BLOCKS)
        (fun j => (s.inodes i).direct_blocks j) i b]
      rw [if_neg (fun h => hib ⟨h.1, h.2.1⟩), if_neg hib]
      simp [Bool.and_assoc]
  · rw [if_neg hval, if_neg hval]
    simp

/-- Fold of list appends equals the flattened map. -/
theorem foldl_append_flatten (g : Nat → List Nat) (l : List Nat) :
    ∀ acc : List Nat, l.foldl (fun a i => a ++ g i) acc = acc ++ (l.map g).flatten := by
  induction l with
  | nil => simp
  | cons x l ih => intro acc; simp [ih, List.append_assoc]

/-- The duplicate walk records exactly the occurrence lists. -/
theorem dupRefs_eq (s : St) (b : Nat) : dupRefs s b = dupClaimants s b := by
  have h := foldl_hom_inv (fun _ => True) (fun refs => refs b)
    (recordInode s)
    (fun l i => l ++ (if is_valid_inode s.inodes i then inodeClaimList s i b else []))
    (List.range INODE_COUNT)
    (fun _ _ _ _ => trivial)
    (fun refs i _ _ => recordInode_eq s refs i b)
    (fun _ => []) trivial
  obtain ⟨h1, -⟩ := h
  dsimp only at h1
  unfold dupRefs dupClaimants
  rw [h1, foldl_append_flatten, List.flatMap_def]
  simp

theorem foldl_oneIf (p : Nat → Prop) [DecidablePred p] (l : List Nat) :
    ∀ b e, l.foldl
      (fun acc i => if p i then (false, acc.2 + 1) else acc) (b, e)
      = (b && l.all (fun i => decide (¬ p i)), e + l.countP (fun i => decide (p i))) := by
  induction l with
  | nil => simp
  | cons x l ih =>
    intro b e
    by_cases hp : p x <;> simp [hp, ih, List.countP_cons] <;> omega

theorem check_duplicate_errors (s : St) :
    (check_duplicate_blocks s).2.errors_found
      = s.errors_found + (dataRange s).countP (fun b => decide (1 < (dupClaimants s b).length)) := by
  unfold check_duplicate_blocks
  dsimp only
  rw [foldl_oneIf (fun i => 1 < (dupRefs s i).length)]
  refine congrArg (fun x => s.errors_found + x) ?_
  refine List.countP_congr (fun b _ => ?_)
  simp only [decide_eq_true_eq, dupRefs_eq]

theorem check_duplicate_flag (s : St) :
    (check_duplicate_blocks s).1 = true ↔
      ∀ b ∈ dataRange s, ¬ 1 < (dupClaimants s b).length := by
  unfold check_duplicate_blocks
  dsimp only
  rw [foldl_oneIf (fun i => 1 < (dupRefs s i).length)]
  simp only [Bool.true_and, List.all_eq_true, decide_eq_true_eq]
  exact forall_congr' (fun b => imp_congr_right (fun _ => by rw [dupRefs_eq]))

theorem check_duplicate_state (s : St) :
    (check_duplicate_blocks s).2.superblock = s.superblock ∧
    (check_duplicate_blocks s).2.inode_bitmap = s.inode_bitmap ∧
    (check_duplicate_blocks s).2.data_bitmap = s.data_bitmap ∧
    (check_duplicate_blocks s).2.inodes = s.inodes ∧
    (check_duplicate_blocks s).2.img = s.img ∧
    (check_duplicate_blocks s).2.block_referenced = s.block_referenced ∧
    (check_duplicate_blocks s).2.errors_fixed = s.errors_fixed :=
  ⟨rfl, rfl, rfl, rfl, rfl, rfl, rfl⟩

/-! ### Bad-block-check characterization -/

/-- Direct slots of inode i holding an out-of-range pointer. -/
def badDirectSlots (s : St) (i : Nat) : List Nat :=
  (List.range 12).filter
    (fun j => decide (badPtr s.superblock.data_block_start ((s.inodes i).direct_blocks j)))

/-- Entries of inode i's indirect block holding an out-of-range value. -/
def badEntrySlots (s : St) (i : Nat) : List Nat :=
  (List.range ENTRIES_PER_BLOCK).filter
    (fun k => decide (badPtr s.superblock.data_block_start (s.img ((s.inodes i).indirect_block) k)))

/-- Number of bad-block findings contributed by inode i. -/
def badCountInode (s : St) (i : Nat) : Nat :=
  if is_valid_inode s.inodes i then
    (badDirectSlots s i).length +
    (if (s.inodes i).indirect_block ≠ 0 then
       if (s.inodes i).indirect_block < s.superblock.data_block_start ∨
          TOTAL_BLOCKS ≤ (s.inodes i).indirect_block then 1
       else (badEntrySlots s i).length
     else 0)
  else 0

theorem all_not_eq_countP_zero (p : Nat → Bool) (l : List Nat) :
    l.all (fun i => ! p i) = decide (l.countP p = 0) := by
  rw [Bool.eq_iff_iff]
  simp [List.countP_eq_zero, List.all_eq_true]

theorem foldl_flagsum (g : Nat → Nat) (l : List Nat) (step : Bool × Nat → Nat → Bool × Nat)
    (h : ∀ acc i, i ∈ l → step acc i = (acc.1 && decide (g i = 0), acc.2 + g i)) :
    ∀ b e, l.foldl step (b, e) = (b && l.all (fun i => decide (g i = 0)), e + (l.map g).sum) := by
  induction l with
  | nil => simp
  | cons x l ih =>
    intro b e
    rw [List.foldl_cons, h _ x (List.mem_cons_self x l),
      ih (fun acc i hi => h acc i (List.mem_cons_of_mem x hi))]
    simp [Bool.and_assoc, Nat.add_assoc]

theorem decide_add_eq_zero (a c : Nat) :
    decide (a + c = 0) = (decide (a = 0) && decide (c = 0)) := by
  rw [Bool.eq_iff_iff]
  simp

/-- One inode step of check_bad_blocks. -/
theorem badStep_eq (s : St) (acc : Bool × Nat) (i : Nat) :
    (if is_valid_inode s.inodes i then
      let acc1 := (List.range 12).foldl
        (fun (a : Bool × Nat) j =>
          let bn := (s.inodes i).direct_blocks j
          if bn ≠ 0 ∧ (bn < s.superblock.data_block_start ∨ TOTAL_BLOCKS ≤ bn) then
            (false, a.2 + 1)
          else a) acc
      let ib := (s.inodes i).indirect_block
      if ib ≠ 0 then
        if ib < s.superblock.data_block_start ∨ TOTAL_BLOCKS ≤ ib then (false, acc1.2 + 1)
        else
          let entries := s.img ib
          (List.range ENTRIES_PER_BLOCK).foldl
            (fun (a : Bool × Nat) j =>
              let bn := entries j
              if bn ≠ 0 ∧ (bn < s.superblock.data_block_start ∨ TOTAL_BLOCKS ≤ bn) then
                (false, a.2 + 1)
              else a) acc1
      else acc1
    else acc)
      = (acc.1 && decide (badCountInode s i = 0), acc.2 + badCountInode s i) := by
  unfold badCountInode
  by_cases hval : is_valid_inode s.inodes i = true
  · rw [if_pos hval, if_pos hval]
    dsimp only
    obtain ⟨b, e⟩ := acc
    have h12 := foldl_oneIf
      (fun j => (s.inodes i).direct_blocks j ≠ 0 ∧
        ((s.inodes i).direct_blocks j < s.superblock.data_block_start ∨
         TOTAL_BLOCKS ≤ (s.inodes i).direct_blocks j)) (List.range 12) b e
    rw [h12]
    have hc12 : (List.range 12).countP
        (fun j => decide ((s.inodes i).direct_blocks j ≠ 0 ∧
          ((s.inodes i).direct_blocks j < s.superblock.data_block_start ∨
           TOTAL_BLOCKS ≤ (s.inodes i).direct_blocks j)))
        = (badDirectSlots s i).length := by
      rw [List.countP_eq_length_filter]
      unfold badDirectSlots badPtr
      rfl
    have ha12 : (List.range 12).all
        (fun j => decide (¬ ((s.inodes i).direct_blocks j ≠ 0 ∧
          ((s.inodes i).direct_blocks j < s.superblock.data_block_start ∨
           TOTAL_BLOCKS ≤ (s.inodes i).direct_blocks j))))
        = decide ((badDirectSlots s i).length = 0) := by
      rw [show (fun j => decide (¬ ((s.inodes i).direct_blocks j ≠ 0 ∧
          ((s.inodes i).direct_blocks j < s.superblock.data_block_start ∨
           TOTAL_BLOCKS ≤ (s.inodes i).direct_blocks j))))
        = (fun j => ! decide (badPtr s.superblock.data_block_start ((s.inodes i).direct_blocks j)))
        from funext (fun j => by rw [Bool.eq_iff_iff]; simp [badPtr])]
      rw [all_not_eq_countP_zero, List.countP_eq_length_filter]
      unfold badDirectSlots
      rfl
    by_cases hib : (s.inodes i).indirect_block ≠ 0
    · rw [if_pos hib]
      by_cases hbad : (s.inodes i).indirect_block < s.superblock.data_block_start ∨
          TOTAL_BLOCKS ≤ (s.inodes i).indirect_block
      · rw [if_pos hbad, if_pos hib, if_pos hbad]
        dsimp only
        rw [hc12]
        simp [Nat.add_assoc]
      · rw [if_neg hbad, if_pos hib, if_neg hbad]
        have h1024 := foldl_oneIf
          (fun k => s.img ((s.inodes i).indirect_block) k ≠ 0 ∧
            (s.img ((s.inodes i).indirect_block) k < s.superblock.data_block_start ∨
             TOTAL_BLOCKS ≤ s.img ((s.inodes i).indirect_block) k))
          (List.range ENTRIES_PER_BLOCK)
          (b && (List.range 12).all
            (fun j => decide (¬ ((s.inodes i).direct_blocks j ≠ 0 ∧
              ((s.inodes i).direct_blocks j < s.superblock.data_block_start ∨
               TOTAL_BLOCKS ≤ (s.inodes i).direct_blocks j)))))
          (e + (List.range 12).countP
            (fun j => decide ((s.inodes i).direct_blocks j ≠ 0 ∧
              ((s.inodes i).direct_blocks j < s.superblock.data_block_start ∨
               TOTAL_BLOCKS ≤ (s.inodes i).direct_blocks j))))
        rw [h1024]
        have hc1024 : (List.range ENTRIES_PER_BLOCK).countP
            (fun k => decide (s.img ((s.inodes i).indirect_block) k ≠ 0 ∧
              (s.img ((s.inodes i).indirect_block) k < s.superblock.data_block_start ∨
               TOTAL_BLOCKS ≤ s.img ((s.inodes i).indirect_block) k)))
            = (badEntrySlots s i).length := by
          rw [List.countP_eq_length_filter]
          unfold badEntrySlots badPtr
          rfl
        have ha1024 : (List.range ENTRIES_PER_BLOCK).all
            (fun k => decide (¬ (s.img ((s.inodes i).indirect_block) k ≠ 0 ∧
              (s.img ((s.inodes i).indirect_block) k < s.superblock.data_block_start ∨
               TOTAL_BLOCKS ≤ s.img ((s.inodes i).indirect_block) k))))
            = decide ((badEntrySlots s i).length = 0) := by
          rw [show (fun k => decide (¬ (s.img ((s.inodes i).indirect_block) k ≠ 0 ∧
              (s.img ((s.inodes i).indirect_block) k < s.superblock.data_block_start ∨
               TOTAL_BLOCKS ≤ s.img ((s.inodes i).indirect_block) k))))
            = (fun k => ! decide (badPtr s.superblock.data_block_start
                (s.img ((s.inodes i).indirect_block) k)))
            from funext (fun k => by rw [Bool.eq_iff_iff]; simp [badPtr])]
          rw [all_not_eq_countP_zero, List.countP_eq_length_filter]
          unfold badEntrySlots
          rfl
        rw [hc12, ha12, hc1024, ha1024]
        simp [decide_add_eq_zero, Nat.add_assoc, Bool.and_assoc]
    · rw [if_neg hib, if_neg hib]
      rw [hc12, ha12]
      simp
  · rw [if_neg hval, if_neg hval]
    simp

theorem check_bad_blocks_errors (s : St) :
    (check_bad_blocks s).2.errors_found
      = s.errors_found + ((List.range INODE_COUNT).map (badCountInode s)).sum := by
  unfold check_bad_blocks
  dsimp only
  rw [foldl_flagsum (badCountInode s) _ _ (fun acc i _ => badStep_eq s acc i)]

theorem check_bad_blocks_flag (s : St) :
    (check_bad_blocks s).1 = true ↔ ∀ i ∈ List.range INODE_COUNT, badCountInode s i = 0 := by
  unfold check_bad_blocks
  dsimp only
  rw [foldl_flagsum (badCountInode s) _ _ (fun acc i _ => badStep_eq s acc i)]
  simp only [Bool.true_and, List.all_eq_true, decide_eq_true_eq]

theorem check_bad_blocks_state (s : St) :
    (check_bad_blocks s).2.superblock = s.superblock ∧
    (check_bad_blocks s).2.inode_bitmap = s.inode_bitmap ∧
    (check_bad_blocks s).2.data_bitmap = s.data_bitmap ∧
    (check_bad_blocks s).2.inodes = s.inodes ∧
    (check_bad_blocks s).2.img = s.img ∧
    (check_bad_blocks s).2.block_referenced = s.block_referenced ∧
    (check_bad_blocks s).2.errors_fixed = s.errors_fixed :=
  ⟨rfl, rfl, rfl, rfl, rfl, rfl, rfl⟩

/-! ### Bit-operation lemmas -/

theorem get_bit_eq_testBit (bm : Nat → Nat) (i : Nat) :
    get_bit bm i = if (bm (i / 8)).testBit (i % 8) then 1 else 0 := by
  unfold get_bit
  rw [Nat.and_one_is_mod, Nat.shiftRight_eq_div_pow, Nat.testBit_to_div_mod]
  rcases Nat.mod_two_eq_zero_or_one (bm (i / 8) / 2 ^ (i % 8)) with h | h <;> simp [h]

theorem get_bit_zero_or_one (bm : Nat → Nat) (i : Nat) :
    get_bit bm i = 0 ∨ get_bit bm i = 1 := by
  rw [get_bit_eq_testBit]
  split
  · exact Or.inr rfl
  · exact Or.inl rfl

theorem set_bit_byte (bm : Nat → Nat) (i k : Nat) :
    set_bit bm i k = if k = i / 8 then bm k ||| (1 <<< (i % 8)) else bm k := rfl

theorem clear_bit_byte (bm : Nat → Nat) (i k : Nat) :
    clear_bit bm i k = if k = i / 8 then bm k &&& (255 ^^^ (1 <<< (i % 8))) else bm k := rfl

theorem bit_byte_ne {i j : Nat} (hne : i ≠ j) (hb : i / 8 = j / 8) : i % 8 ≠ j % 8 := by
  omega

theorem get_bit_set_bit (bm : Nat → Nat) (i j : Nat) :
    get_bit (set_bit bm i) j = if j = i then 1 else get_bit bm j := by
  by_cases hij : j = i
  · subst hij
    rw [if_pos rfl, get_bit_eq_testBit, set_bit_byte, if_pos rfl,
      Nat.one_shiftLeft, Nat.testBit_or, Nat.testBit_two_pow]
    simp
  · rw [if_neg hij]
    by_cases hbyte : j / 8 = i / 8
    · rw [get_bit_eq_testBit, get_bit_eq_testBit bm j, set_bit_byte, if_pos hbyte,
        Nat.one_shiftLeft, Nat.testBit_or, Nat.testBit_two_pow]
      have hmod : i % 8 ≠ j % 8 := bit_byte_ne (fun h => hij h.symm) hbyte.symm
      simp [hmod]
    · rw [get_bit_eq_testBit, get_bit_eq_testBit bm j, set_bit_byte, if_neg hbyte]

theorem two_five_five : (255 : Nat) = 2 ^ 8 - 1 := by norm_num

theorem get_bit_clear_bit (bm : Nat → Nat) (i j : Nat) :
    get_bit (clear_bit bm i) j = if j = i then 0 else get_bit bm j := by
  by_cases hij : j = i
  · subst hij
    rw [if_pos rfl, get_bit_eq_testBit, clear_bit_byte, if_pos rfl,
      Nat.one_shiftLeft, Nat.testBit_and, Nat.testBit_xor, two_five_five,
      Nat.testBit_two_pow_sub_one, Nat.testBit_two_pow]
    have : j % 8 < 8 := Nat.mod_lt _ (by norm_num)
    simp [this]
  · rw [if_neg hij]
    by_cases hbyte : j / 8 = i / 8
    · rw [get_bit_eq_testBit, get_bit_eq_testBit bm j, clear_bit_byte, if_pos hbyte,
        Nat.one_shiftLeft, Nat.testBit_and, Nat.testBit_xor, two_five_five,
        Nat.testBit_two_pow_sub_one, Nat.testBit_two_pow]
      have hmod : i % 8 ≠ j % 8 := bit_byte_ne (fun h => hij h.symm) hbyte.symm
      have hlt : j % 8 < 8 := Nat.mod_lt _ (by norm_num)
      simp [hmod, hlt]
    · rw [get_bit_eq_testBit, get_bit_eq_testBit bm j, clear_bit_byte, if_neg hbyte]

theorem set_bit_byte_ne (bm : Nat → Nat) (i k : Nat) (h : k ≠ i / 8) :
    set_bit bm i k = bm k := by
  rw [set_bit_byte, if_neg h]

theorem clear_bit_byte_ne (bm : Nat → Nat) (i k : Nat) (h : k ≠ i / 8) :
    clear_bit bm i k = bm k := by
  rw [clear_bit_byte, if_neg h]

/-! ### Superblock-fix lemmas -/

/-- The unique supported geometry. -/
def goodSB : Superblock :=
  ⟨MAGIC_NUMBER, BLOCK_SIZE, TOTAL_BLOCKS, 1, 2, 3, 8, INODE_SIZE, INODE_COUNT⟩

theorem fixMagic_sb (s : St) :
    (fixMagic s).superblock = { s.superblock with magic := MAGIC_NUMBER } := by
  unfold fixMagic
  split
  · rfl
  · rename_i h
    simp only [ne_eq, not_not] at h
    rw [← h]

theorem fixBlockSize_sb (s : St) :
    (fixBlockSize s).superblock = { s.superblock with block_size := BLOCK_SIZE } := by
  unfold fixBlockSize
  split
  · rfl
  · rename_i h
    simp only [ne_eq, not_not] at h
    rw [← h]

theorem fixTotalBlocks_sb (s : St) :
    (fixTotalBlocks s).superblock = { s.superblock with total_blocks := TOTAL_BLOCKS } := by
  unfold fixTotalBlocks
  split
  · rfl
  · rename_i h
    simp only [ne_eq, not_not] at h
    rw [← h]

theorem fixInodeBitmapBlock_sb (s : St) :
    (fixInodeBitmapBlock s).superblock = { s.superblock with inode_bitmap_block := 1 } := by
  unfold fixInodeBitmapBlock
  split
  · rfl
  · rename_i h
    simp only [ne_eq, not_not] at h
    rw [← h]

theorem fixDataBitmapBlock_sb (s : St) :
    (fixDataBitmapBlock s).superblock = { s.superblock with data_bitmap_block := 2 } := by
  unfold fixDataBitmapBlock
  split
  · rfl
  · rename_i h
    simp only [ne_eq, not_not] at h
    rw [← h]

theorem fixInodeTableStart_sb (s : St) :
    (fixInodeTableStart s).superblock = { s.superblock with inode_table_start := 3 } := by
  unfold fixInodeTableStart
  split
  · rfl
  · rename_i h
    simp only [ne_eq, not_not] at h
    rw [← h]

theorem fixDataBlockStart_sb (s : St) :
    (fixDataBlockStart s).superblock = { s.superblock with data_block_start := 8 } := by
  unfold fixDataBlockStart
  split
  · rfl
  · rename_i h
    simp only [ne_eq, not_not] at h
    rw [← h]

theorem fixInodeSize_sb (s : St) :
    (fixInodeSize s).superblock = { s.superblock with inode_size := INODE_SIZE } := by
  unfold fixInodeSize
  split
  · rfl
  · rename_i h
    simp only [ne_eq, not_not] at h
    rw [← h]

theorem fixInodeCount_sb (s : St) :
    (fixInodeCount s).superblock = { s.superblock with inode_count := INODE_COUNT } := by
  unfold fixInodeCount
  split
  · rfl
  · rename_i h
    simp only [ne_eq, not_not] at h
    rw [← h]

/-- After the superblock portion of fix_errors, the superblock equals the
supported constant geometry, whatever it was before. -/
theorem fix_superblock_fields_sb (s : St) :
    (fix_superblock_fields s).superblock = goodSB := by
  unfold fix_superblock_fields
  rw [fixInodeCount_sb, fixInodeSize_sb, fixDataBlockStart_sb, fixInodeTableStart_sb,
    fixDataBitmapBlock_sb, fixInodeBitmapBlock_sb, fixTotalBlocks_sb, fixBlockSize_sb,
    fixMagic_sb]
  rfl

/-- State components other than the superblock and the fixed-error counter
are untouched by the superblock fix steps. -/
def SbRestInv (s t : St) : Prop :=
  t.inode_bitmap = s.inode_bitmap ∧ t.data_bitmap = s.data_bitmap ∧
  t.inodes = s.inodes ∧ t.img = s.img ∧ t.block_referenced = s.block_referenced ∧
  t.errors_found = s.errors_found

theorem fixMagic_rest (s : St) : SbRestInv s (fixMagic s) := by
  unfold fixMagic
  split
  · exact ⟨rfl, rfl, rfl, rfl, rfl, rfl⟩
  · exact ⟨rfl, rfl, rfl, rfl, rfl, rfl⟩

theorem fixBlockSize_rest (s : St) : SbRestInv s (fixBlockSize s) := by
  unfold fixBlockSize
  split
  · exact ⟨rfl, rfl, rfl, rfl, rfl, rfl⟩
  · exact ⟨rfl, rfl, rfl, rfl, rfl, rfl⟩

theorem fixTotalBlocks_rest (s : St) : SbRestInv s (fixTotalBlocks s) := by
  unfold fixTotalBlocks
  split
  · exact ⟨rfl, rfl, rfl, rfl, rfl, rfl⟩
  · exact ⟨rfl, rfl, rfl, rfl, rfl, rfl⟩

theorem fixInodeBitmapBlock_rest (s : St) : SbRestInv s (fixInodeBitmapBlock s) := by
  unfold fixInodeBitmapBlock
  split
  · exact ⟨rfl, rfl, rfl, rfl, rfl, rfl⟩
  · exact ⟨rfl, rfl, rfl, rfl, rfl, rfl⟩

theorem fixDataBitmapBlock_rest (s : St) : SbRestInv s (fixDataBitmapBlock s) := by
  unfold fixDataBitmapBlock
  split
  · exact ⟨rfl, rfl, rfl, rfl, rfl, rfl⟩
  · exact ⟨rfl, rfl, rfl, rfl, rfl, rfl⟩

theorem fixInodeTableStart_rest (s : St) : SbRestInv s (fixInodeTableStart s) := by
  unfold fixInodeTableStart
  split
  · exact ⟨rfl, rfl, rfl, rfl, rfl, rfl⟩
  · exact ⟨rfl, rfl, rfl, rfl, rfl, rfl⟩

theorem fixDataBlockStart_rest (s : St) : SbRestInv s (fixDataBlockStart s) := by
  unfold fixDataBlockStart
  split
  · exact ⟨rfl, rfl, rfl, rfl, rfl, rfl⟩
  · exact ⟨rfl, rfl, rfl, rfl, rfl, rfl⟩

theorem fixInodeSize_rest (s : St) : SbRestInv s (fixInodeSize s) := by
  unfold fixInodeSize
  split
  · exact ⟨rfl, rfl, rfl, rfl, rfl, rfl⟩
  · exact ⟨rfl, rfl, rfl, rfl, rfl, rfl⟩

theorem fixInodeCount_rest (s : St) : SbRestInv s (fixInodeCount s) := by
  unfold fixInodeCount
  split
  · exact ⟨rfl, rfl, rfl, rfl, rfl, rfl⟩
  · exact ⟨rfl, rfl, rfl, rfl, rfl, rfl⟩

theorem SbRestInv_trans {s t u : St} (h1 : SbRestInv s t) (h2 : SbRestInv t u) :
    SbRestInv s u := by
  obtain ⟨p1, p2, p3, p4, p5, p6⟩ := h1
  obtain ⟨q1, q2, q3, q4, q5, q6⟩ := h2
  exact ⟨q1.trans p1, q2.trans p2, q3.trans p3, q4.trans p4, q5.trans p5, q6.trans p6⟩

theorem fix_superblock_fields_rest (s : St) : SbRestInv s (fix_superblock_fields s) := by
  unfold fix_superblock_fields
  exact SbRestInv_trans (SbRestInv_trans (SbRestInv_trans (SbRestInv_trans
    (SbRestInv_trans (SbRestInv_trans (SbRestInv_trans (SbRestInv_trans
      (fixMagic_rest s) (fixBlockSize_rest _)) (fixTotalBlocks_rest _))
      (fixInodeBitmapBlock_rest _)) (fixDataBitmapBlock_rest _))
      (fixInodeTableStart_rest _)) (fixDataBlockStart_rest _))
      (fixInodeSize_rest _)) (fixInodeCount_rest _)

theorem fixInodeCount_ef (s : St) :
    (fixInodeCount s).errors_fixed
      = s.errors_fixed + (if s.superblock.inode_count ≠ INODE_COUNT then 1 else 0) := by
  unfold fixInodeCount
  split
  · rename_i h
    simp [h]
  · rename_i h
    simp [h]

theorem fixMagic_ef_mono (s : St) : s.errors_fixed ≤ (fixMagic s).errors_fixed := by
  unfold fixMagic; split <;> simp

theorem fixBlockSize_ef_mono (s : St) : s.errors_fixed ≤ (fixBlockSize s).errors_fixed := by
  unfold fixBlockSize; split <;> simp

theorem fixTotalBlocks_ef_mono (s : St) : s.errors_fixed ≤ (fixTotalBlocks s).errors_fixed := by
  unfold fixTotalBlocks; split <;> simp

theorem fixInodeBitmapBlock_ef_mono (s : St) :
    s.errors_fixed ≤ (fixInodeBitmapBlock s).errors_fixed := by
  unfold fixInodeBitmapBlock; split <;> simp

theorem fixDataBitmapBlock_ef_mono (s : St) :
    s.errors_fixed ≤ (fixDataBitmapBlock s).errors_fixed := by
  unfold fixDataBitmapBlock; split <;> simp

theorem fixInodeTableStart_ef_mono (s : St) :
    s.errors_fixed ≤ (fixInodeTableStart s).errors_fixed := by
  unfold fixInodeTableStart; split <;> simp

theorem fixDataBlockStart_ef_mono (s : St) :
    s.errors_fixed ≤ (fixDataBlockStart s).errors_fixed := by
  unfold fixDataBlockStart; split <;> simp

theorem fixInodeSize_ef_mono (s : St) :
    s.errors_fixed ≤ (fixInodeSize s).errors_fixed := by
  unfold fixInodeSize; split <;> simp

/-! ### Inode-bitmap fix lemmas -/

/-- Components untouched by the inode-bitmap fix. -/
def IbmRestInv (s t : St) : Prop :=
  t.superblock = s.superblock ∧ t.data_bitmap = s.data_bitmap ∧
  t.inodes = s.inodes ∧ t.img = s.img ∧ t.block_referenced = s.block_referenced ∧
  t.block_referenced_by = s.block_referenced_by ∧ t.errors_found = s.errors_found

theorem ibmFixStep_rest (st : St) (i : Nat) : IbmRestInv st (ibmFixStep st i) := by
  unfold ibmFixStep
  dsimp only
  split
  · exact ⟨rfl, rfl, rfl, rfl, rfl, rfl, rfl⟩
  · split
    · exact ⟨rfl, rfl, rfl, rfl, rfl, rfl, rfl⟩
    · exact ⟨rfl, rfl, rfl, rfl, rfl, rfl, rfl⟩

theorem IbmRestInv_trans {s t u : St} (h1 : IbmRestInv s t) (h2 : IbmRestInv t u) :
    IbmRestInv s u := by
  obtain ⟨a1, a2, a3, a4, a5, a6, a7⟩ := h1
  obtain ⟨b1, b2, b3, b4, b5, b6, b7⟩ := h2
  exact ⟨b1.trans a1, b2.trans a2, b3.trans a3, b4.trans a4, b5.trans a5,
    b6.trans a6, b7.trans a7⟩

theorem ibmFold_rest (t : St) (l : List Nat) : IbmRestInv t (l.foldl ibmFixStep t) := by
  have h := foldl_inv (fun a => IbmRestInv t a) ibmFixStep l
    (fun a i _ hP => IbmRestInv_trans hP (ibmFixStep_rest a i)) t
    ⟨rfl, rfl, rfl, rfl, rfl, rfl, rfl⟩
  exact h

theorem ibmFixStep_get_ne (st : St) (i j : Nat) (hji : j ≠ i) :
    get_bit (ibmFixStep st i).inode_bitmap j = get_bit st.inode_bitmap j := by
  unfold ibmFixStep
  dsimp only
  split
  · show get_bit (clear_bit st.inode_bitmap i) j = _
    rw [get_bit_clear_bit, if_neg hji]
  · split
    · show get_bit (set_bit st.inode_bitmap i) j = _
      rw [get_bit_set_bit, if_neg hji]
    · rfl

theorem ibmFixStep_get_self (st : St) (i : Nat) :
    get_bit (ibmFixStep st i).inode_bitmap i
      = if is_valid_inode st.inodes i then 1 else 0 := by
  unfold ibmFixStep
  dsimp only
  split
  · rename_i h
    show get_bit (clear_bit st.inode_bitmap i) i = _
    rw [get_bit_clear_bit, if_pos rfl]
    simp [h.2]
  · split
    · rename_i h
      show get_bit (set_bit st.inode_bitmap i) i = _
      rw [get_bit_set_bit, if_pos rfl]
      simp [h.2]
    · rename_i h1 h2
      rcases get_bit_zero_or_one st.inode_bitmap i with h0 | h0 <;>
        by_cases hv : is_valid_inode st.inodes i = true <;>
        simp_all

theorem ibmFold_get_high (t : St) : ∀ n i, n ≤ i →
    get_bit ((List.range n).foldl ibmFixStep t).inode_bitmap i = get_bit t.inode_bitmap i := by
  intro n
  induction n with
  | zero => intro i _; rfl
  | succ n ih =>
    intro i hi
    rw [List.range_succ, List.foldl_append, List.foldl_cons, List.foldl_nil]
    rw [ibmFixStep_get_ne _ _ _ (by omega)]
    exact ih i (by omega)

theorem ibmFold_get (t : St) : ∀ n i, i < n →
    get_bit ((List.range n).foldl ibmFixStep t).inode_bitmap i
      = if is_valid_inode t.inodes i then 1 else 0 := by
  intro n
  induction n with
  | zero => intro i hi; omega
  | succ n ih =>
    intro i hi
    rw [List.range_succ, List.foldl_append, List.foldl_cons, List.foldl_nil]
    by_cases hin : i = n
    · subst hin
      rw [ibmFixStep_get_self]
      rw [(ibmFold_rest t (List.range i)).2.2.1]
    · rw [ibmFixStep_get_ne _ _ _ hin]
      exact ih i (by omega)

theorem fix_inode_bitmap_get (t : St) (i : Nat) (hi : i < INODE_COUNT) :
    get_bit (fix_inode_bitmap t).inode_bitmap i
      = if is_valid_inode t.inodes i then 1 else 0 :=
  ibmFold_get t INODE_COUNT i hi

theorem fix_inode_bitmap_rest (t : St) : IbmRestInv t (fix_inode_bitmap t) :=
  ibmFold_rest t (List.range INODE_COUNT)

theorem foldl_id {α : Type} (step : α → Nat → α) (l : List Nat) (a : α)
    (h : ∀ i, i ∈ l → step a i = a) : l.foldl step a = a := by
  induction l with
  | nil => rfl
  | cons x l ih =>
    rw [List.foldl_cons, h x (List.mem_cons_self x l)]
    exact ih (fun i hi => h i (List.mem_cons_of_mem x hi))

theorem ibmFixStep_id (st : St) (i : Nat)
    (h : (get_bit st.inode_bitmap i ≠ 0) ↔ is_valid_inode st.inodes i = true) :
    ibmFixStep st i = st := by
  unfold ibmFixStep
  dsimp only
  rcases get_bit_zero_or_one st.inode_bitmap i with h0 | h0 <;>
    by_cases hv : is_valid_inode st.inodes i = true <;>
    simp_all

theorem fix_inode_bitmap_id (t : St)
    (h : ∀ i, i < INODE_COUNT →
      ((get_bit t.inode_bitmap i ≠ 0) ↔ is_valid_inode t.inodes i = true)) :
    fix_inode_bitmap t = t :=
  foldl_id _ _ _ (fun i hi => ibmFixStep_id t i (h i (List.mem_range.mp hi)))

/-! ### Data-bitmap fix lemmas -/

/-- Components untouched by the data-bitmap fix. -/
def DbmRestInv (s t : St) : Prop :=
  t.superblock = s.superblock ∧ t.inode_bitmap = s.inode_bitmap ∧
  t.inodes = s.inodes ∧ t.img = s.img ∧ t.block_referenced = s.block_referenced ∧
  t.block_referenced_by = s.block_referenced_by ∧ t.errors_found = s.errors_found

theorem dbmFixStep_rest (st : St) (i : Nat) : DbmRestInv st (dbmFixStep st i) := by
  unfold dbmFixStep
  dsimp only
  split
  · exact ⟨rfl, rfl, rfl, rfl, rfl, rfl, rfl⟩
  · split
    · exact ⟨rfl, rfl, rfl, rfl, rfl, rfl, rfl⟩
    · exact ⟨rfl, rfl, rfl, rfl, rfl, rfl, rfl⟩

theorem DbmRestInv_trans {s t u : St} (h1 : DbmRestInv s t) (h2 : DbmRestInv t u) :
    DbmRestInv s u := by
  obtain ⟨a1, a2, a3, a4, a5, a6, a7⟩ := h1
  obtain ⟨b1, b2, b3, b4, b5, b6, b7⟩ := h2
  exact ⟨b1.trans a1, b2.trans a2, b3.trans a3, b4.trans a4, b5.trans a5,
    b6.trans a6, b7.trans a7⟩

theorem dbmFold_rest (t : St) (l : List Nat) : DbmRestInv t (l.foldl dbmFixStep t) :=
  foldl_inv (fun a => DbmRestInv t a) dbmFixStep l
    (fun a i _ hP => DbmRestInv_trans hP (dbmFixStep_rest a i)) t
    ⟨rfl, rfl, rfl, rfl, rfl, rfl, rfl⟩

theorem dbmFixStep_get_ne (st : St) (i k : Nat) (hk : k ≠ i - st.superblock.data_block_start) :
    get_bit (dbmFixStep st i).data_bitmap k = get_bit st.data_bitmap k := by
  unfold dbmFixStep
  dsimp only
  split
  · show get_bit (clear_bit st.data_bitmap (i - st.superblock.data_block_start)) k = _
    rw [get_bit_clear_bit, if_neg hk]
  · split
    · show get_bit (set_bit st.data_bitmap (i - st.superblock.data_block_start)) k = _
      rw [get_bit_set_bit, if_neg hk]
    · rfl

theorem dbmFixStep_get_self (st : St) (i : Nat) :
    get_bit (dbmFixStep st i).data_bitmap (i - st.superblock.data_block_start)
      = if st.block_referenced i then 1 else 0 := by
  unfold dbmFixStep
  dsimp only
  split
  · rename_i h
    show get_bit (clear_bit st.data_bitmap (i - st.superblock.data_block_start)) _ = _
    rw [get_bit_clear_bit, if_pos rfl]
    simp [h.2]
  · split
    · rename_i h
      show get_bit (set_bit st.data_bitmap (i - st.superblock.data_block_start)) _ = _
      rw [get_bit_set_bit, if_pos rfl]
      simp [h.2]
    · rename_i h1 h2
      rcases get_bit_zero_or_one st.data_bitmap (i - st.superblock.data_block_start) with h0 | h0 <;>
        by_cases hr : st.block_referenced i = true <;>
        simp_all

theorem dbmFold_get_high (t : St) (h8 : t.superblock.data_block_start = 8) :
    ∀ n k, 8 + n ≤ 8 + k →
    get_bit ((List.range' 8 n).foldl dbmFixStep t).data_bitmap k = get_bit t.data_bitmap k := by
  intro n
  induction n with
  | zero => intro k _; rfl
  | succ n ih =>
    intro k hk
    rw [List.range'_concat, List.foldl_append, List.foldl_cons, List.foldl_nil]
    have hsb : ((List.range' 8 n).foldl dbmFixStep t).superblock = t.superblock :=
      (dbmFold_rest t (List.range' 8 n)).1
    rw [dbmFixStep_get_ne _ _ _ (by rw [hsb, h8]; simp; omega)]
    exact ih k (by omega)

theorem dbmFold_get (t : St) (h8 : t.superblock.data_block_start = 8) :
    ∀ n b, 8 ≤ b → b < 8 + n → n ≤ 56 →
    get_bit ((List.range' 8 n).foldl dbmFixStep t).data_bitmap (b - 8)
      = if t.block_referenced b then 1 else 0 := by
  intro n
  induction n with
  | zero => intro b h1 h2 _; omega
  | succ n ih =>
    intro b h1 h2 h3
    rw [List.range'_concat, List.foldl_append, List.foldl_cons, List.foldl_nil]
    have hrest := dbmFold_rest t (List.range' 8 n)
    by_cases hbn : b = 8 + n
    · have : b - 8 = (8 + 1 * n) - ((List.range' 8 n).foldl dbmFixStep t).superblock.data_block_start := by
        rw [hrest.1, h8]; omega
      rw [this, dbmFixStep_get_self, hrest.2.2.2.2.1]
      have : (8 + 1 * n) = b := by omega
      rw [this]
    · rw [dbmFixStep_get_ne _ _ _ (by rw [hrest.1, h8]; omega)]
      exact ih b h1 (by omega) (by omega)

theorem fix_data_bitmap_get (t : St) (h8 : t.superblock.data_block_start = 8)
    (b : Nat) (hb1 : 8 ≤ b) (hb2 : b < TOTAL_BLOCKS) :
    get_bit (fix_data_bitmap t).data_bitmap (b - 8)
      = if t.block_referenced b then 1 else 0 := by
  unfold fix_data_bitmap
  rw [h8]
  exact dbmFold_get t h8 56 b hb1 (by revert hb2; unfold TOTAL_BLOCKS; omega) (by omega)

theorem fix_data_bitmap_get_high (t : St) (h8 : t.superblock.data_block_start = 8)
    (k : Nat) (hk : 56 ≤ k) :
    get_bit (fix_data_bitmap t).data_bitmap k = get_bit t.data_bitmap k := by
  unfold fix_data_bitmap
  rw [h8]
  exact dbmFold_get_high t h8 56 k (by omega)

theorem fix_data_bitmap_rest (t : St) : DbmRestInv t (fix_data_bitmap t) :=
  dbmFold_rest t _

theorem dbmFixStep_id (st : St) (i : Nat)
    (h : (get_bit st.data_bitmap (i - st.superblock.data_block_start) ≠ 0) ↔
      st.block_referenced i = true) :
    dbmFixStep st i = st := by
  unfold dbmFixStep
  dsimp only
  rcases get_bit_zero_or_one st.data_bitmap (i - st.superblock.data_block_start) with h0 | h0 <;>
    by_cases hr : st.block_referenced i = true <;>
    simp_all

theorem fix_data_bitmap_id (t : St)
    (h : ∀ b, t.superblock.data_block_start ≤ b → b < TOTAL_BLOCKS →
      ((get_bit t.data_bitmap (b - t.superblock.data_block_start) ≠ 0) ↔
       t.block_referenced b = true)) :
    fix_data_bitmap t = t := by
  refine foldl_id _ _ _ (fun i hi => ?_)
  rw [List.mem_range'_1] at hi
  exact dbmFixStep_id t i (h i hi.1 (by omega))

/-! ### Bad-reference fix lemmas -/

/-- Components untouched by the direct-slot zeroing loop of inode i. -/
def DirRestInv (st : St) (i : Nat) (t : St) : Prop :=
  t.superblock = st.superblock ∧ t.inode_bitmap = st.inode_bitmap ∧
  t.data_bitmap = st.data_bitmap ∧ t.img = st.img ∧
  t.block_referenced = st.block_referenced ∧ t.block_referenced_by = st.block_referenced_by ∧
  t.errors_found = st.errors_found ∧ (∀ k, k ≠ i → t.inodes k = st.inodes k) ∧
  (t.inodes i).indirect_block = (st.inodes i).indirect_block ∧
  (t.inodes i).nlink = (st.inodes i).nlink ∧ (t.inodes i).dtime = (st.inodes i).dtime

theorem zeroDirect_dirRest (st : St) (i j : Nat) : DirRestInv st i (zeroDirect st i j) := by
  unfold zeroDirect
  split
  · refine ⟨rfl, rfl, rfl, rfl, rfl, rfl, rfl,
      fun k hk => by simp [updInode, hk], ?_, ?_, ?_⟩ <;> simp [updInode]
  · exact ⟨rfl, rfl, rfl, rfl, rfl, rfl, rfl, fun _ _ => rfl, rfl, rfl, rfl⟩

theorem DirRestInv_trans {st t u : St} {i : Nat}
    (h1 : DirRestInv st i t) (h2 : DirRestInv t i u) : DirRestInv st i u := by
  obtain ⟨a1, a2, a3, a4, a5, a6, a7, a8, a9, a10, a11⟩ := h1
  obtain ⟨b1, b2, b3, b4, b5, b6, b7, b8, b9, b10, b11⟩ := h2
  exact ⟨b1.trans a1, b2.trans a2, b3.trans a3, b4.trans a4, b5.trans a5, b6.trans a6,
    b7.trans a7, fun k hk => (b8 k hk).trans (a8 k hk), b9.trans a9, b10.trans a10,
    b11.trans a11⟩

theorem fixDirects_dirRest (st : St) (i : Nat) : DirRestInv st i (fixDirects st i) := by
  refine foldl_inv (fun a => DirRestInv st i a) _ _
    (fun a j _ hP => DirRestInv_trans hP (zeroDirect_dirRest a i j)) st
    ⟨rfl, rfl, rfl, rfl, rfl, rfl, rfl, fun _ _ => rfl, rfl, rfl, rfl⟩

theorem zeroDirect_direct_ne (st : St) (i j k : Nat) (hkj : k ≠ j) :
    ((zeroDirect st i j).inodes i).direct_blocks k = (st.inodes i).direct_blocks k := by
  unfold zeroDirect
  split
  · simp [updInode, hkj]
  · rfl

theorem zeroDirect_direct_self (st : St) (i j : Nat) :
    ((zeroDirect st i j).inodes i).direct_blocks j
      = if badPtr st.superblock.data_block_start ((st.inodes i).direct_blocks j) then 0
        else (st.inodes i).direct_blocks j := by
  unfold zeroDirect
  split
  · rename_i h
    simp [updInode, h]
  · rename_i h
    simp [h]

theorem dirFold_high (st : St) (i : Nat) : ∀ n k, n ≤ k →
    (((List.range n).foldl (fun st j => zeroDirect st i j) st).inodes i).direct_blocks k
      = (st.inodes i).direct_blocks k := by
  intro n
  induction n with
  | zero => intro k _; rfl
  | succ n ih =>
    intro k hk
    rw [List.range_succ, List.foldl_append, List.foldl_cons, List.foldl_nil]
    rw [zeroDirect_direct_ne _ _ _ _ (by omega)]
    exact ih k (by omega)

theorem dirFold_low (st : St) (i : Nat) : ∀ n k, k < n →
    (((List.range n).foldl (fun st j => zeroDirect st i j) st).inodes i).direct_blocks k
      = if badPtr st.superblock.data_block_start ((st.inodes i).direct_blocks k) then 0
        else (st.inodes i).direct_blocks k := by
  intro n
  induction n with
  | zero => intro k hk; omega
  | succ n ih =>
    intro k hk
    rw [List.range_succ, List.foldl_append, List.foldl_cons, List.foldl_nil]
    have hrest : DirRestInv st i ((List.range n).foldl (fun st j => zeroDirect st i j) st) :=
      foldl_inv (fun a => DirRestInv st i a) _ _
        (fun a j _ hP => DirRestInv_trans hP (zeroDirect_dirRest a i j)) st
        ⟨rfl, rfl, rfl, rfl, rfl, rfl, rfl, fun _ _ => rfl, rfl, rfl, rfl⟩
    by_cases hkn : k = n
    · subst hkn
      rw [zeroDirect_direct_self, dirFold_high st i k k le_rfl, hrest.1]
    · rw [zeroDirect_direct_ne _ _ _ _ hkn]
      exact ih k (by omega)

theorem fixDirects_direct (st : St) (i k : Nat) :
    ((fixDirects st i).inodes i).direct_blocks k
      = if k < 12 ∧ badPtr st.superblock.data_block_start ((st.inodes i).direct_blocks k) then 0
        else (st.inodes i).direct_blocks k := by
  unfold fixDirects
  by_cases hk : k < 12
  · rw [dirFold_low st i 12 k hk]
    by_cases hb : badPtr st.superblock.data_block_start ((st.inodes i).direct_blocks k)
    · rw [if_pos hb, if_pos ⟨hk, hb⟩]
    · rw [if_neg hb, if_neg (fun h => hb h.2)]
  · rw [dirFold_high st i 12 k (by omega), if_neg (fun h => hk h.1)]

/-- Block b has been written (or would be a write target) by the
bad-reference fix after processing the first n inodes: some already
processed valid inode carries b as its in-range single-indirect pointer. -/
def imgTrigger (s3 : St) (n b : Nat) : Prop :=
  ∃ i, i < n ∧ is_valid_inode s3.inodes i = true ∧ (s3.inodes i).indirect_block = b ∧
    (s3.inodes i).indirect_block ≠ 0 ∧
    ¬ ((s3.inodes i).indirect_block < s3.superblock.data_block_start ∨
       TOTAL_BLOCKS ≤ (s3.inodes i).indirect_block)

instance (s3 : St) (n b : Nat) : Decidable (imgTrigger s3 n b) := by
  unfold imgTrigger; infer_instance

/-- Invariant of the bad-reference fix fold after processing inodes
0..n-1, relative to the state s3 it started from. -/
structure BadFoldInv (s3 : St) (n : Nat) (p : St × List WriteEv) : Prop where
  sb : p.1.superblock = s3.superblock
  ibm : p.1.inode_bitmap = s3.inode_bitmap
  dbm : p.1.data_bitmap = s3.data_bitmap
  br : p.1.block_referenced = s3.block_referenced
  brby : p.1.block_referenced_by = s3.block_referenced_by
  ef : p.1.errors_found = s3.errors_found
  hi : ∀ i, n ≤ i → p.1.inodes i = s3.inodes i
  inval : ∀ i, i < n → ¬ is_valid_inode s3.inodes i = true → p.1.inodes i = s3.inodes i
  dirLow : ∀ i, i < n → is_valid_inode s3.inodes i = true → ∀ k, k < 12 →
    (p.1.inodes i).direct_blocks k
      = if badPtr s3.superblock.data_block_start ((s3.inodes i).direct_blocks k) then 0
        else (s3.inodes i).direct_blocks k
  dirHigh : ∀ i, i < n → is_valid_inode s3.inodes i = true → ∀ k, 12 ≤ k →
    (p.1.inodes i).direct_blocks k = (s3.inodes i).direct_blocks k
  indir : ∀ i, i < n → is_valid_inode s3.inodes i = true →
    (p.1.inodes i).indirect_block
      = if badPtr s3.superblock.data_block_start ((s3.inodes i).indirect_block) then 0
        else (s3.inodes i).indirect_block
  nld : ∀ i, i < n →
    (p.1.inodes i).nlink = (s3.inodes i).nlink ∧ (p.1.inodes i).dtime = (s3.inodes i).dtime
  imgeq : ∀ b j, p.1.img b j
    = if imgTrigger s3 n b ∧ j < ENTRIES_PER_BLOCK ∧
         badPtr s3.superblock.data_block_start (s3.img b j) then 0
      else s3.img b j

theorem badPtr_zero (start : Nat) : ¬ badPtr start 0 := fun h => h.1 rfl

theorem imgTrigger_succ (s3 : St) (n b : Nat) :
    imgTrigger s3 (n + 1) b ↔
      (imgTrigger s3 n b ∨
        (is_valid_inode s3.inodes n = true ∧ (s3.inodes n).indirect_block = b ∧
         (s3.inodes n).indirect_block ≠ 0 ∧
         ¬ ((s3.inodes n).indirect_block < s3.superblock.data_block_start ∨
            TOTAL_BLOCKS ≤ (s3.inodes n).indirect_block))) := by
  unfold imgTrigger
  constructor
  · rintro ⟨i, hi, r1, r2, r3, r4⟩
    by_cases hin : i = n
    · subst hin
      exact Or.inr ⟨r1, r2, r3, r4⟩
    · exact Or.inl ⟨i, by omega, r1, r2, r3, r4⟩
  · rintro (⟨i, hi, r⟩ | ⟨r1, r2, r3, r4⟩)
    · exact ⟨i, by omega, r⟩
    · exact ⟨n, by omega, r1, r2, r3, r4⟩

/-- Common hypotheses for the per-branch lemmas of the bad-reference fix:
st1 is the state after the direct-slot loop of inode n. -/
structure BadStepHyp (s3 : St) (n : Nat) (p : St × List WriteEv) (st1 : St) : Prop where
  inv : BadFoldInv s3 n p
  rest : DirRestInv p.1 n st1
  val3 : is_valid_inode s3.inodes n = true
  dl : ∀ k, k < 12 → (st1.inodes n).direct_blocks k
    = if badPtr s3.superblock.data_block_start ((s3.inodes n).direct_blocks k) then 0
      else (s3.inodes n).direct_blocks k
  dh : ∀ k, 12 ≤ k → (st1.inodes n).direct_blocks k = (s3.inodes n).direct_blocks k
  ibq : (st1.inodes n).indirect_block = (s3.inodes n).indirect_block
  sbq : st1.superblock = s3.superblock
  nlq : (st1.inodes n).nlink = (s3.inodes n).nlink
  dtq : (st1.inodes n).dtime = (s3.inodes n).dtime

theorem badStepA (s3 : St) (n : Nat) (p : St × List WriteEv) (st1 : St)
    (H : BadStepHyp s3 n p st1)
    (hib0s : (s3.inodes n).indirect_block ≠ 0)
    (hbad : (s3.inodes n).indirect_block < s3.superblock.data_block_start ∨
      TOTAL_BLOCKS ≤ (s3.inodes n).indirect_block) :
    BadFoldInv s3 (n + 1)
      ({ st1 with
         inodes := updInode st1.inodes n { st1.inodes n with indirect_block := 0 },
         errors_fixed := st1.errors_fixed + 1 }, p.2) := by
  obtain ⟨hp, hq, hval3, hdl, hdh, hib, hsb1, hnl, hdt⟩ := H
  obtain ⟨q1, q2, q3, q4, q5, q6, q7, q8, q9, q10, q11⟩ := hq
  refine ⟨hsb1, q2.trans hp.ibm, q3.trans hp.dbm, q5.trans hp.br, q6.trans hp.brby,
    q7.trans hp.ef, ?_, ?_, ?_, ?_, ?_, ?_, ?_⟩
  · intro i hi1
    have hin : i ≠ n := by omega
    show updInode st1.inodes n _ i = _
    rw [updInode_ne _ _ _ _ hin, q8 i hin, hp.hi i (by omega)]
  · intro i hi1 hinv
    by_cases hin : i = n
    · exact absurd hval3 (hin ▸ hinv)
    · show updInode st1.inodes n _ i = _
      rw [updInode_ne _ _ _ _ hin, q8 i hin, hp.inval i (by omega) hinv]
  · intro i hi1 hv k hk
    by_cases hin : i = n
    · subst hin
      show (updInode st1.inodes i _ i).direct_blocks k = _
      rw [updInode_self]
      exact hdl k hk
    · show (updInode st1.inodes n _ i).direct_blocks k = _
      rw [updInode_ne _ _ _ _ hin, q8 i hin]
      exact hp.dirLow i (by omega) hv k hk
  · intro i hi1 hv k hk
    by_cases hin : i = n
    · subst hin
      show (updInode st1.inodes i _ i).direct_blocks k = _
      rw [updInode_self]
      exact hdh k hk
    · show (updInode st1.inodes n _ i).direct_blocks k = _
      rw [updInode_ne _ _ _ _ hin, q8 i hin]
      exact hp.dirHigh i (by omega) hv k hk
  · intro i hi1 hv
    by_cases hin : i = n
    · subst hin
      show (updInode st1.inodes i _ i).indirect_block = _
      rw [updInode_self]
      show (0 : Nat) = _
      rw [if_pos ⟨hib0s, hbad⟩]
    · show (updInode st1.inodes n _ i).indirect_block = _
      rw [updInode_ne _ _ _ _ hin, q8 i hin]
      exact hp.indir i (by omega) hv
  · intro i hi1
    by_cases hin : i = n
    · subst hin
      constructor
      · show (updInode st1.inodes i _ i).nlink = _
        rw [updInode_self]
        exact hnl
      · show (updInode st1.inodes i _ i).dtime = _
        rw [updInode_self]
        exact hdt
    · constructor
      · show (updInode st1.inodes n _ i).nlink = _
        rw [updInode_ne _ _ _ _ hin, q8 i hin]
        exact (hp.nld i (by omega)).1
      · show (updInode st1.inodes n _ i).dtime = _
        rw [updInode_ne _ _ _ _ hin, q8 i hin]
        exact (hp.nld i (by omega)).2
  · intro b j
    show st1.img b j = _
    rw [q4, hp.imgeq b j]
    refine if_congr (and_congr ?_ Iff.rfl) rfl rfl
    rw [imgTrigger_succ]
    constructor
    · exact Or.inl
    · rintro (h | h)
      · exact h
      · exact absurd hbad (h.2.2.2)

theorem badStepB1 (s3 : St) (n : Nat) (p : St × List WriteEv) (st1 : St)
    (H : BadStepHyp s3 n p st1)
    (hib0s : (s3.inodes n).indirect_block ≠ 0)
    (hbad : ¬ ((s3.inodes n).indirect_block < s3.superblock.data_block_start ∨
      TOTAL_BLOCKS ≤ (s3.inodes n).indirect_block)) :
    BadFoldInv s3 (n + 1)
      ({ st1 with
         img := fun b => if b = (st1.inodes n).indirect_block then
             (fun j => if j < ENTRIES_PER_BLOCK ∧ badPtr st1.superblock.data_block_start
                 (st1.img ((st1.inodes n).indirect_block) j)
               then 0 else st1.img ((st1.inodes n).indirect_block) j)
           else st1.img b,
         errors_fixed := st1.errors_fixed + ((List.range ENTRIES_PER_BLOCK).filter
           (fun j => decide (badPtr st1.superblock.data_block_start
             (st1.img ((st1.inodes n).indirect_block) j)))).length },
       p.2 ++ [WriteEv.indirect ((st1.inodes n).indirect_block)]) := by
  obtain ⟨hp, hq, hval3, hdl, hdh, hib, hsb1, hnl, hdt⟩ := H
  obtain ⟨q1, q2, q3, q4, q5, q6, q7, q8, q9, q10, q11⟩ := hq
  have hnbad : ¬ badPtr s3.superblock.data_block_start ((s3.inodes n).indirect_block) :=
    fun h => hbad h.2
  have htrignew : imgTrigger s3 (n + 1) ((s3.inodes n).indirect_block) :=
    ⟨n, by omega, hval3, rfl, hib0s, hbad⟩
  have hstart1 : st1.superblock.data_block_start = s3.superblock.data_block_start :=
    congrArg Superblock.data_block_start hsb1
  refine ⟨hsb1, q2.trans hp.ibm, q3.trans hp.dbm, q5.trans hp.br, q6.trans hp.brby,
    q7.trans hp.ef, ?_, ?_, ?_, ?_, ?_, ?_, ?_⟩
  · intro i hi1
    show st1.inodes i = _
    rw [q8 i (by omega), hp.hi i (by omega)]
  · intro i hi1 hinv
    by_cases hin : i = n
    · exact absurd hval3 (hin ▸ hinv)
    · show st1.inodes i = _
      rw [q8 i hin, hp.inval i (by omega) hinv]
  · intro i hi1 hv k hk
    by_cases hin : i = n
    · subst hin
      exact hdl k hk
    · show (st1.inodes i).direct_blocks k = _
      rw [q8 i hin]
      exact hp.dirLow i (by omega) hv k hk
  · intro i hi1 hv k hk
    by_cases hin : i = n
    · subst hin
      exact hdh k hk
    · show (st1.inodes i).direct_blocks k = _
      rw [q8 i hin]
      exact hp.dirHigh i (by omega) hv k hk
  · intro i hi1 hv
    by_cases hin : i = n
    · subst hin
      rw [hib, if_neg hnbad]
    · show (st1.inodes i).indirect_block = _
      rw [q8 i hin]
      exact hp.indir i (by omega) hv
  · intro i hi1
    by_cases hin : i = n
    · subst hin
      exact ⟨hnl, hdt⟩
    · constructor
      · show (st1.inodes i).nlink = _
        rw [q8 i hin]
        exact (hp.nld i (by omega)).1
      · show (st1.inodes i).dtime = _
        rw [q8 i hin]
        exact (hp.nld i (by omega)).2
  · intro b j
    show (if b = (st1.inodes n).indirect_block then _ else st1.img b) j = _
    by_cases hbib : b = (st1.inodes n).indirect_block
    · rw [if_pos hbib]
      rw [hib] at hbib
      subst hbib
      show (if j < ENTRIES_PER_BLOCK ∧ badPtr st1.superblock.data_block_start
          (st1.img ((st1.inodes n).indirect_block) j)
        then 0 else st1.img ((st1.inodes n).indirect_block) j) = _
      rw [hstart1, q4, hib, hp.imgeq]
      by_cases hcnd : j < ENTRIES_PER_BLOCK ∧
          badPtr s3.superblock.data_block_start (s3.img ((s3.inodes n).indirect_block) j)
      · have hR : imgTrigger s3 (n + 1) ((s3.inodes n).indirect_block) ∧
            j < ENTRIES_PER_BLOCK ∧
            badPtr s3.superblock.data_block_start (s3.img ((s3.inodes n).indirect_block) j) :=
          ⟨htrignew, hcnd⟩
        rw [if_pos hR]
        by_cases htr : imgTrigger s3 n ((s3.inodes n).indirect_block) ∧
            j < ENTRIES_PER_BLOCK ∧
            badPtr s3.superblock.data_block_start (s3.img ((s3.inodes n).indirect_block) j)
        · have hz : ¬ (j < ENTRIES_PER_BLOCK ∧
              badPtr s3.superblock.data_block_start 0) := fun h => badPtr_zero _ h.2
          rw [if_pos htr, if_neg hz]
        · rw [if_neg htr, if_pos hcnd]
      · have hFcnd : ¬ (imgTrigger s3 n ((s3.inodes n).indirect_block) ∧
            j < ENTRIES_PER_BLOCK ∧
            badPtr s3.superblock.data_block_start (s3.img ((s3.inodes n).indirect_block) j)) :=
          fun h => hcnd h.2
        have hFR : ¬ (imgTrigger s3 (n + 1) ((s3.inodes n).indirect_block) ∧
            j < ENTRIES_PER_BLOCK ∧
            badPtr s3.superblock.data_block_start (s3.img ((s3.inodes n).indirect_block) j)) :=
          fun h => hcnd h.2
        rw [if_neg hFcnd, if_neg hcnd, if_neg hFR]
    · rw [if_neg hbib]
      rw [hib] at hbib
      show st1.img b j = _
      rw [q4, hp.imgeq b j]
      refine if_congr (and_congr ?_ Iff.rfl) rfl rfl
      rw [imgTrigger_succ]
      constructor
      · exact Or.inl
      · rintro (h | h)
        · exact h
        · exact absurd h.2.1 (fun he => hbib he.symm)

theorem badStepB2 (s3 : St) (n : Nat) (p : St × List WriteEv) (st1 : St)
    (H : BadStepHyp s3 n p st1)
    (hib0s : (s3.inodes n).indirect_block ≠ 0)
    (hbad : ¬ ((s3.inodes n).indirect_block < s3.superblock.data_block_start ∨
      TOTAL_BLOCKS ≤ (s3.inodes n).indirect_block))
    (hclean : ∀ j, j < ENTRIES_PER_BLOCK →
      ¬ badPtr s3.superblock.data_block_start (p.1.img ((s3.inodes n).indirect_block) j)) :
    BadFoldInv s3 (n + 1) (st1, p.2) := by
  obtain ⟨hp, hq, hval3, hdl, hdh, hib, hsb1, hnl, hdt⟩ := H
  obtain ⟨q1, q2, q3, q4, q5, q6, q7, q8, q9, q10, q11⟩ := hq
  have hnbad : ¬ badPtr s3.superblock.data_block_start ((s3.inodes n).indirect_block) :=
    fun h => hbad h.2
  have htrignew : imgTrigger s3 (n + 1) ((s3.inodes n).indirect_block) :=
    ⟨n, by omega, hval3, rfl, hib0s, hbad⟩
  refine ⟨hsb1, q2.trans hp.ibm, q3.trans hp.dbm, q5.trans hp.br, q6.trans hp.brby,
    q7.trans hp.ef, ?_, ?_, ?_, ?_, ?_, ?_, ?_⟩
  · intro i hi1
    show st1.inodes i = _
    rw [q8 i (by omega), hp.hi i (by omega)]
  · intro i hi1 hinv
    by_cases hin : i = n
    · exact absurd hval3 (hin ▸ hinv)
    · show st1.inodes i = _
      rw [q8 i hin, hp.inval i (by omega) hinv]
  · intro i hi1 hv k hk
    by_cases hin : i = n
    · subst hin
      exact hdl k hk
    · show (st1.inodes i).direct_blocks k = _
      rw [q8 i hin]
      exact hp.dirLow i (by omega) hv k hk
  · intro i hi1 hv k hk
    by_cases hin : i = n
    · subst hin
      exact hdh k hk
    · show (st1.inodes i).direct_blocks k = _
      rw [q8 i hin]
      exact hp.dirHigh i (by omega) hv k hk
  · intro i hi1 hv
    by_cases hin : i = n
    · subst hin
      rw [hib, if_neg hnbad]
    · show (st1.inodes i).indirect_block = _
      rw [q8 i hin]
      exact hp.indir i (by omega) hv
  · intro i hi1
    by_cases hin : i = n
    · subst hin
      exact ⟨hnl, hdt⟩
    · constructor
      · show (st1.inodes i).nlink = _
        rw [q8 i hin]
        exact (hp.nld i (by omega)).1
      · show (st1.inodes i).dtime = _
        rw [q8 i hin]
        exact (hp.nld i (by omega)).2
  · intro b j
    show st1.img b j = _
    rw [q4, hp.imgeq b j]
    by_cases hbib : b = (s3.inodes n).indirect_block
    · by_cases htr : imgTrigger s3 n b
      · refine if_congr (and_congr ?_ Iff.rfl) rfl rfl
        have htrignew' : imgTrigger s3 (n + 1) b := by
          rw [hbib]
          exact htrignew
        exact iff_of_true htr htrignew'
      · by_cases hcnd : j < ENTRIES_PER_BLOCK ∧
            badPtr s3.superblock.data_block_start (s3.img b j)
        · exfalso
          have hF1 : ¬ (imgTrigger s3 n b ∧ j < ENTRIES_PER_BLOCK ∧
              badPtr s3.superblock.data_block_start (s3.img b j)) := fun h => htr h.1
          have hv : p.1.img b j = s3.img b j := by
            rw [hp.imgeq b j, if_neg hF1]
          have hbadp : badPtr s3.superblock.data_block_start
              (p.1.img ((s3.inodes n).indirect_block) j) := by
            rw [← hbib, hv]
            exact hcnd.2
          exact hclean j hcnd.1 hbadp
        · have hF1 : ¬ (imgTrigger s3 n b ∧ j < ENTRIES_PER_BLOCK ∧
              badPtr s3.superblock.data_block_start (s3.img b j)) := fun h => hcnd h.2
          have hF2 : ¬ (imgTrigger s3 (n + 1) b ∧ j < ENTRIES_PER_BLOCK ∧
              badPtr s3.superblock.data_block_start (s3.img b j)) := fun h => hcnd h.2
          rw [if_neg hF1, if_neg hF2]
    · refine if_congr (and_congr ?_ Iff.rfl) rfl rfl
      rw [imgTrigger_succ]
      constructor
      · exact Or.inl
      · rintro (h | h)
        · exact h
        · exact absurd h.2.1 (fun he => hbib he.symm)

theorem badStepC (s3 : St) (n : Nat) (p : St × List WriteEv) (st1 : St)
    (H : BadStepHyp s3 n p st1)
    (hib0s : (s3.inodes n).indirect_block = 0) :
    BadFoldInv s3 (n + 1) (st1, p.2) := by
  obtain ⟨hp, hq, hval3, hdl, hdh, hib, hsb1, hnl, hdt⟩ := H
  obtain ⟨q1, q2, q3, q4, q5, q6, q7, q8, q9, q10, q11⟩ := hq
  refine ⟨hsb1, q2.trans hp.ibm, q3.trans hp.dbm, q5.trans hp.br, q6.trans hp.brby,
    q7.trans hp.ef, ?_, ?_, ?_, ?_, ?_, ?_, ?_⟩
  · intro i hi1
    show st1.inodes i = _
    rw [q8 i (by omega), hp.hi i (by omega)]
  · intro i hi1 hinv
    by_cases hin : i = n
    · exact absurd hval3 (hin ▸ hinv)
    · show st1.inodes i = _
      rw [q8 i hin, hp.inval i (by omega) hinv]
  · intro i hi1 hv k hk
    by_cases hin : i = n
    · subst hin
      exact hdl k hk
    · show (st1.inodes i).direct_blocks k = _
      rw [q8 i hin]
      exact hp.dirLow i (by omega) hv k hk
  · intro i hi1 hv k hk
    by_cases hin : i = n
    · subst hin
      exact hdh k hk
    · show (st1.inodes i).direct_blocks k = _
      rw [q8 i hin]
      exact hp.dirHigh i (by omega) hv k hk
  · intro i hi1 hv
    by_cases hin : i = n
    · subst hin
      rw [hib, hib0s, if_neg (badPtr_zero _)]
    · show (st1.inodes i).indirect_block = _
      rw [q8 i hin]
      exact hp.indir i (by omega) hv
  · intro i hi1
    by_cases hin : i = n
    · subst hin
      exact ⟨hnl, hdt⟩
    · constructor
      · show (st1.inodes i).nlink = _
        rw [q8 i hin]
        exact (hp.nld i (by omega)).1
      · show (st1.inodes i).dtime = _
        rw [q8 i hin]
        exact (hp.nld i (by omega)).2
  · intro b j
    show st1.img b j = _
    rw [q4, hp.imgeq b j]
    refine if_congr (and_congr ?_ Iff.rfl) rfl rfl
    rw [imgTrigger_succ]
    constructor
    · exact Or.inl
    · rintro (h | h)
      · exact h
      · exact absurd hib0s h.2.2.1

theorem badStepN (s3 : St) (n : Nat) (p : St × List WriteEv)
    (hp : BadFoldInv s3 n p)
    (hval3 : ¬ is_valid_inode s3.inodes n = true) :
    BadFoldInv s3 (n + 1) p := by
  have hIn : p.1.inodes n = s3.inodes n := hp.hi n le_rfl
  refine ⟨hp.sb, hp.ibm, hp.dbm, hp.br, hp.brby, hp.ef, ?_, ?_, ?_, ?_, ?_, ?_, ?_⟩
  · intro i hi1
    exact hp.hi i (by omega)
  · intro i hi1 hinv
    by_cases hin : i = n
    · subst hin
      exact hIn
    · exact hp.inval i (by omega) hinv
  · intro i hi1 hv k hk
    by_cases hin : i = n
    · exact absurd hv (hin ▸ hval3)
    · exact hp.dirLow i (by omega) hv k hk
  · intro i hi1 hv k hk
    by_cases hin : i = n
    · exact absurd hv (hin ▸ hval3)
    · exact hp.dirHigh i (by omega) hv k hk
  · intro i hi1 hv
    by_cases hin : i = n
    · exact absurd hv (hin ▸ hval3)
    · exact hp.indir i (by omega) hv
  · intro i hi1
    by_cases hin : i = n
    · subst hin
      exact ⟨congrArg Inode.nlink hIn, congrArg Inode.dtime hIn⟩
    · exact hp.nld i (by omega)
  · intro b j
    rw [hp.imgeq b j]
    refine if_congr (and_congr ?_ Iff.rfl) rfl rfl
    rw [imgTrigger_succ]
    constructor
    · exact Or.inl
    · rintro (h | h)
      · exact h
      · exact absurd h.1 hval3

theorem fixBadInode_step (s3 : St) (n : Nat) (p : St × List WriteEv)
    (hp : BadFoldInv s3 n p) : BadFoldInv s3 (n + 1) (fixBadInode p n) := by
  have hIn : p.1.inodes n = s3.inodes n := hp.hi n le_rfl
  unfold fixBadInode
  dsimp only
  by_cases hval : is_valid_inode p.1.inodes n = true
  · rw [if_pos hval]
    have hval3 : is_valid_inode s3.inodes n = true := by
      unfold is_valid_inode at hval ⊢
      rw [hIn] at hval
      exact hval
    have hq := fixDirects_dirRest p.1 n
    have hib : ((fixDirects p.1 n).inodes n).indirect_block = (s3.inodes n).indirect_block := by
      rw [hq.2.2.2.2.2.2.2.2.1, hIn]
    have hsb1 : (fixDirects p.1 n).superblock = s3.superblock := hq.1.trans hp.sb
    have hstart1 : (fixDirects p.1 n).superblock.data_block_start
        = s3.superblock.data_block_start := congrArg Superblock.data_block_start hsb1
    have hstart0 : p.1.superblock.data_block_start = s3.superblock.data_block_start :=
      congrArg Superblock.data_block_start hp.sb
    have H : BadStepHyp s3 n p (fixDirects p.1 n) := by
      refine ⟨hp, hq, hval3, ?_, ?_, hib, hsb1, ?_, ?_⟩
      · intro k hk
        rw [fixDirects_direct, hIn, hstart0]
        by_cases hb : badPtr s3.superblock.data_block_start ((s3.inodes n).direct_blocks k)
        · rw [if_pos ⟨hk, hb⟩, if_pos hb]
        · rw [if_neg (fun h => hb h.2), if_neg hb]
      · intro k hk
        rw [fixDirects_direct, hIn, if_neg (fun h => by omega)]
      · exact hq.2.2.2.2.2.2.2.2.2.1.trans (congrArg Inode.nlink hIn)
      · exact hq.2.2.2.2.2.2.2.2.2.2.trans (congrArg Inode.dtime hIn)
    by_cases hib0 : ((fixDirects p.1 n).inodes n).indirect_block ≠ 0
    · rw [if_pos hib0]
      have hib0s : (s3.inodes n).indirect_block ≠ 0 := hib ▸ hib0
      by_cases hbad : ((fixDirects p.1 n).inodes n).indirect_block
            < (fixDirects p.1 n).superblock.data_block_start ∨
          TOTAL_BLOCKS ≤ ((fixDirects p.1 n).inodes n).indirect_block
      · rw [if_pos hbad]
        rw [hib, hstart1] at hbad
        exact badStepA s3 n p (fixDirects p.1 n) H hib0s hbad
      · rw [if_neg hbad]
        rw [hib, hstart1] at hbad
        by_cases hbc : (((List.range ENTRIES_PER_BLOCK).filter
            (fun j => decide (badPtr (fixDirects p.1 n).superblock.data_block_start
              ((fixDirects p.1 n).img ((fixDirects p.1 n).inodes n).indirect_block j)))).length) ≠ 0
        · rw [if_pos hbc]
          exact badStepB1 s3 n p (fixDirects p.1 n) H hib0s hbad
        · rw [if_neg hbc]
          simp only [ne_eq, not_not] at hbc
          have hclean : ∀ j, j < ENTRIES_PER_BLOCK →
              ¬ badPtr s3.superblock.data_block_start
                (p.1.img ((s3.inodes n).indirect_block) j) := by
            intro j hj hbadj
            have hmem : j ∈ (List.range ENTRIES_PER_BLOCK).filter
                (fun j => decide (badPtr (fixDirects p.1 n).superblock.data_block_start
                  ((fixDirects p.1 n).img ((fixDirects p.1 n).inodes n).indirect_block j))) := by
              rw [List.mem_filter]
              refine ⟨List.mem_range.mpr hj, ?_⟩
              rw [hstart1, hq.2.2.2.1, hib]
              exact decide_eq_true hbadj
            rw [List.length_eq_zero] at hbc
            rw [hbc] at hmem
            exact absurd hmem (List.not_mem_nil j)
          exact badStepB2 s3 n p (fixDirects p.1 n) H hib0s hbad hclean
    · rw [if_neg hib0]
      simp only [ne_eq, not_not] at hib0
      have hib0s : (s3.inodes n).indirect_block = 0 := hib ▸ hib0
      exact badStepC s3 n p (fixDirects p.1 n) H hib0s
  · rw [if_neg hval]
    have hval3 : ¬ is_valid_inode s3.inodes n = true := by
      unfold is_valid_inode at hval ⊢
      rw [hIn] at hval
      exact hval
    exact badStepN s3 n p hp hval3

theorem badFold_inv (s3 : St) (n : Nat) :
    BadFoldInv s3 n ((List.range n).foldl fixBadInode (s3, [])) := by
  induction n with
  | zero =>
    refine ⟨rfl, rfl, rfl, rfl, rfl, rfl, fun _ _ => rfl,
      fun i h _ => absurd h (by omega), fun i h _ _ _ => absurd h (by omega),
      fun i h _ _ _ => absurd h (by omega), fun i h _ => absurd h (by omega),
      fun i h => absurd h (by omega), fun b j => ?_⟩
    have hno : ¬ (imgTrigger s3 0 b ∧ j < ENTRIES_PER_BLOCK ∧
        badPtr s3.superblock.data_block_start (s3.img b j)) := by
      rintro ⟨⟨i, hi, -⟩, -⟩
      omega
    rw [if_neg hno]
    rfl
  | succ n ih =>
    rw [List.range_succ, List.foldl_append, List.foldl_cons, List.foldl_nil]
    exact fixBadInode_step s3 n _ ih

theorem fixBadInode_trace (p : St × List WriteEv) (i : Nat)
    (h : ∃ bs : List Nat, p.2 = bs.map WriteEv.indirect) :
    ∃ bs : List Nat, (fixBadInode p i).2 = bs.map WriteEv.indirect := by
  obtain ⟨bs, hbs⟩ := h
  unfold fixBadInode
  dsimp only
  split
  · split
    · split
      · exact ⟨bs, hbs⟩
      · split
        · refine ⟨bs ++ [((fixDirects p.1 i).inodes i).indirect_block], ?_⟩
          simp [hbs]
        · exact ⟨bs, hbs⟩
    · exact ⟨bs, hbs⟩
  · exact ⟨bs, hbs⟩

theorem badFold_trace (s3 : St) (n : Nat) :
    ∃ bs : List Nat, ((List.range n).foldl fixBadInode (s3, [])).2
      = bs.map WriteEv.indirect :=
  foldl_inv (fun p => ∃ bs : List Nat, p.2 = bs.map WriteEv.indirect)
    fixBadInode (List.range n) (fun a i _ ha => fixBadInode_trace a i ha)
    (s3, []) ⟨[], rfl⟩

/-! ### Composite characterization of fix_errors -/

/-- The state after the three bitmap-and-superblock stages of fix_errors,
just before the bad-reference loop. -/
def fixS3 (s : St) : St :=
  fix_data_bitmap (fix_inode_bitmap (fix_superblock_fields s))

theorem fixS3_sb (s : St) : (fixS3 s).superblock = goodSB := by
  unfold fixS3
  rw [(fix_data_bitmap_rest _).1, (fix_inode_bitmap_rest _).1, fix_superblock_fields_sb]

theorem fixS3_start (s : St) : (fixS3 s).superblock.data_block_start = 8 := by
  rw [fixS3_sb]
  rfl

theorem fixS3_inodes (s : St) : (fixS3 s).inodes = s.inodes := by
  unfold fixS3
  rw [(fix_data_bitmap_rest _).2.2.1, (fix_inode_bitmap_rest _).2.2.1,
    (fix_superblock_fields_rest s).2.2.1]

theorem fixS3_img (s : St) : (fixS3 s).img = s.img := by
  unfold fixS3
  rw [(fix_data_bitmap_rest _).2.2.2.1, (fix_inode_bitmap_rest _).2.2.2.1,
    (fix_superblock_fields_rest s).2.2.2.1]

theorem fixS3_br (s : St) : (fixS3 s).block_referenced = s.block_referenced := by
  unfold fixS3
  rw [(fix_data_bitmap_rest _).2.2.2.2.1, (fix_inode_bitmap_rest _).2.2.2.2.1,
    (fix_superblock_fields_rest s).2.2.2.2.1]

theorem fixS3_ef (s : St) : (fixS3 s).errors_found = s.errors_found := by
  unfold fixS3
  rw [(fix_data_bitmap_rest _).2.2.2.2.2.2, (fix_inode_bitmap_rest _).2.2.2.2.2.2,
    (fix_superblock_fields_rest s).2.2.2.2.2]

theorem fixS3_ibm_get (s : St) (i : Nat) (hi : i < INODE_COUNT) :
    get_bit (fixS3 s).inode_bitmap i = if is_valid_inode s.inodes i then 1 else 0 := by
  unfold fixS3
  rw [(fix_data_bitmap_rest _).2.1, fix_inode_bitmap_get _ i hi,
    (fix_superblock_fields_rest s).2.2.1]

theorem fixS3_dbm_get (s : St) (b : Nat) (hb1 : 8 ≤ b) (hb2 : b < TOTAL_BLOCKS) :
    get_bit (fixS3 s).data_bitmap (b - 8) = if s.block_referenced b then 1 else 0 := by
  unfold fixS3
  have h8 : (fix_inode_bitmap (fix_superblock_fields s)).superblock.data_block_start = 8 := by
    rw [(fix_inode_bitmap_rest _).1, fix_superblock_fields_sb]
    rfl
  rw [fix_data_bitmap_get _ h8 b hb1 hb2, (fix_inode_bitmap_rest _).2.2.2.2.1,
    (fix_superblock_fields_rest s).2.2.2.2.1]

theorem fixS3_dbm_high (s : St) (k : Nat) (hk : 56 ≤ k) :
    get_bit (fixS3 s).data_bitmap k = get_bit s.data_bitmap k := by
  unfold fixS3
  have h8 : (fix_inode_bitmap (fix_superblock_fields s)).superblock.data_block_start = 8 := by
    rw [(fix_inode_bitmap_rest _).1, fix_superblock_fields_sb]
    rfl
  rw [fix_data_bitmap_get_high _ h8 k hk, (fix_inode_bitmap_rest _).2.1,
    (fix_superblock_fields_rest s).2.1]

/-- fix_errors in terms of the three stages and the bad-reference fold:
the trailing write-back calls do not change the state. -/
theorem fix_errors_eq (s : St) :
    fix_errors s = ((List.range INODE_COUNT).foldl fixBadInode (fixS3 s, [])).1 := by
  unfold fixS3 fix_errors fix_errors_core write_inodes write_bitmaps write_superblock
  dsimp only

/-- The write trace of fix_errors in program order: the bad-reference
fold's indirect-block writes first, then superblock, bitmaps and the
inode table. -/
theorem fix_trace_parts (s : St) :
    fix_trace s = ((((List.range INODE_COUNT).foldl fixBadInode (fixS3 s, [])).2
      ++ [WriteEv.superblock]) ++ [WriteEv.inodeBitmap, WriteEv.dataBitmap])
      ++ (List.range INODE_COUNT).map WriteEv.inodeTable := by
  unfold fixS3 fix_trace fix_errors_core write_inodes write_bitmaps write_superblock
  dsimp only

theorem fix_errors_sb (s : St) : (fix_errors s).superblock = goodSB := by
  rw [fix_errors_eq, (badFold_inv (fixS3 s) INODE_COUNT).sb, fixS3_sb]

theorem fix_errors_ef (s : St) : (fix_errors s).errors_found = s.errors_found := by
  rw [fix_errors_eq, (badFold_inv (fixS3 s) INODE_COUNT).ef, fixS3_ef]

theorem fix_errors_ibm (s : St) (i : Nat) (hi : i < INODE_COUNT) :
    get_bit (fix_errors s).inode_bitmap i = if is_valid_inode s.inodes i then 1 else 0 := by
  rw [fix_errors_eq, (badFold_inv (fixS3 s) INODE_COUNT).ibm, fixS3_ibm_get s i hi]

theorem fix_errors_dbm (s : St) (b : Nat) (hb1 : 8 ≤ b) (hb2 : b < TOTAL_BLOCKS) :
    get_bit (fix_errors s).data_bitmap (b - 8) = if s.block_referenced b then 1 else 0 := by
  rw [fix_errors_eq, (badFold_inv (fixS3 s) INODE_COUNT).dbm, fixS3_dbm_get s b hb1 hb2]

theorem fix_errors_dbm_high (s : St) (k : Nat) (hk : 56 ≤ k) :
    get_bit (fix_errors s).data_bitmap k = get_bit s.data_bitmap k := by
  rw [fix_errors_eq, (badFold_inv (fixS3 s) INODE_COUNT).dbm, fixS3_dbm_high s k hk]

theorem fix_errors_br (s : St) :
    (fix_errors s).block_referenced = s.block_referenced := by
  rw [fix_errors_eq, (badFold_inv (fixS3 s) INODE_COUNT).br, fixS3_br]

theorem fix_errors_inodes_high (s : St) (i : Nat) (hi : INODE_COUNT ≤ i) :
    (fix_errors s).inodes i = s.inodes i := by
  rw [fix_errors_eq, (badFold_inv (fixS3 s) INODE_COUNT).hi i hi]
  exact congrFun (fixS3_inodes s) i

theorem fix_errors_inodes_invalid (s : St) (i : Nat) (hi : i < INODE_COUNT)
    (hv : ¬ is_valid_inode s.inodes i = true) :
    (fix_errors s).inodes i = s.inodes i := by
  have hv3 : ¬ is_valid_inode (fixS3 s).inodes i = true := by
    rw [fixS3_inodes]
    exact hv
  rw [fix_errors_eq, (badFold_inv (fixS3 s) INODE_COUNT).inval i hi hv3]
  exact congrFun (fixS3_inodes s) i

theorem fix_errors_dirLow (s : St) (i : Nat) (hi : i < INODE_COUNT)
    (hv : is_valid_inode s.inodes i = true) (k : Nat) (hk : k < 12) :
    ((fix_errors s).inodes i).direct_blocks k
      = if badPtr 8 ((s.inodes i).direct_blocks k) then 0
        else (s.inodes i).direct_blocks k := by
  have hv3 : is_valid_inode (fixS3 s).inodes i = true := by
    rw [fixS3_inodes]
    exact hv
  rw [fix_errors_eq, (badFold_inv (fixS3 s) INODE_COUNT).dirLow i hi hv3 k hk,
    fixS3_inodes, fixS3_start]

theorem fix_errors_dirHigh (s : St) (i : Nat) (hi : i < INODE_COUNT)
    (hv : is_valid_inode s.inodes i = true) (k : Nat) (hk : 12 ≤ k) :
    ((fix_errors s).inodes i).direct_blocks k = (s.inodes i).direct_blocks k := by
  have hv3 : is_valid_inode (fixS3 s).inodes i = true := by
    rw [fixS3_inodes]
    exact hv
  rw [fix_errors_eq, (badFold_inv (fixS3 s) INODE_COUNT).dirHigh i hi hv3 k hk,
    fixS3_inodes]

theorem fix_errors_indirect (s : St) (i : Nat) (hi : i < INODE_COUNT)
    (hv : is_valid_inode s.inodes i = true) :
    ((fix_errors s).inodes i).indirect_block
      = if badPtr 8 ((s.inodes i).indirect_block) then 0
        else (s.inodes i).indirect_block := by
  have hv3 : is_valid_inode (fixS3 s).inodes i = true := by
    rw [fixS3_inodes]
    exact hv
  rw [fix_errors_eq, (badFold_inv (fixS3 s) INODE_COUNT).indir i hi hv3,
    fixS3_inodes, fixS3_start]

theorem fix_errors_nld (s : St) (i : Nat) (hi : i < INODE_COUNT) :
    ((fix_errors s).inodes i).nlink = (s.inodes i).nlink ∧
    ((fix_errors s).inodes i).dtime = (s.inodes i).dtime := by
  rw [fix_errors_eq]
  have h := (badFold_inv (fixS3 s) INODE_COUNT).nld i hi
  rw [fixS3_inodes] at h
  exact h

theorem fix_errors_valid (s : St) (i : Nat) :
    is_valid_inode (fix_errors s).inodes i = is_valid_inode s.inodes i := by
  by_cases hi : i < INODE_COUNT
  · obtain ⟨h1, h2⟩ := fix_errors_nld s i hi
    unfold is_valid_inode
    rw [h1, h2]
  · unfold is_valid_inode
    rw [fix_errors_inodes_high s i (by omega)]

/-- Block b is a write target of the bad-reference fix: some valid inode
names b as its nonzero single-indirect pointer, in range for the corrected
data-region start. -/
def writeTouched (s : St) (b : Nat) : Prop :=
  ∃ i, i < INODE_COUNT ∧ is_valid_inode s.inodes i = true ∧
    (s.inodes i).indirect_block = b ∧ (s.inodes i).indirect_block ≠ 0 ∧
    ¬ ((s.inodes i).indirect_block < 8 ∨ TOTAL_BLOCKS ≤ (s.inodes i).indirect_block)

instance (s : St) (b : Nat) : Decidable (writeTouched s b) := by
  unfold writeTouched
  infer_instance

theorem imgTrigger_fixS3 (s : St) (b : Nat) :
    imgTrigger (fixS3 s) INODE_COUNT b ↔ writeTouched s b := by
  unfold imgTrigger writeTouched
  rw [fixS3_inodes, fixS3_start]

theorem fix_errors_img (s : St) (b j : Nat) :
    (fix_errors s).img b j
      = if writeTouched s b ∧ j < ENTRIES_PER_BLOCK ∧ badPtr 8 (s.img b j) then 0
        else s.img b j := by
  rw [fix_errors_eq, (badFold_inv (fixS3 s) INODE_COUNT).imgeq b j, fixS3_img, fixS3_start]
  exact if_congr (and_congr (imgTrigger_fixS3 s b) Iff.rfl) rfl rfl

/-! ### errors_fixed accounting and identity lemmas for the fix stages -/

theorem fixMagic_ef2 (s : St) :
    (fixMagic s).errors_fixed
      = s.errors_fixed + (if s.superblock.magic ≠ MAGIC_NUMBER then 1 else 0) := by
  unfold fixMagic
  by_cases h : s.superblock.magic ≠ MAGIC_NUMBER
  · rw [if_pos h, if_pos h]
  · rw [if_neg h, if_neg h]
    rfl

theorem fixBlockSize_ef2 (s : St) :
    (fixBlockSize s).errors_fixed
      = s.errors_fixed + (if s.superblock.block_size ≠ BLOCK_SIZE then 1 else 0) := by
  unfold fixBlockSize
  by_cases h : s.superblock.block_size ≠ BLOCK_SIZE
  · rw [if_pos h, if_pos h]
  · rw [if_neg h, if_neg h]
    rfl

theorem fixTotalBlocks_ef2 (s : St) :
    (fixTotalBlocks s).errors_fixed
      = s.errors_fixed + (if s.superblock.total_blocks ≠ TOTAL_BLOCKS then 1 else 0) := by
  unfold fixTotalBlocks
  by_cases h : s.superblock.total_blocks ≠ TOTAL_BLOCKS
  · rw [if_pos h, if_pos h]
  · rw [if_neg h, if_neg h]
    rfl

theorem fixInodeBitmapBlock_ef2 (s : St) :
    (fixInodeBitmapBlock s).errors_fixed
      = s.errors_fixed + (if s.superblock.inode_bitmap_block ≠ 1 then 1 else 0) := by
  unfold fixInodeBitmapBlock
  by_cases h : s.superblock.inode_bitmap_block ≠ 1
  · rw [if_pos h, if_pos h]
  · rw [if_neg h, if_neg h]
    rfl

theorem fixDataBitmapBlock_ef2 (s : St) :
    (fixDataBitmapBlock s).errors_fixed
      = s.errors_fixed + (if s.superblock.data_bitmap_block ≠ 2 then 1 else 0) := by
  unfold fixDataBitmapBlock
  by_cases h : s.superblock.data_bitmap_block ≠ 2
  · rw [if_pos h, if_pos h]
  · rw [if_neg h, if_neg h]
    rfl

theorem fixInodeTableStart_ef2 (s : St) :
    (fixInodeTableStart s).errors_fixed
      = s.errors_fixed + (if s.superblock.inode_table_start ≠ 3 then 1 else 0) := by
  unfold fixInodeTableStart
  by_cases h : s.superblock.inode_table_start ≠ 3
  · rw [if_pos h, if_pos h]
  · rw [if_neg h, if_neg h]
    rfl

theorem fixDataBlockStart_ef2 (s : St) :
    (fixDataBlockStart s).errors_fixed
      = s.errors_fixed + (if s.superblock.data_block_start ≠ 8 then 1 else 0) := by
  unfold fixDataBlockStart
  by_cases h : s.superblock.data_block_start ≠ 8
  · rw [if_pos h, if_pos h]
  · rw [if_neg h, if_neg h]
    rfl

theorem fixInodeSize_ef2 (s : St) :
    (fixInodeSize s).errors_fixed
      = s.errors_fixed + (if s.superblock.inode_size ≠ INODE_SIZE then 1 else 0) := by
  unfold fixInodeSize
  by_cases h : s.superblock.inode_size ≠ INODE_SIZE
  · rw [if_pos h, if_pos h]
  · rw [if_neg h, if_neg h]
    rfl

theorem fixInodeCount_ef2 (s : St) :
    (fixInodeCount s).errors_fixed
      = s.errors_fixed + (if s.superblock.inode_count ≠ INODE_COUNT then 1 else 0) := by
  unfold fixInodeCount
  by_cases h : s.superblock.inode_count ≠ INODE_COUNT
  · rw [if_pos h, if_pos h]
  · rw [if_neg h, if_neg h]
    rfl

/-- Number of superblock fields the fix stage rewrites (the inode-count
condition here has no tolerance for 0). -/
def sbFixCount (sb : Superblock) : Nat :=
  (if sb.magic ≠ MAGIC_NUMBER then 1 else 0)
  + (if sb.block_size ≠ BLOCK_SIZE then 1 else 0)
  + (if sb.total_blocks ≠ TOTAL_BLOCKS then 1 else 0)
  + (if sb.inode_bitmap_block ≠ 1 then 1 else 0)
  + (if sb.data_bitmap_block ≠ 2 then 1 else 0)
  + (if sb.inode_table_start ≠ 3 then 1 else 0)
  + (if sb.data_block_start ≠ 8 then 1 else 0)
  + (if sb.inode_size ≠ INODE_SIZE then 1 else 0)
  + (if sb.inode_count ≠ INODE_COUNT then 1 else 0)

theorem fix_superblock_fields_ef (s : St) :
    (fix_superblock_fields s).errors_fixed = s.errors_fixed + sbFixCount s.superblock := by
  unfold fix_superblock_fields sbFixCount
  rw [fixInodeCount_ef2, fixInodeSize_ef2, fixDataBlockStart_ef2, fixInodeTableStart_ef2,
    fixDataBitmapBlock_ef2, fixInodeBitmapBlock_ef2, fixTotalBlocks_ef2, fixBlockSize_ef2,
    fixMagic_ef2]
  rw [fixInodeSize_sb, fixDataBlockStart_sb, fixInodeTableStart_sb, fixDataBitmapBlock_sb,
    fixInodeBitmapBlock_sb, fixTotalBlocks_sb, fixBlockSize_sb, fixMagic_sb]
  dsimp only
  omega

theorem ibmFixStep_ef_mono (st : St) (i : Nat) :
    st.errors_fixed ≤ (ibmFixStep st i).errors_fixed := by
  unfold ibmFixStep
  dsimp only
  split
  · exact Nat.le_succ _
  · split
    · exact Nat.le_succ _
    · exact Nat.le_refl _

theorem fix_inode_bitmap_ef_mono (s : St) :
    s.errors_fixed ≤ (fix_inode_bitmap s).errors_fixed := by
  unfold fix_inode_bitmap
  exact foldl_inv (fun a => s.errors_fixed ≤ a.errors_fixed) ibmFixStep _
    (fun a i _ h => le_trans h (ibmFixStep_ef_mono a i)) s (Nat.le_refl _)

theorem dbmFixStep_ef_mono (st : St) (i : Nat) :
    st.errors_fixed ≤ (dbmFixStep st i).errors_fixed := by
  unfold dbmFixStep
  dsimp only
  split
  · exact Nat.le_succ _
  · split
    · exact Nat.le_succ _
    · exact Nat.le_refl _

theorem fix_data_bitmap_ef_mono (s : St) :
    s.errors_fixed ≤ (fix_data_bitmap s).errors_fixed := by
  unfold fix_data_bitmap
  exact foldl_inv (fun a => s.errors_fixed ≤ a.errors_fixed) dbmFixStep _
    (fun a i _ h => le_trans h (dbmFixStep_ef_mono a i)) s (Nat.le_refl _)

theorem zeroDirect_ef_mono (st : St) (i j : Nat) :
    st.errors_fixed ≤ (zeroDirect st i j).errors_fixed := by
  unfold zeroDirect
  split
  · exact Nat.le_succ _
  · exact Nat.le_refl _

theorem fixDirects_ef_mono (st : St) (i : Nat) :
    st.errors_fixed ≤ (fixDirects st i).errors_fixed := by
  unfold fixDirects
  exact foldl_inv (fun a => st.errors_fixed ≤ a.errors_fixed) _ _
    (fun a j _ h => le_trans h (zeroDirect_ef_mono a i j)) st (Nat.le_refl _)

theorem fixBadInode_ef_mono (p : St × List WriteEv) (i : Nat) :
    p.1.errors_fixed ≤ (fixBadInode p i).1.errors_fixed := by
  unfold fixBadInode
  dsimp only
  split
  · split
    · split
      · show p.1.errors_fixed ≤ (fixDirects p.1 i).errors_fixed + 1
        exact le_trans (fixDirects_ef_mono p.1 i) (Nat.le_succ _)
      · split
        · show p.1.errors_fixed ≤ (fixDirects p.1 i).errors_fixed + _
          exact le_trans (fixDirects_ef_mono p.1 i) (Nat.le_add_right _ _)
        · exact fixDirects_ef_mono p.1 i
    · exact fixDirects_ef_mono p.1 i
  · exact Nat.le_refl _

theorem badFold_ef_mono (s3 : St) :
    s3.errors_fixed ≤ (((List.range INODE_COUNT).foldl fixBadInode (s3, [])).1).errors_fixed :=
  foldl_inv (fun p => s3.errors_fixed ≤ p.1.errors_fixed) fixBadInode _
    (fun p i _ h => le_trans h (fixBadInode_ef_mono p i)) (s3, []) (Nat.le_refl _)

/-- The fixed-error counter grows by at least the superblock-stage count. -/
theorem fix_errors_ef_ge (s : St) :
    s.errors_fixed + sbFixCount s.superblock ≤ (fix_errors s).errors_fixed := by
  rw [fix_errors_eq]
  refine le_trans ?_ (badFold_ef_mono (fixS3 s))
  unfold fixS3
  refine le_trans (le_trans ?_ (fix_inode_bitmap_ef_mono _)) (fix_data_bitmap_ef_mono _)
  rw [fix_superblock_fields_ef]

/-! ### Identity lemmas for the fix stages -/

theorem fixMagic_id (s : St) (h : s.superblock.magic = MAGIC_NUMBER) : fixMagic s = s := by
  unfold fixMagic
  rw [if_neg (fun hh => hh h)]

theorem fixBlockSize_id (s : St) (h : s.superblock.block_size = BLOCK_SIZE) : fixBlockSize s = s := by
  unfold fixBlockSize
  rw [if_neg (fun hh => hh h)]

theorem fixTotalBlocks_id (s : St) (h : s.superblock.total_blocks = TOTAL_BLOCKS) : fixTotalBlocks s = s := by
  unfold fixTotalBlocks
  rw [if_neg (fun hh => hh h)]

theorem fixInodeBitmapBlock_id (s : St) (h : s.superblock.inode_bitmap_block = 1) : fixInodeBitmapBlock s = s := by
  unfold fixInodeBitmapBlock
  rw [if_neg (fun hh => hh h)]

theorem fixDataBitmapBlock_id (s : St) (h : s.superblock.data_bitmap_block = 2) : fixDataBitmapBlock s = s := by
  unfold fixDataBitmapBlock
  rw [if_neg (fun hh => hh h)]

theorem fixInodeTableStart_id (s : St) (h : s.superblock.inode_table_start = 3) : fixInodeTableStart s = s := by
  unfold fixInodeTableStart
  rw [if_neg (fun hh => hh h)]

theorem fixDataBlockStart_id (s : St) (h : s.superblock.data_block_start = 8) : fixDataBlockStart s = s := by
  unfold fixDataBlockStart
  rw [if_neg (fun hh => hh h)]

theorem fixInodeSize_id (s : St) (h : s.superblock.inode_size = INODE_SIZE) : fixInodeSize s = s := by
  unfold fixInodeSize
  rw [if_neg (fun hh => hh h)]

theorem fixInodeCount_id (s : St) (h : s.superblock.inode_count = INODE_COUNT) : fixInodeCount s = s := by
  unfold fixInodeCount
  rw [if_neg (fun hh => hh h)]

theorem fix_superblock_fields_id (s : St) (h : s.superblock = goodSB) :
    fix_superblock_fields s = s := by
  unfold fix_superblock_fields
  rw [fixMagic_id s (by rw [h]; rfl), fixBlockSize_id s (by rw [h]; rfl),
    fixTotalBlocks_id s (by rw [h]; rfl), fixInodeBitmapBlock_id s (by rw [h]; rfl),
    fixDataBitmapBlock_id s (by rw [h]; rfl), fixInodeTableStart_id s (by rw [h]; rfl),
    fixDataBlockStart_id s (by rw [h]; rfl), fixInodeSize_id s (by rw [h]; rfl),
    fixInodeCount_id s (by rw [h]; rfl)]

theorem fixDirects_id (st : St) (i : Nat)
    (h : ∀ k, k < 12 → ¬ badPtr st.superblock.data_block_start ((st.inodes i).direct_blocks k)) :
    fixDirects st i = st := by
  unfold fixDirects
  refine foldl_id _ _ _ (fun j hj => ?_)
  unfold zeroDirect
  rw [if_neg (h j (List.mem_range.mp hj))]

theorem fixBadInode_id (s3 : St) (i : Nat) (tr : List WriteEv)
    (hdir : is_valid_inode s3.inodes i = true → ∀ k, k < 12 →
      ¬ badPtr s3.superblock.data_block_start ((s3.inodes i).direct_blocks k))
    (hind : is_valid_inode s3.inodes i = true → (s3.inodes i).indirect_block ≠ 0 →
      ¬ ((s3.inodes i).indirect_block < s3.superblock.data_block_start ∨
         TOTAL_BLOCKS ≤ (s3.inodes i).indirect_block) ∧
      ∀ j, j < ENTRIES_PER_BLOCK →
        ¬ badPtr s3.superblock.data_block_start (s3.img ((s3.inodes i).indirect_block) j)) :
    fixBadInode (s3, tr) i = (s3, tr) := by
  unfold fixBadInode
  dsimp only
  by_cases hval : is_valid_inode s3.inodes i = true
  · rw [if_pos hval, fixDirects_id s3 i (hdir hval)]
    by_cases hib : (s3.inodes i).indirect_block ≠ 0
    · rw [if_pos hib]
      obtain ⟨hr, hcl⟩ := hind hval hib
      rw [if_neg hr]
      have hlen : ((List.range ENTRIES_PER_BLOCK).filter
          (fun j => decide (badPtr s3.superblock.data_block_start
            (s3.img ((s3.inodes i).indirect_block) j)))).length = 0 := by
        refine List.length_eq_zero.mpr (List.filter_eq_nil.mpr ?_)
        intro a ha
        simp only [decide_eq_true_eq]
        exact hcl a (List.mem_range.mp ha)
      rw [if_neg (fun hne => hne hlen)]
    · rw [if_neg hib]
  · rw [if_neg hval]

/-! ### Preservation of the reference walk by the repair (no garbage-walk) -/

theorem inodeClaims_fix_iff (s : St) (i b : Nat) (hi : i < INODE_COUNT)
    (hv : is_valid_inode s.inodes i = true) (hb1 : 8 ≤ b) (hb2 : b < TOTAL_BLOCKS)
    (hproviso : (s.inodes i).indirect_block = 0 ∨
      (8 ≤ (s.inodes i).indirect_block ∧ (s.inodes i).indirect_block < TOTAL_BLOCKS)) :
    inodeClaims (fix_errors s) i b ↔ inodeClaims s i b := by
  have hbne : b ≠ 0 := by unfold TOTAL_BLOCKS at hb2; omega
  have hbgood : ¬ (b < 8 ∨ TOTAL_BLOCKS ≤ b) := by omega
  unfold inodeClaims
  constructor
  · rintro (⟨j, hj, hne, hbeq⟩ | ⟨hne, hbeq⟩ | ⟨hne, k, hk, hkne, hkeq⟩)
    · rw [fix_errors_dirLow s i hi hv j hj] at hne hbeq
      by_cases hbad : badPtr 8 ((s.inodes i).direct_blocks j)
      · rw [if_pos hbad] at hne
        exact absurd rfl hne
      · rw [if_neg hbad] at hne hbeq
        exact Or.inl ⟨j, hj, hne, hbeq⟩
    · rw [fix_errors_indirect s i hi hv] at hne hbeq
      by_cases hbad : badPtr 8 ((s.inodes i).indirect_block)
      · rw [if_pos hbad] at hne
        exact absurd rfl hne
      · rw [if_neg hbad] at hne hbeq
        exact Or.inr (Or.inl ⟨hne, hbeq⟩)
    · rw [fix_errors_indirect s i hi hv] at hne
      by_cases hbad : badPtr 8 ((s.inodes i).indirect_block)
      · rw [if_pos hbad] at hne
        exact absurd rfl hne
      · rw [if_neg hbad] at hne
        rw [fix_errors_indirect s i hi hv, if_neg hbad] at hkne hkeq
        rw [fix_errors_img] at hkne hkeq
        by_cases hz : writeTouched s ((s.inodes i).indirect_block) ∧ k < ENTRIES_PER_BLOCK ∧
            badPtr 8 (s.img ((s.inodes i).indirect_block) k)
        · rw [if_pos hz] at hkne
          exact absurd rfl hkne
        · rw [if_neg hz] at hkne hkeq
          exact Or.inr (Or.inr ⟨hne, k, hk, hkne, hkeq⟩)
  · rintro (⟨j, hj, hne, hbeq⟩ | ⟨hne, hbeq⟩ | ⟨hne, k, hk, hkne, hkeq⟩)
    · have hgood : ¬ badPtr 8 ((s.inodes i).direct_blocks j) := by
        rw [← hbeq]
        exact fun h => hbgood h.2
      refine Or.inl ⟨j, hj, ?_, ?_⟩
      · rw [fix_errors_dirLow s i hi hv j hj, if_neg hgood]
        exact hne
      · rw [fix_errors_dirLow s i hi hv j hj, if_neg hgood]
        exact hbeq
    · have hgood : ¬ badPtr 8 ((s.inodes i).indirect_block) := by
        rw [← hbeq]
        exact fun h => hbgood h.2
      refine Or.inr (Or.inl ⟨?_, ?_⟩)
      · rw [fix_errors_indirect s i hi hv, if_neg hgood]
        exact hne
      · rw [fix_errors_indirect s i hi hv, if_neg hgood]
        exact hbeq
    · rcases hproviso with h0 | hrange
      · exact absurd h0 hne
      · have hgood : ¬ badPtr 8 ((s.inodes i).indirect_block) := by
          unfold badPtr
          rintro ⟨-, h | h⟩ <;> omega
        have hkgood : ¬ badPtr 8 (s.img ((s.inodes i).indirect_block) k) := by
          rw [← hkeq]
          exact fun h => hbgood h.2
        refine Or.inr (Or.inr ⟨?_, k, hk, ?_, ?_⟩)
        · rw [fix_errors_indirect s i hi hv, if_neg hgood]
          exact hne
        · rw [fix_errors_indirect s i hi hv, if_neg hgood, fix_errors_img,
            if_neg (fun hz => hkgood hz.2.2)]
          exact hkne
        · rw [fix_errors_indirect s i hi hv, if_neg hgood, fix_errors_img,
            if_neg (fun hz => hkgood hz.2.2)]
          exact hkeq

theorem specReferenced_fix (s : St) (b : Nat)
    (h8 : s.superblock.data_block_start = 8)
    (hind : ∀ i, i < INODE_COUNT → is_valid_inode s.inodes i = true →
      (s.inodes i).indirect_block = 0 ∨
      (8 ≤ (s.inodes i).indirect_block ∧ (s.inodes i).indirect_block < TOTAL_BLOCKS)) :
    specReferenced (fix_errors s) b ↔ specReferenced s b := by
  unfold specReferenced
  have hfs : (fix_errors s).superblock.data_block_start = 8 := by
    rw [fix_errors_sb]
    rfl
  rw [hfs, h8]
  constructor
  · rintro ⟨hb1, hb2, i, hi, hv, hc⟩
    rw [fix_errors_valid] at hv
    refine ⟨hb1, hb2, i, hi, hv, ?_⟩
    exact (inodeClaims_fix_iff s i b hi hv hb1 hb2 (hind i hi hv)).mp hc
  · rintro ⟨hb1, hb2, i, hi, hv, hc⟩
    refine ⟨hb1, hb2, i, hi, ?_, ?_⟩
    · rw [fix_errors_valid]
      exact hv
    · exact (inodeClaims_fix_iff s i b hi hv hb1 hb2 (hind i hi hv)).mpr hc

/-! ### Congruence of the check predicates in the persisted state -/

theorem ibmMismatch_congr {t s : St} (h1 : t.inode_bitmap = s.inode_bitmap)
    (h2 : t.inodes = s.inodes) (i : Nat) : ibmMismatch t i ↔ ibmMismatch s i := by
  unfold ibmMismatch is_valid_inode
  rw [h1, h2]

theorem specReferenced_congr {t s : St} (h1 : t.superblock = s.superblock)
    (h2 : t.inodes = s.inodes) (h3 : t.img = s.img) (b : Nat) :
    specReferenced t b ↔ specReferenced s b := by
  unfold specReferenced inodeClaims is_valid_inode
  rw [h1, h2, h3]

theorem dbmMismatch_congr {t s : St} (h0 : t.superblock = s.superblock)
    (h1 : t.data_bitmap = s.data_bitmap) (h2 : t.inodes = s.inodes) (h3 : t.img = s.img)
    (b : Nat) : dbmMismatch t b ↔ dbmMismatch s b := by
  unfold dbmMismatch specReferenced inodeClaims is_valid_inode
  rw [h0, h1, h2, h3]

theorem dupClaimants_congr {t s : St} (h2 : t.inodes = s.inodes) (h3 : t.img = s.img)
    (b : Nat) : dupClaimants t b = dupClaimants s b := by
  unfold dupClaimants inodeClaimList is_valid_inode
  rw [h2, h3]

theorem badCountInode_congr {t s : St} (h1 : t.superblock = s.superblock)
    (h2 : t.inodes = s.inodes) (h3 : t.img = s.img) (i : Nat) :
    badCountInode t i = badCountInode s i := by
  unfold badCountInode badDirectSlots badEntrySlots is_valid_inode
  rw [h1, h2, h3]

theorem dataRange_congr {t s : St} (h1 : t.superblock = s.superblock) :
    dataRange t = dataRange s := by
  unfold dataRange
  rw [h1]

theorem badCountInode_congr_fun {t s : St} (h1 : t.superblock = s.superblock)
    (h2 : t.inodes = s.inodes) (h3 : t.img = s.img) :
    badCountInode t = badCountInode s :=
  funext (badCountInode_congr h1 h2 h3)

/-! ### Composite characterization of the check pipeline -/

theorem check_all_persist (s : St) :
    (check_all s).superblock = s.superblock ∧
    (check_all s).inode_bitmap = s.inode_bitmap ∧
    (check_all s).data_bitmap = s.data_bitmap ∧
    (check_all s).inodes = s.inodes ∧
    (check_all s).img = s.img ∧
    (check_all s).errors_fixed = s.errors_fixed := by
  unfold check_all
  obtain ⟨a1, a2, a3, a4, a5, a6, a7⟩ := check_superblock_state s
  obtain ⟨b1, b2, b3, b4, b5, b6, b7⟩ := check_inode_bitmap_state (check_superblock s).2
  obtain ⟨c1, c2, c3, c4, c5, c6⟩ :=
    check_data_bitmap_state (check_inode_bitmap_consistency (check_superblock s).2).2
  obtain ⟨d1, d2, d3, d4, d5, d6, d7⟩ := check_duplicate_state
    (check_data_bitmap_consistency (check_inode_bitmap_consistency (check_superblock s).2).2).2
  obtain ⟨e1, e2, e3, e4, e5, e6, e7⟩ := check_bad_blocks_state
    (check_duplicate_blocks (check_data_bitmap_consistency
      (check_inode_bitmap_consistency (check_superblock s).2).2).2).2
  exact ⟨e1.trans (d1.trans (c1.trans (b1.trans a1))),
    e2.trans (d2.trans (c2.trans (b2.trans a2))),
    e3.trans (d3.trans (c3.trans (b3.trans a3))),
    e4.trans (d4.trans (c4.trans (b4.trans a4))),
    e5.trans (d5.trans (c5.trans (b5.trans a5))),
    e7.trans (d7.trans (c6.trans (b7.trans a7)))⟩

theorem check_all_br (s : St) (b : Nat) :
    (check_all s).block_referenced b = decide (specReferenced s b) := by
  unfold check_all
  obtain ⟨a1, a2, a3, a4, a5, a6, a7⟩ := check_superblock_state s
  obtain ⟨b1, b2, b3, b4, b5, b6, b7⟩ := check_inode_bitmap_state (check_superblock s).2
  rw [congrFun (check_bad_blocks_state _).2.2.2.2.2.1 b,
    congrFun (check_duplicate_state _).2.2.2.2.2.1 b,
    check_data_bitmap_br]
  refine decide_eq_decide.mpr ?_
  exact specReferenced_congr (b1.trans a1) (b4.trans a4) (b5.trans a5) b

theorem check_all_errors (s : St) :
    (check_all s).errors_found
      = s.errors_found + (sbFindings s.superblock).length
        + (List.range INODE_COUNT).countP (fun i => decide (ibmMismatch s i))
        + (dataRange s).countP (fun b => decide (dbmMismatch s b))
        + (dataRange s).countP (fun b => decide (1 < (dupClaimants s b).length))
        + ((List.range INODE_COUNT).map (badCountInode s)).sum := by
  unfold check_all
  obtain ⟨a1, a2, a3, a4, a5, a6, a7⟩ := check_superblock_state s
  obtain ⟨b1, b2, b3, b4, b5, b6, b7⟩ := check_inode_bitmap_state (check_superblock s).2
  obtain ⟨c1, c2, c3, c4, c5, c6⟩ :=
    check_data_bitmap_state (check_inode_bitmap_consistency (check_superblock s).2).2
  obtain ⟨d1, d2, d3, d4, d5, d6, d7⟩ := check_duplicate_state
    (check_data_bitmap_consistency (check_inode_bitmap_consistency (check_superblock s).2).2).2
  rw [check_bad_blocks_errors, check_duplicate_errors, check_data_bitmap_errors,
    check_inode_bitmap_errors, check_superblock_errors]
  rw [dataRange_congr (c1.trans (b1.trans a1)),
    dataRange_congr (b1.trans a1)]
  simp only [ibmMismatch_congr a2 a4,
    dbmMismatch_congr (b1.trans a1) (b3.trans a3) (b4.trans a4) (b5.trans a5),
    dupClaimants_congr (c4.trans (b4.trans a4)) (c5.trans (b5.trans a5))]
  rw [badCountInode_congr_fun (d1.trans (c1.trans (b1.trans a1)))
      (d4.trans (c4.trans (b4.trans a4))) (d5.trans (c5.trans (b5.trans a5)))]

/-- A state the repair engine does not change: good superblock, bitmaps
matching validity and the reference tracker, and no out-of-range pointers
anywhere a valid inode is walked. -/
theorem fix_errors_fixpoint (t : St)
    (hsb : t.superblock = goodSB)
    (hibm : ∀ i, i < INODE_COUNT →
      (get_bit t.inode_bitmap i ≠ 0 ↔ is_valid_inode t.inodes i = true))
    (hdbm : ∀ b, 8 ≤ b → b < TOTAL_BLOCKS →
      (get_bit t.data_bitmap (b - 8) ≠ 0 ↔ t.block_referenced b = true))
    (hdir : ∀ i, i < INODE_COUNT → is_valid_inode t.inodes i = true → ∀ k, k < 12 →
      ¬ badPtr 8 ((t.inodes i).direct_blocks k))
    (hindir : ∀ i, i < INODE_COUNT → is_valid_inode t.inodes i = true →
      (t.inodes i).indirect_block ≠ 0 →
      ¬ ((t.inodes i).indirect_block < 8 ∨ TOTAL_BLOCKS ≤ (t.inodes i).indirect_block) ∧
      ∀ j, j < ENTRIES_PER_BLOCK → ¬ badPtr 8 (t.img ((t.inodes i).indirect_block) j)) :
    fix_errors t = t := by
  have hstart : t.superblock.data_block_start = 8 := by
    rw [hsb]
    rfl
  have h1 : fix_superblock_fields t = t := fix_superblock_fields_id t hsb
  have h2 : fix_inode_bitmap t = t := fix_inode_bitmap_id t hibm
  have h3 : fix_data_bitmap t = t := by
    refine fix_data_bitmap_id t (fun b hb1 hb2 => ?_)
    rw [hstart] at hb1 ⊢
    exact hdbm b hb1 hb2
  have hfold : (List.range INODE_COUNT).foldl fixBadInode (t, []) = (t, []) := by
    refine foldl_id _ _ _ (fun i hi => ?_)
    have hi80 : i < INODE_COUNT := List.mem_range.mp hi
    refine fixBadInode_id t i [] (fun hval k hk => ?_) (fun hval hib => ?_)
    · rw [hstart]
      exact hdir i hi80 hval k hk
    · obtain ⟨hr, hcl⟩ := hindir i hi80 hval hib
      refine ⟨?_, fun j hj => ?_⟩
      · rw [hstart]
        exact hr
      · rw [hstart]
        exact hcl j hj
  have hfs : fixS3 t = t := by
    unfold fixS3
    rw [h1, h2, h3]
  rw [fix_errors_eq, hfs, hfold]

/-! ### Exact write trace of the bad-reference fix -/

/-- The indirect-block write events inode i contributes during the
bad-reference fix, read off the starting state s3 of the fold (the entries
seen at step i account for writes by earlier inodes sharing the block). -/
def badWriteEvents (s3 : St) (i : Nat) : List WriteEv :=
  if is_valid_inode s3.inodes i = true ∧ (s3.inodes i).indirect_block ≠ 0 ∧
      ¬ ((s3.inodes i).indirect_block < s3.superblock.data_block_start ∨
         TOTAL_BLOCKS ≤ (s3.inodes i).indirect_block) ∧
      ((List.range ENTRIES_PER_BLOCK).filter (fun j =>
        decide (badPtr s3.superblock.data_block_start
          (if imgTrigger s3 i ((s3.inodes i).indirect_block) ∧ j < ENTRIES_PER_BLOCK ∧
              badPtr s3.superblock.data_block_start (s3.img ((s3.inodes i).indirect_block) j)
            then 0 else s3.img ((s3.inodes i).indirect_block) j)))).length ≠ 0
  then [WriteEv.indirect ((s3.inodes i).indirect_block)]
  else []

theorem fixBadInode_trace_step (s3 : St) (n : Nat) (p : St × List WriteEv)
    (hp : BadFoldInv s3 n p) :
    (fixBadInode p n).2 = p.2 ++ badWriteEvents s3 n := by
  have hIn : p.1.inodes n = s3.inodes n := hp.hi n le_rfl
  unfold fixBadInode badWriteEvents
  dsimp only
  by_cases hval : is_valid_inode p.1.inodes n = true
  · rw [if_pos hval]
    have hval3 : is_valid_inode s3.inodes n = true := by
      unfold is_valid_inode at hval ⊢
      rw [hIn] at hval
      exact hval
    have hq := fixDirects_dirRest p.1 n
    have hib : ((fixDirects p.1 n).inodes n).indirect_block
        = (s3.inodes n).indirect_block := by
      rw [hq.2.2.2.2.2.2.2.2.1, hIn]
    have hsb1 : (fixDirects p.1 n).superblock = s3.superblock := hq.1.trans hp.sb
    have hstart1 : (fixDirects p.1 n).superblock.data_block_start
        = s3.superblock.data_block_start := congrArg Superblock.data_block_start hsb1
    by_cases hib0 : ((fixDirects p.1 n).inodes n).indirect_block ≠ 0
    · rw [if_pos hib0]
      have hib0s : (s3.inodes n).indirect_block ≠ 0 := by
        rw [← hib]
        exact hib0
      by_cases hbad : (s3.inodes n).indirect_block < s3.superblock.data_block_start ∨
          TOTAL_BLOCKS ≤ (s3.inodes n).indirect_block
      · have hbad1 : ((fixDirects p.1 n).inodes n).indirect_block
              < (fixDirects p.1 n).superblock.data_block_start ∨
            TOTAL_BLOCKS ≤ ((fixDirects p.1 n).inodes n).indirect_block := by
          rw [hib, hstart1]
          exact hbad
        rw [if_pos hbad1, if_neg (fun hc => hc.2.2.1 hbad)]
        dsimp only
        rw [List.append_nil]
      · have hbad1 : ¬ (((fixDirects p.1 n).inodes n).indirect_block
              < (fixDirects p.1 n).superblock.data_block_start ∨
            TOTAL_BLOCKS ≤ ((fixDirects p.1 n).inodes n).indirect_block) := by
          rw [hib, hstart1]
          exact hbad
        rw [if_neg hbad1]
        have hfilter : ((List.range ENTRIES_PER_BLOCK).filter (fun j =>
              decide (badPtr (fixDirects p.1 n).superblock.data_block_start
                ((fixDirects p.1 n).img
                  (((fixDirects p.1 n).inodes n).indirect_block) j))))
            = ((List.range ENTRIES_PER_BLOCK).filter (fun j =>
              decide (badPtr s3.superblock.data_block_start
                (if imgTrigger s3 n ((s3.inodes n).indirect_block) ∧ j < ENTRIES_PER_BLOCK ∧
                    badPtr s3.superblock.data_block_start
                      (s3.img ((s3.inodes n).indirect_block) j)
                  then 0 else s3.img ((s3.inodes n).indirect_block) j)))) := by
          refine List.filter_congr (fun j hj => ?_)
          rw [hstart1, hq.2.2.2.1, hib, hp.imgeq]
        by_cases hbc : (((List.range ENTRIES_PER_BLOCK).filter (fun j =>
            decide (badPtr (fixDirects p.1 n).superblock.data_block_start
              ((fixDirects p.1 n).img
                (((fixDirects p.1 n).inodes n).indirect_block) j)))).length) ≠ 0
        · rw [if_pos hbc]
          have hbcS : ((List.range ENTRIES_PER_BLOCK).filter (fun j =>
              decide (badPtr s3.superblock.data_block_start
                (if imgTrigger s3 n ((s3.inodes n).indirect_block) ∧ j < ENTRIES_PER_BLOCK ∧
                    badPtr s3.superblock.data_block_start
                      (s3.img ((s3.inodes n).indirect_block) j)
                  then 0 else s3.img ((s3.inodes n).indirect_block) j)))).length ≠ 0 := by
            rw [← hfilter]
            exact hbc
          rw [if_pos ⟨hval3, hib0s, hbad, hbcS⟩]
          dsimp only
          rw [hib]
        · rw [if_neg hbc]
          have hbcS : ¬ (is_valid_inode s3.inodes n = true ∧
              (s3.inodes n).indirect_block ≠ 0 ∧
              ¬ ((s3.inodes n).indirect_block < s3.superblock.data_block_start ∨
                 TOTAL_BLOCKS ≤ (s3.inodes n).indirect_block) ∧
              ((List.range ENTRIES_PER_BLOCK).filter (fun j =>
                decide (badPtr s3.superblock.data_block_start
                  (if imgTrigger s3 n ((s3.inodes n).indirect_block) ∧ j < ENTRIES_PER_BLOCK ∧
                      badPtr s3.superblock.data_block_start
                        (s3.img ((s3.inodes n).indirect_block) j)
                    then 0 else s3.img ((s3.inodes n).indirect_block) j)))).length ≠ 0) := by
            intro hc
            apply hbc
            rw [hfilter]
            exact hc.2.2.2
          rw [if_neg hbcS, List.append_nil]
    · rw [if_neg hib0]
      have hib0s : (s3.inodes n).indirect_block = 0 := by
        rw [← hib]
        exact not_not.mp hib0
      rw [if_neg (fun hc => hc.2.1 hib0s), List.append_nil]
  · rw [if_neg hval]
    have hval3 : ¬ is_valid_inode s3.inodes n = true := by
      unfold is_valid_inode at hval ⊢
      rw [hIn] at hval
      exact hval
    rw [if_neg (fun hc => hval3 hc.1), List.append_nil]

theorem badFold_trace_eq (s3 : St) (n : Nat) :
    ((List.range n).foldl fixBadInode (s3, [])).2
      = (List.range n).flatMap (badWriteEvents s3) := by
  induction n with
  | zero => rfl
  | succ n ih =>
    rw [List.range_succ, List.foldl_append, List.foldl_cons, List.foldl_nil,
      List.flatMap_append, fixBadInode_trace_step s3 n _ (badFold_inv s3 n), ih]
    simp

/-- The full trace of fix_errors: per-inode indirect-block writes first,
then the superblock, the two bitmaps, and the inode table. -/
theorem fix_trace_eq (s : St) :
    fix_trace s = (List.range INODE_COUNT).flatMap (badWriteEvents (fixS3 s))
      ++ ([WriteEv.superblock, WriteEv.inodeBitmap, WriteEv.dataBitmap]
          ++ (List.range INODE_COUNT).map WriteEv.inodeTable) := by
  rw [fix_trace_parts, badFold_trace_eq]
  simp [List.append_assoc]

/-! ### Concrete image states and small evaluation helpers -/

/-- A fully zeroed inode record (unused slot). -/
def zeroInode : Inode :=
  { mode := 0, uid := 0, gid := 0, size := 0, atime := 0, ctime := 0, mtime := 0,
    dtime := 0, nlink := 0, blocks := 0, direct_blocks := fun _ => 0,
    indirect_block := 0, double_indirect := 0, triple_indirect := 0 }

/-- A consistent empty image: supported geometry, zero bitmaps, no inodes. -/
def baseSt : St :=
  { superblock := goodSB, inode_bitmap := fun _ => 0, data_bitmap := fun _ => 0,
    inodes := fun _ => zeroInode, img := fun _ _ => 0,
    block_referenced := fun _ => false, block_referenced_by := fun _ => -1,
    errors_found := 0, errors_fixed := 0 }

theorem get_bit_zero_map (i : Nat) : get_bit (fun _ => 0) i = 0 := by
  unfold get_bit
  simp

theorem invalid_of_zeroInode {f : Nat → Inode} {i : Nat} (h : f i = zeroInode) :
    is_valid_inode f i = false := by
  unfold is_valid_inode
  rw [h]
  simp [zeroInode]

theorem flatMap_nil_of_forall {α : Type} (l : List Nat) (g : Nat → List α)
    (h : ∀ i ∈ l, g i = []) : l.flatMap g = [] := by
  induction l with
  | nil => rfl
  | cons x l ih =>
    rw [List.flatMap_cons, h x (List.mem_cons_self x l),
      ih (fun i hi => h i (List.mem_cons_of_mem x hi))]
    rfl

theorem one_lt_length_of_two_mem {α : Type} {a b : α} {l : List α}
    (hab : a ≠ b) (ha : a ∈ l) (hb : b ∈ l) : 1 < l.length := by
  obtain ⟨s1, t1, rfl⟩ := List.append_of_mem ha
  rw [List.mem_append, List.mem_cons] at hb
  rcases hb with hb | hb | hb
  · have := List.length_pos_of_mem hb
    simp [List.length_append]
    omega
  · exact absurd hb.symm hab
  · have := List.length_pos_of_mem hb
    simp [List.length_append]
    omega

theorem mem_ite_singleton (a x : Nat) (c : Prop) [Decidable c] :
    a ∈ (if c then [x] else ([] : List Nat)) ↔ c ∧ a = x := by
  by_cases h : c <;> simp [h]

/-- C1's image: a valid inode whose first direct pointer is 64 (one past the
last block), with the data-bitmap bit for "block 64" (bit 56) set. -/
def cx1Inode : Inode :=
  { zeroInode with nlink := 1, direct_blocks := fun j => if j = 0 then TOTAL_BLOCKS else 0 }

def cx1 : St :=
  { baseSt with inodes := fun i => if i = 0 then cx1Inode else zeroInode, inode_bitmap := fun k => if k = 0 then 1 else 0, data_bitmap := fun k => if k = 7 then 1 else 0 }

/-- C2's image: a valid inode with an out-of-range indirect pointer 3, and
the metadata block 3 read as an indirect block holding entry 9. -/
def cx2Inode : Inode := { zeroInode with nlink := 1, indirect_block := 3 }

def cx2 : St :=
  { baseSt with inodes := fun i => if i = 0 then cx2Inode else zeroInode, img := fun b j => if b = 3 ∧ j = 0 then 9 else 0 }

/-- C3's image: data_block_start 9; a valid inode pointing at block 8, which
the check (start 9) calls bad but the fix (start corrected to 8) keeps. -/
def cxAInode : Inode :=
  { zeroInode with nlink := 1, direct_blocks := fun j => if j = 0 then 8 else 0 }

def cxA : St :=
  { baseSt with superblock := { goodSB with data_block_start := 9 }, inodes := fun i => if i = 0 then cxAInode else zeroInode }

/-- C4's image: one valid inode claiming block 9 through two direct slots. -/
def cx4Inode : Inode :=
  { zeroInode with nlink := 1, direct_blocks := fun j => if j = 0 ∨ j = 1 then 9 else 0 }

def cx4 : St :=
  { baseSt with inodes := fun i => if i = 0 then cx4Inode else zeroInode }

/-- C5's image: a valid inode with in-range indirect block 9 whose entry 0
holds the out-of-range value 70, forcing an indirect write-back. -/
def cx5Inode : Inode := { zeroInode with nlink := 1, indirect_block := 9 }

def cx5 : St :=
  { baseSt with inodes := fun i => if i = 0 then cx5Inode else zeroInode, img := fun b j => if b = 9 ∧ j = 0 then 70 else 0 }

/-- C8's image: inodes 0 and 1 both claim block 9 through their first direct
slot; inode 2 claims 9 through a garbage walk of metadata block 3. -/
def cx8Inode : Inode :=
  { zeroInode with nlink := 1, direct_blocks := fun j => if j = 0 then 9 else 0 }

def cx8IndInode : Inode := { zeroInode with nlink := 1, indirect_block := 3 }

def cx8 : St :=
  { baseSt with inodes := fun i => if i = 0 then cx8Inode else if i = 1 then cx8Inode else if i = 2 then cx8IndInode else zeroInode, img := fun b j => if b = 3 ∧ j = 0 then 9 else 0 }

/-- C10's image: wrong magic plus the tolerated inode count 0. -/
def cx10 : St :=
  { baseSt with superblock := { goodSB with magic := 0, inode_count := 0 } }

/-! ### Claim theorems -/

/-- C6: the superblock validator reports every one of the nine geometry
mismatches independently, incrementing the error count once per mismatched
field and not short-circuiting (the count is the full findings length and
the flag is clean exactly when no finding exists), and an inode count of 0
produces no finding. -/
theorem C6_superblock_validator (s : St) :
    (check_superblock s).2.errors_found = s.errors_found + (sbFindings s.superblock).length
    ∧ ((check_superblock s).1 = true ↔ sbFindings s.superblock = [])
    ∧ (s.superblock.inode_count = 0 → 8 ∉ sbFindings s.superblock) := by
  refine ⟨check_superblock_errors s, check_superblock_flag s, fun h0 => ?_⟩
  unfold sbFindings
  simp only [List.mem_append, mem_ite_singleton, h0]
  omega

/-- C7: the inode-bitmap validator recomputes validity from the inode record
alone and counts one finding per slot where the bitmap bit disagrees with
validity, split into the two independent mismatch kinds; the flag is clean
exactly when no slot mismatches. -/
theorem C7_inode_bitmap_validator (s : St) :
    (check_inode_bitmap_consistency s).2.errors_found
      = s.errors_found
        + ((List.range INODE_COUNT).countP
            (fun i => decide (get_bit s.inode_bitmap i ≠ 0 ∧ ¬ is_valid_inode s.inodes i = true))
          + (List.range INODE_COUNT).countP
            (fun i => decide (get_bit s.inode_bitmap i = 0 ∧ is_valid_inode s.inodes i = true)))
    ∧ ((check_inode_bitmap_consistency s).1 = true ↔
        ∀ i ∈ List.range INODE_COUNT, ¬ ibmMismatch s i) := by
  refine ⟨?_, check_inode_bitmap_flag s⟩
  rw [check_inode_bitmap_errors]
  refine congrArg (fun x => s.errors_found + x) ?_
  have hsplit : (fun i => decide (ibmMismatch s i))
      = (fun i => decide (get_bit s.inode_bitmap i ≠ 0 ∧ ¬ is_valid_inode s.inodes i = true)
          || decide (get_bit s.inode_bitmap i = 0 ∧ is_valid_inode s.inodes i = true)) := by
    funext i
    rw [Bool.eq_iff_iff]
    simp [ibmMismatch]
  rw [hsplit]
  refine countP_or_disjoint _ _ _ (fun i _ => ?_)
  rintro ⟨h1, h2⟩
  simp only [decide_eq_true_eq] at h1 h2
  exact h1.2 h2.2

/-- C9: the run exits 1 exactly on a wrong argument count or a failed open,
and exits 0 in every other run, whatever the check results. -/
theorem C9_exit_codes (argc : Nat) (open_ok : Bool) (s : St) :
    ((vsfsck_main argc open_ok s).1 = 1 ↔ (argc ≠ 2 ∨ open_ok = false))
    ∧ ((vsfsck_main argc open_ok s).1 = 0 ↔ (argc = 2 ∧ open_ok = true)) := by
  unfold vsfsck_main
  by_cases h1 : argc = 2 <;> cases open_ok <;> simp [h1]

/-- C2 (corrected): the data-bitmap fix step writes every data-region bit
from the reference map left by the pre-repair check — the stale map of the
original inodes — not from one rebuilt from the already-fixed inodes. -/
theorem C2_data_bitmap_fix_stale (s : St) (b : Nat) (h1 : 8 ≤ b) (h2 : b < TOTAL_BLOCKS) :
    get_bit (fix_errors s).data_bitmap (b - 8)
      = if s.block_referenced b then 1 else 0 :=
  fix_errors_dbm s b h1 h2

theorem C2_witness :
    (8 ≤ 8 ∧ 8 < TOTAL_BLOCKS)
    ∧ get_bit (fix_errors baseSt).data_bitmap (8 - 8)
        = if baseSt.block_referenced 8 then 1 else 0 :=
  ⟨⟨by decide, by decide⟩, C2_data_bitmap_fix_stale baseSt 8 (by decide) (by decide)⟩

/-- C5 (corrected): the repair engine's writes happen with the modified
indirect blocks FIRST (written inline while fixing bad references), then
the superblock, the two bitmaps and the inode table — not with the indirect
blocks last. -/
theorem C5_write_order (s : St) :
    ∃ bs : List Nat,
      fix_trace s = bs.map WriteEv.indirect
        ++ ([WriteEv.superblock, WriteEv.inodeBitmap, WriteEv.dataBitmap]
            ++ (List.range INODE_COUNT).map WriteEv.inodeTable) := by
  obtain ⟨bs, hbs⟩ := badFold_trace (fixS3 s) INODE_COUNT
  refine ⟨bs, ?_⟩
  rw [fix_trace_parts, hbs]
  simp [List.append_assoc]

/-- All four non-superblock validators are silent on an image whose bitmaps
are zero and whose inode table holds no valid inode. -/
theorem check_counts_empty (s : St)
    (hibm : s.inode_bitmap = fun _ => 0)
    (hdbm : s.data_bitmap = fun _ => 0)
    (hinv : ∀ i, is_valid_inode s.inodes i = false) :
    (List.range INODE_COUNT).countP (fun i => decide (ibmMismatch s i)) = 0
    ∧ (dataRange s).countP (fun b => decide (dbmMismatch s b)) = 0
    ∧ (dataRange s).countP (fun b => decide (1 < (dupClaimants s b).length)) = 0
    ∧ ((List.range INODE_COUNT).map (badCountInode s)).sum = 0 := by
  have hnospec : ∀ b, ¬ specReferenced s b := by
    rintro b ⟨-, -, i, -, hvi, -⟩
    rw [hinv i] at hvi
    exact absurd hvi (by decide)
  refine ⟨?_, ?_, ?_, ?_⟩
  · refine (List.countP_eq_zero).mpr (fun i _ => ?_)
    simp only [decide_eq_true_eq]
    rintro (⟨hne, -⟩ | ⟨-, hval⟩)
    · rw [hibm, get_bit_zero_map] at hne
      exact hne rfl
    · rw [hinv i] at hval
      exact absurd hval (by decide)
  · refine (List.countP_eq_zero).mpr (fun b _ => ?_)
    simp only [decide_eq_true_eq]
    rintro (⟨hne, -⟩ | ⟨-, hsp⟩)
    · rw [hdbm, get_bit_zero_map] at hne
      exact hne rfl
    · exact hnospec b hsp
  · refine (List.countP_eq_zero).mpr (fun b _ => ?_)
    simp only [decide_eq_true_eq]
    have hempty : dupClaimants s b = [] := by
      unfold dupClaimants
      refine flatMap_nil_of_forall _ _ (fun i _ => ?_)
      simp [hinv i]
    rw [hempty]
    simp
  · refine List.sum_eq_zero (fun x hx => ?_)
    rw [List.mem_map] at hx
    obtain ⟨i, -, rfl⟩ := hx
    have hne : is_valid_inode s.inodes i ≠ true := by
      rw [hinv i]
      decide
    unfold badCountInode
    rw [if_neg hne]

/-- C1 (corrected): a valid inode whose first direct pointer is 64 (one past
the last block) is flagged by the bad-block validator and repair zeroes the
slot, so the re-walked slot is zero; but the data-bitmap bit for that block
number (bit 56) lies outside the repaired data-region range and is carried
over unchanged, not corrected. -/
theorem C1_bad_first_direct (s : St) (i : Nat) (hi : i < INODE_COUNT)
    (hv : is_valid_inode s.inodes i = true)
    (hd : (s.inodes i).direct_blocks 0 = TOTAL_BLOCKS) :
    s.errors_found + 1 ≤ (check_bad_blocks s).2.errors_found
    ∧ ((fix_errors s).inodes i).direct_blocks 0 = 0
    ∧ get_bit (fix_errors s).data_bitmap (TOTAL_BLOCKS - 8)
        = get_bit s.data_bitmap (TOTAL_BLOCKS - 8) := by
  have hbad : badPtr s.superblock.data_block_start ((s.inodes i).direct_blocks 0) := by
    rw [hd]
    exact ⟨by unfold TOTAL_BLOCKS; omega, Or.inr le_rfl⟩
  refine ⟨?_, ?_, ?_⟩
  · rw [check_bad_blocks_errors]
    have hmem0 : 0 ∈ badDirectSlots s i := by
      unfold badDirectSlots
      rw [List.mem_filter]
      exact ⟨List.mem_range.mpr (by omega), decide_eq_true hbad⟩
    have hcount : 1 ≤ badCountInode s i := by
      unfold badCountInode
      rw [if_pos hv]
      have := List.length_pos_of_mem hmem0
      omega
    have hmemmap : badCountInode s i ∈ (List.range INODE_COUNT).map (badCountInode s) :=
      List.mem_map_of_mem _ (List.mem_range.mpr hi)
    have hsum := List.single_le_sum (fun x _ => Nat.zero_le x) _ hmemmap
    omega
  · have hbad8 : badPtr 8 ((s.inodes i).direct_blocks 0) := by
      rw [hd]
      exact ⟨by unfold TOTAL_BLOCKS; omega, Or.inr le_rfl⟩
    rw [fix_errors_dirLow s i hi hv 0 (by omega), if_pos hbad8]
  · exact fix_errors_dbm_high s (TOTAL_BLOCKS - 8) (by decide)

theorem C1_witness :
    (0 < INODE_COUNT ∧ is_valid_inode cx1.inodes 0 = true ∧
      (cx1.inodes 0).direct_blocks 0 = TOTAL_BLOCKS)
    ∧ (cx1.errors_found + 1 ≤ (check_bad_blocks cx1).2.errors_found
       ∧ ((fix_errors cx1).inodes 0).direct_blocks 0 = 0
       ∧ get_bit (fix_errors cx1).data_bitmap (TOTAL_BLOCKS - 8)
           = get_bit cx1.data_bitmap (TOTAL_BLOCKS - 8)) :=
  ⟨⟨by decide, by decide, by decide⟩,
    C1_bad_first_direct cx1 0 (by decide) (by decide) (by decide)⟩

theorem C1_counterexample :
    get_bit cx1.data_bitmap (TOTAL_BLOCKS - 8) = 1
    ∧ ((fix_errors cx1).inodes 0).direct_blocks 0 = 0
    ∧ get_bit (fix_errors cx1).data_bitmap (TOTAL_BLOCKS - 8) = 1 := by
  refine ⟨by decide, ?_, ?_⟩
  · rw [fix_errors_dirLow cx1 0 (by decide) (by decide) 0 (by decide),
      if_pos (by decide : badPtr 8 ((cx1.inodes 0).direct_blocks 0))]
  · rw [fix_errors_dbm_high cx1 (TOTAL_BLOCKS - 8) (by decide)]
    decide

/-- C10: an inode count of 0 yields no superblock finding, yet the repair
engine unconditionally rewrites the field to 80 and counts that as a fixed
error; on a concrete image with one unrelated finding the repair therefore
reports more errors fixed than were found. -/
theorem C10_inode_count_zero (s : St) (h0 : s.superblock.inode_count = 0) :
    (8 ∉ sbFindings s.superblock
     ∧ (fix_errors s).superblock.inode_count = INODE_COUNT
     ∧ s.errors_fixed + 1 ≤ (fix_errors s).errors_fixed)
    ∧ (0 < (check_all (init_state cx10)).errors_found
       ∧ (check_all (init_state cx10)).errors_found
           < (fix_errors (check_all (init_state cx10))).errors_fixed) := by
  refine ⟨⟨?_, ?_, ?_⟩, ?_⟩
  · unfold sbFindings
    simp only [List.mem_append, mem_ite_singleton, h0]
    omega
  · rw [fix_errors_sb]
    rfl
  · refine le_trans ?_ (fix_errors_ef_ge s)
    have h1 : 1 ≤ sbFixCount s.superblock := by
      unfold sbFixCount
      rw [if_pos (show s.superblock.inode_count ≠ INODE_COUNT by rw [h0]; decide)]
      omega
    omega
  · have ht0inv : ∀ i, is_valid_inode (init_state cx10).inodes i = false :=
      fun i => invalid_of_zeroInode rfl
    obtain ⟨z1, z2, z3, z4⟩ := check_counts_empty (init_state cx10) rfl rfl ht0inv
    have hef : (check_all (init_state cx10)).errors_found = 1 := by
      rw [check_all_errors, z1, z2, z3, z4]
      decide
    have hcnt : sbFixCount (check_all (init_state cx10)).superblock = 2 := by
      rw [(check_all_persist _).1]
      decide
    have hef0 : (check_all (init_state cx10)).errors_fixed = 0 := by
      rw [(check_all_persist _).2.2.2.2.2]
      rfl
    have hfix := fix_errors_ef_ge (check_all (init_state cx10))
    rw [hcnt, hef0] at hfix
    omega

theorem C10_witness :
    cx10.superblock.inode_count = 0
    ∧ ((8 ∉ sbFindings cx10.superblock
        ∧ (fix_errors cx10).superblock.inode_count = INODE_COUNT
        ∧ cx10.errors_fixed + 1 ≤ (fix_errors cx10).errors_fixed)
       ∧ (0 < (check_all (init_state cx10)).errors_found
          ∧ (check_all (init_state cx10)).errors_found
              < (fix_errors (check_all (init_state cx10))).errors_fixed)) :=
  ⟨by decide, C10_inode_count_zero cx10 (by decide)⟩

/-- C4 (corrected): the duplicate validator records every claim occurrence
per block (the recorded list is exactly the occurrence walk) and reports the
data-region blocks with more than one recorded OCCURRENCE — a single inode
claiming a block twice is reported just like two distinct inodes. -/
theorem C4_duplicate_occurrences (s : St) :
    (check_duplicate_blocks s).2.errors_found
      = s.errors_found + (dataRange s).countP (fun b => decide (1 < (dupClaimants s b).length))
    ∧ ((check_duplicate_blocks s).1 = true ↔
        ∀ b ∈ dataRange s, (dupClaimants s b).length ≤ 1)
    ∧ (∀ b, dupRefs s b = dupClaimants s b) := by
  refine ⟨check_duplicate_errors s, ?_, dupRefs_eq s⟩
  rw [check_duplicate_flag]
  exact forall_congr' (fun b => imp_congr_right (fun _ => not_lt))

theorem C4_counterexample :
    dupClaimants cx4 9 = [0, 0]
    ∧ (check_duplicate_blocks cx4).2.errors_found = 1 := by
  have hsplit : List.range INODE_COUNT = 0 :: List.range' 1 79 := by
    rw [List.range_eq_range']
    rfl
  have hz : ∀ b : Nat, (List.range' 1 79).flatMap
      (fun i => if is_valid_inode cx4.inodes i then inodeClaimList cx4 i b else []) = [] := by
    intro b
    refine flatMap_nil_of_forall _ _ (fun i hi => ?_)
    have hi1 : 1 ≤ i := (List.mem_range'_1.mp hi).1
    have hzi : cx4.inodes i = zeroInode := by
      show (if i = 0 then cx4Inode else zeroInode) = zeroInode
      rw [if_neg (by omega)]
    simp [invalid_of_zeroInode hzi]
  have hdup : ∀ b : Nat, dupClaimants cx4 b = inodeClaimList cx4 0 b := by
    intro b
    unfold dupClaimants
    rw [hsplit, List.flatMap_cons, hz b, List.append_nil,
      if_pos (by decide : is_valid_inode cx4.inodes 0 = true)]
  constructor
  · rw [hdup 9]
    decide
  · rw [check_duplicate_errors]
    have h9 : ∀ b ∈ dataRange cx4,
        (decide (1 < (dupClaimants cx4 b).length) = true ↔ decide (b = 9) = true) := by
      intro b _
      simp only [decide_eq_true_eq]
      rw [hdup b]
      constructor
      · intro hlen
        by_contra hb9
        have hnil : inodeClaimList cx4 0 b = [] := by
          unfold inodeClaimList
          have hib : (cx4.inodes 0).indirect_block = 0 := rfl
          rw [hib, if_neg (fun h => h.1 rfl), if_neg (fun h => h.1 rfl)]
          have hf : (List.range 12).filter
              (fun j => decide ((cx4.inodes 0).direct_blocks j ≠ 0 ∧
                (cx4.inodes 0).direct_blocks j < TOTAL_BLOCKS ∧
                b = (cx4.inodes 0).direct_blocks j)) = [] := by
            refine List.filter_eq_nil.mpr (fun j hj => ?_)
            simp only [decide_eq_true_eq]
            rintro ⟨hne, -, hbeq⟩
            have hval : (cx4.inodes 0).direct_blocks j = 9 ∨
                (cx4.inodes 0).direct_blocks j = 0 := by
              show (if j = 0 ∨ j = 1 then (9 : Nat) else 0) = 9 ∨
                (if j = 0 ∨ j = 1 then (9 : Nat) else 0) = 0
              by_cases hc : j = 0 ∨ j = 1
              · rw [if_pos hc]
                exact Or.inl rfl
              · rw [if_neg hc]
                exact Or.inr rfl
            rcases hval with h9v | h0v
            · rw [h9v] at hbeq
              exact hb9 hbeq
            · exact hne h0v
          rw [hf]
          rfl
        rw [hnil] at hlen
        exact absurd hlen (by decide)
      · intro hb9
        subst hb9
        rw [show inodeClaimList cx4 0 9 = [0, 0] from by decide]
        decide
    rw [List.countP_congr h9]
    decide

/-- C8 (corrected): repair leaves both claimants of a doubly-owned in-range
block untouched, and both inode indices are still recorded as claimants of
that block after repair; but the full claimant list of the block need not be
identical across repair (a garbage-walk claimant can disappear). -/
theorem C8_duplicates_untouched (s : St) (i j B : Nat)
    (hij : i ≠ j) (hi : i < INODE_COUNT) (hj : j < INODE_COUNT)
    (hvi : is_valid_inode s.inodes i = true) (hvj : is_valid_inode s.inodes j = true)
    (hdi : (s.inodes i).direct_blocks 0 = B) (hdj : (s.inodes j).direct_blocks 0 = B)
    (hB1 : 8 ≤ B) (hB2 : B < TOTAL_BLOCKS) :
    ((fix_errors s).inodes i).direct_blocks 0 = B
    ∧ ((fix_errors s).inodes j).direct_blocks 0 = B
    ∧ (i ∈ dupClaimants s B ∧ j ∈ dupClaimants s B ∧ 1 < (dupClaimants s B).length)
    ∧ (i ∈ dupClaimants (fix_errors s) B ∧ j ∈ dupClaimants (fix_errors s) B
       ∧ 1 < (dupClaimants (fix_errors s) B).length) := by
  have hTB : (64 : Nat) = TOTAL_BLOCKS := rfl
  have hgood : ∀ X : Nat, X = B → ¬ badPtr 8 X := by
    intro X hX hbp
    obtain ⟨-, hr⟩ := hbp
    rcases hr with hr | hr <;> omega
  have hmem : ∀ (t : St) (a : Nat), a < INODE_COUNT → is_valid_inode t.inodes a = true →
      (t.inodes a).direct_blocks 0 = B → a ∈ dupClaimants t B := by
    intro t a ha hva hda
    unfold dupClaimants
    rw [List.mem_flatMap]
    refine ⟨a, List.mem_range.mpr ha, ?_⟩
    rw [if_pos hva]
    unfold inodeClaimList
    refine List.mem_append.mpr (Or.inl (List.mem_append.mpr (Or.inl ?_)))
    rw [List.mem_map]
    refine ⟨0, ?_, rfl⟩
    rw [List.mem_filter]
    refine ⟨List.mem_range.mpr (by omega), ?_⟩
    simp only [decide_eq_true_eq]
    refine ⟨?_, ?_, ?_⟩
    · rw [hda]
      omega
    · rw [hda]
      exact hB2
    · rw [hda]
  have hfixd : ∀ a, a < INODE_COUNT → is_valid_inode s.inodes a = true →
      (s.inodes a).direct_blocks 0 = B →
      ((fix_errors s).inodes a).direct_blocks 0 = B := by
    intro a ha hva hda
    rw [fix_errors_dirLow s a ha hva 0 (by omega), if_neg (hgood _ hda)]
    exact hda
  have hfi := hfixd i hi hvi hdi
  have hfj := hfixd j hj hvj hdj
  have hvfi : is_valid_inode (fix_errors s).inodes i = true := by
    rw [fix_errors_valid]
    exact hvi
  have hvfj : is_valid_inode (fix_errors s).inodes j = true := by
    rw [fix_errors_valid]
    exact hvj
  have hm1 := hmem s i hi hvi hdi
  have hm2 := hmem s j hj hvj hdj
  have hm3 := hmem (fix_errors s) i hi hvfi hfi
  have hm4 := hmem (fix_errors s) j hj hvfj hfj
  exact ⟨hfi, hfj, ⟨hm1, hm2, one_lt_length_of_two_mem hij hm1 hm2⟩,
    ⟨hm3, hm4, one_lt_length_of_two_mem hij hm3 hm4⟩⟩

theorem C8_witness :
    (¬ (0 : Nat) = 1 ∧ 0 < INODE_COUNT ∧ 1 < INODE_COUNT
     ∧ is_valid_inode cx8.inodes 0 = true ∧ is_valid_inode cx8.inodes 1 = true
     ∧ (cx8.inodes 0).direct_blocks 0 = 9 ∧ (cx8.inodes 1).direct_blocks 0 = 9
     ∧ 8 ≤ 9 ∧ 9 < TOTAL_BLOCKS)
    ∧ (((fix_errors cx8).inodes 0).direct_blocks 0 = 9
       ∧ ((fix_errors cx8).inodes 1).direct_blocks 0 = 9
       ∧ (0 ∈ dupClaimants cx8 9 ∧ 1 ∈ dupClaimants cx8 9 ∧ 1 < (dupClaimants cx8 9).length)
       ∧ (0 ∈ dupClaimants (fix_errors cx8) 9 ∧ 1 ∈ dupClaimants (fix_errors cx8) 9
          ∧ 1 < (dupClaimants (fix_errors cx8) 9).length)) :=
  ⟨⟨by decide, by decide, by decide, by decide, by decide, by decide, by decide,
    by decide, by decide⟩,
   C8_duplicates_untouched cx8 0 1 9 (by decide) (by decide) (by decide) (by decide)
     (by decide) (by decide) (by decide) (by decide) (by decide)⟩

/-- Pointwise agreement of one inode's fields transports its duplicate-walk
occurrence list. -/
theorem inodeClaimList_congr_pt {t s : St} (i b : Nat)
    (hd : ∀ j, j < 12 → (t.inodes i).direct_blocks j = (s.inodes i).direct_blocks j)
    (hib : (t.inodes i).indirect_block = (s.inodes i).indirect_block)
    (himg : ∀ k, k < ENTRIES_PER_BLOCK →
      t.img ((t.inodes i).indirect_block) k = s.img ((s.inodes i).indirect_block) k) :
    inodeClaimList t i b = inodeClaimList s i b := by
  unfold inodeClaimList
  have h1 : ((List.range 12).filter
        (fun j => decide ((t.inodes i).direct_blocks j ≠ 0 ∧
          (t.inodes i).direct_blocks j < TOTAL_BLOCKS ∧
          b = (t.inodes i).direct_blocks j))).map (fun _ => i)
      = ((List.range 12).filter
        (fun j => decide ((s.inodes i).direct_blocks j ≠ 0 ∧
          (s.inodes i).direct_blocks j < TOTAL_BLOCKS ∧
          b = (s.inodes i).direct_blocks j))).map (fun _ => i) := by
    refine congrArg (List.map _) (List.filter_congr (fun j hj => ?_))
    rw [hd j (List.mem_range.mp hj)]
  have h2 : (if (t.inodes i).indirect_block ≠ 0 ∧ (t.inodes i).indirect_block < TOTAL_BLOCKS ∧
        b = (t.inodes i).indirect_block then [i] else ([] : List Nat))
      = (if (s.inodes i).indirect_block ≠ 0 ∧ (s.inodes i).indirect_block < TOTAL_BLOCKS ∧
        b = (s.inodes i).indirect_block then [i] else []) := by
    rw [hib]
  have h3 : (if (t.inodes i).indirect_block ≠ 0 ∧ (t.inodes i).indirect_block < TOTAL_BLOCKS then
        ((List.range ENTRIES_PER_BLOCK).filter
          (fun k => decide (t.img ((t.inodes i).indirect_block) k ≠ 0 ∧
            t.img ((t.inodes i).indirect_block) k < TOTAL_BLOCKS ∧
            b = t.img ((t.inodes i).indirect_block) k))).map (fun _ => i)
      else ([] : List Nat))
      = (if (s.inodes i).indirect_block ≠ 0 ∧ (s.inodes i).indirect_block < TOTAL_BLOCKS then
        ((List.range ENTRIES_PER_BLOCK).filter
          (fun k => decide (s.img ((s.inodes i).indirect_block) k ≠ 0 ∧
            s.img ((s.inodes i).indirect_block) k < TOTAL_BLOCKS ∧
            b = s.img ((s.inodes i).indirect_block) k))).map (fun _ => i)
      else []) := by
    rw [hib]
    by_cases hc : (s.inodes i).indirect_block ≠ 0 ∧ (s.inodes i).indirect_block < TOTAL_BLOCKS
    · rw [if_pos hc, if_pos hc]
      refine congrArg (List.map _) (List.filter_congr (fun k hk => ?_))
      have hk1 := himg k (List.mem_range.mp hk)
      rw [hib] at hk1
      rw [hk1]
    · rw [if_neg hc, if_neg hc]
  rw [h1, h2, h3]

theorem cx8_fix_claimlist_01 (a : Nat) (ha : a < INODE_COUNT)
    (hva : is_valid_inode cx8.inodes a = true)
    (hda : ∀ j, j < 12 → (cx8.inodes a).direct_blocks j = (cx8Inode).direct_blocks j)
    (hia : (cx8.inodes a).indirect_block = 0) :
    inodeClaimList (fix_errors cx8) a 9 = inodeClaimList cx8 a 9 := by
  have hWnot : ¬ writeTouched cx8 0 := by
    rintro ⟨i, -, -, hbe, hne, -⟩
    exact hne hbe
  have hnotbad : ∀ j, j < 12 → ¬ badPtr 8 ((cx8.inodes a).direct_blocks j) := by
    intro j hj
    rw [hda j hj]
    by_cases hj0 : j = 0
    · subst hj0
      decide
    · have h0 : cx8Inode.direct_blocks j = 0 := by
        show (if j = 0 then (9 : Nat) else 0) = 0
        rw [if_neg hj0]
      rw [h0]
      exact badPtr_zero 8
  refine inodeClaimList_congr_pt a 9 (fun j hj => ?_) ?_ (fun k hk => ?_)
  · rw [fix_errors_dirLow cx8 a ha hva j hj, if_neg (hnotbad j hj)]
  · rw [fix_errors_indirect cx8 a ha hva, hia, if_neg (badPtr_zero 8)]
  · have hfib : ((fix_errors cx8).inodes a).indirect_block = 0 := by
      rw [fix_errors_indirect cx8 a ha hva, hia, if_neg (badPtr_zero 8)]
    rw [hfib, hia, fix_errors_img, if_neg (fun h => hWnot h.1)]

theorem cx8_fix_claimlist_2 : inodeClaimList (fix_errors cx8) 2 9 = [] := by
  have hib2 : ((fix_errors cx8).inodes 2).indirect_block = 0 := by
    rw [fix_errors_indirect cx8 2 (by decide) (by decide),
      if_pos (by decide : badPtr 8 ((cx8.inodes 2).indirect_block))]
  have hd2 : ∀ j, j < 12 → ((fix_errors cx8).inodes 2).direct_blocks j = 0 := by
    intro j hj
    rw [fix_errors_dirLow cx8 2 (by decide) (by decide) j hj]
    have h0 : (cx8.inodes 2).direct_blocks j = 0 := rfl
    rw [h0, if_neg (badPtr_zero 8)]
  unfold inodeClaimList
  rw [hib2, if_neg (fun h => h.1 rfl), if_neg (fun h => h.1 rfl)]
  have hf : (List.range 12).filter
      (fun j => decide (((fix_errors cx8).inodes 2).direct_blocks j ≠ 0 ∧
        ((fix_errors cx8).inodes 2).direct_blocks j < TOTAL_BLOCKS ∧
        9 = ((fix_errors cx8).inodes 2).direct_blocks j)) = [] := by
    refine List.filter_eq_nil.mpr (fun j hj => ?_)
    simp only [decide_eq_true_eq]
    rintro ⟨hne, -⟩
    exact hne (hd2 j (List.mem_range.mp hj))
  rw [hf]
  rfl

set_option maxRecDepth 6000 in
theorem C8_counterexample :
    dupClaimants cx8 9 = [0, 1, 2]
    ∧ dupClaimants (fix_errors cx8) 9 = [0, 1] := by
  have hsplit : List.range INODE_COUNT = 0 :: 1 :: 2 :: List.range' 3 77 := by
    rw [List.range_eq_range']
    rfl
  have hhigh : ∀ i, 3 ≤ i → cx8.inodes i = zeroInode := by
    intro i hi
    show (if i = 0 then cx8Inode else if i = 1 then cx8Inode
      else if i = 2 then cx8IndInode else zeroInode) = zeroInode
    rw [if_neg (by omega), if_neg (by omega), if_neg (by omega)]
  constructor
  · unfold dupClaimants
    rw [hsplit, List.flatMap_cons, List.flatMap_cons, List.flatMap_cons,
      flatMap_nil_of_forall _ _ (fun i hi => by
        simp [invalid_of_zeroInode (hhigh i (List.mem_range'_1.mp hi).1)])]
    decide
  · unfold dupClaimants
    rw [hsplit, List.flatMap_cons, List.flatMap_cons, List.flatMap_cons,
      flatMap_nil_of_forall _ _ (fun i hi => by
        have hz : is_valid_inode (fix_errors cx8).inodes i = false := by
          rw [fix_errors_valid]
          exact invalid_of_zeroInode (hhigh i (List.mem_range'_1.mp hi).1)
        simp [hz])]
    have hv0 : is_valid_inode (fix_errors cx8).inodes 0 = true := by
      rw [fix_errors_valid]
      decide
    have hv1 : is_valid_inode (fix_errors cx8).inodes 1 = true := by
      rw [fix_errors_valid]
      decide
    have hv2 : is_valid_inode (fix_errors cx8).inodes 2 = true := by
      rw [fix_errors_valid]
      decide
    rw [if_pos hv0, if_pos hv1, if_pos hv2]
    rw [cx8_fix_claimlist_01 0 (by decide) (by decide)
        (fun j hj => rfl) rfl,
      cx8_fix_claimlist_01 1 (by decide) (by decide)
        (fun j hj => rfl) rfl,
      cx8_fix_claimlist_2]
    rw [show inodeClaimList cx8 0 9 = [0] from by decide,
      show inodeClaimList cx8 1 9 = [1] from by decide]
    rfl

theorem reset_counters_fields (s : St) :
    (reset_counters s).superblock = s.superblock
    ∧ (reset_counters s).inode_bitmap = s.inode_bitmap
    ∧ (reset_counters s).data_bitmap = s.data_bitmap
    ∧ (reset_counters s).inodes = s.inodes
    ∧ (reset_counters s).img = s.img
    ∧ (reset_counters s).block_referenced = s.block_referenced :=
  ⟨rfl, rfl, rfl, rfl, rfl, rfl⟩

theorem badWriteEvents_congr {t s : St}
    (h1 : t.superblock.data_block_start = s.superblock.data_block_start)
    (h2 : t.inodes = s.inodes) (h3 : t.img = s.img) (i : Nat) :
    badWriteEvents t i = badWriteEvents s i := by
  unfold badWriteEvents imgTrigger
  simp only [h1, h2, h3]

theorem C5_counterexample :
    fix_trace cx5 = WriteEv.indirect 9 ::
      ([WriteEv.superblock, WriteEv.inodeBitmap, WriteEv.dataBitmap]
        ++ (List.range INODE_COUNT).map WriteEv.inodeTable) := by
  have hcongr : ∀ i, badWriteEvents (fixS3 cx5) i = badWriteEvents cx5 i := fun i =>
    badWriteEvents_congr ((fixS3_start cx5).trans rfl) (fixS3_inodes cx5) (fixS3_img cx5) i
  have h0 : badWriteEvents cx5 0 = [WriteEv.indirect 9] := by
    have hT : ¬ imgTrigger cx5 0 ((cx5.inodes 0).indirect_block) := by
      rintro ⟨i, hi, -⟩
      omega
    have h0mem : 0 ∈ (List.range ENTRIES_PER_BLOCK).filter (fun j =>
        decide (badPtr cx5.superblock.data_block_start
          (if imgTrigger cx5 0 ((cx5.inodes 0).indirect_block) ∧ j < ENTRIES_PER_BLOCK ∧
              badPtr cx5.superblock.data_block_start
                (cx5.img ((cx5.inodes 0).indirect_block) j)
            then 0 else cx5.img ((cx5.inodes 0).indirect_block) j))) := by
      rw [List.mem_filter]
      refine ⟨List.mem_range.mpr (by decide), ?_⟩
      rw [if_neg (fun h => hT h.1)]
      decide
    have hlen : ((List.range ENTRIES_PER_BLOCK).filter (fun j =>
        decide (badPtr cx5.superblock.data_block_start
          (if imgTrigger cx5 0 ((cx5.inodes 0).indirect_block) ∧ j < ENTRIES_PER_BLOCK ∧
              badPtr cx5.superblock.data_block_start
                (cx5.img ((cx5.inodes 0).indirect_block) j)
            then 0 else cx5.img ((cx5.inodes 0).indirect_block) j)))).length ≠ 0 := by
      intro h
      rw [List.length_eq_zero] at h
      rw [h] at h0mem
      exact List.not_mem_nil 0 h0mem
    unfold badWriteEvents
    rw [if_pos ⟨by decide, by decide, by decide, hlen⟩]
    rfl
  have hsplit : List.range INODE_COUNT = 0 :: List.range' 1 79 := by
    rw [List.range_eq_range']
    rfl
  have hflat : (List.range INODE_COUNT).flatMap (badWriteEvents (fixS3 cx5))
      = [WriteEv.indirect 9] := by
    rw [hsplit, List.flatMap_cons, hcongr 0, h0,
      flatMap_nil_of_forall _ _ (fun i hi => ?_)]
    · rfl
    · rw [hcongr i]
      have hi1 : 1 ≤ i := (List.mem_range'_1.mp hi).1
      have hzi : cx5.inodes i = zeroInode := by
        show (if i = 0 then cx5Inode else zeroInode) = zeroInode
        rw [if_neg (by omega)]
      unfold badWriteEvents
      simp [invalid_of_zeroInode hzi]
  rw [fix_trace_eq, hflat]
  rfl

theorem C2_counterexample :
    get_bit (fix_errors (check_all (init_state cx2))).data_bitmap (9 - 8) = 1
    ∧ ¬ specReferenced (fix_errors (check_all (init_state cx2))) 9 := by
  have hs1in : (check_all (init_state cx2)).inodes = cx2.inodes :=
    (check_all_persist _).2.2.2.1.trans rfl
  constructor
  · have hbr : (check_all (init_state cx2)).block_referenced 9 = true := by
      rw [check_all_br, decide_eq_true_eq]
      exact ⟨by decide, by decide, 0, by decide, by decide,
        Or.inr (Or.inr ⟨by decide, 0, by decide, by decide, by decide⟩)⟩
    rw [fix_errors_dbm _ 9 (by decide) (by decide), hbr, if_pos rfl]
  · rintro ⟨-, -, i, hi, hv, hc⟩
    rw [fix_errors_valid] at hv
    have hi0 : i = 0 := by
      by_contra hne
      have hz : (check_all (init_state cx2)).inodes i = zeroInode := by
        rw [hs1in]
        show (if i = 0 then cx2Inode else zeroInode) = zeroInode
        rw [if_neg hne]
      rw [invalid_of_zeroInode hz] at hv
      exact absurd hv (by decide)
    subst hi0
    have hdfix : ∀ j, j < 12 →
        ((fix_errors (check_all (init_state cx2))).inodes 0).direct_blocks j = 0 := by
      intro j hj
      rw [fix_errors_dirLow _ 0 (by decide) hv j hj]
      have h0 : ((check_all (init_state cx2)).inodes 0).direct_blocks j = 0 := by
        rw [hs1in]
        rfl
      rw [h0, if_neg (badPtr_zero 8)]
    have hibfix : ((fix_errors (check_all (init_state cx2))).inodes 0).indirect_block = 0 := by
      rw [fix_errors_indirect _ 0 (by decide) hv]
      have h3 : ((check_all (init_state cx2)).inodes 0).indirect_block = 3 := by
        rw [hs1in]
        rfl
      rw [h3, if_pos (by decide : badPtr 8 3)]
    rcases hc with ⟨j, hj, hne, -⟩ | ⟨hne, -⟩ | ⟨hne, -⟩
    · exact hne (hdfix j hj)
    · exact hne hibfix
    · exact hne hibfix

/-- A state u whose superblock, bitmaps, pointers and image are already
consistent with its own contents is a fixed point of re-check + repair. -/
theorem fixpoint_of_clean (u : St)
    (hu_sb : u.superblock = goodSB)
    (hu_ibm : ∀ i, i < INODE_COUNT →
      (get_bit u.inode_bitmap i ≠ 0 ↔ is_valid_inode u.inodes i = true))
    (hu_dbm : ∀ b, 8 ≤ b → b < TOTAL_BLOCKS →
      (get_bit u.data_bitmap (b - 8) ≠ 0 ↔ specReferenced u b))
    (hu_dir : ∀ i, i < INODE_COUNT → is_valid_inode u.inodes i = true → ∀ k, k < 12 →
      ¬ badPtr 8 ((u.inodes i).direct_blocks k))
    (hu_ind : ∀ i, i < INODE_COUNT → is_valid_inode u.inodes i = true →
      (u.inodes i).indirect_block ≠ 0 →
      ¬ ((u.inodes i).indirect_block < 8 ∨ TOTAL_BLOCKS ≤ (u.inodes i).indirect_block) ∧
      ∀ j, j < ENTRIES_PER_BLOCK → ¬ badPtr 8 (u.img ((u.inodes i).indirect_block) j)) :
    fix_errors (check_all (reset_counters u)) = check_all (reset_counters u) := by
  have p2 := check_all_persist (reset_counters u)
  have htsb : (check_all (reset_counters u)).superblock = u.superblock := p2.1.trans rfl
  have htibm : (check_all (reset_counters u)).inode_bitmap = u.inode_bitmap :=
    p2.2.1.trans rfl
  have htdbm : (check_all (reset_counters u)).data_bitmap = u.data_bitmap :=
    p2.2.2.1.trans rfl
  have htin : (check_all (reset_counters u)).inodes = u.inodes := p2.2.2.2.1.trans rfl
  have htimg : (check_all (reset_counters u)).img = u.img := p2.2.2.2.2.1.trans rfl
  have htbr : ∀ b, (check_all (reset_counters u)).block_referenced b
      = decide (specReferenced u b) := fun b =>
    (check_all_br _ b).trans (decide_eq_decide.mpr (specReferenced_congr rfl rfl rfl b))
  refine fix_errors_fixpoint _ (htsb.trans hu_sb) ?_ ?_ ?_ ?_
  · intro i hi
    rw [htibm, htin]
    exact hu_ibm i hi
  · intro b hb1 hb2
    rw [htdbm, htbr b, decide_eq_true_eq]
    exact hu_dbm b hb1 hb2
  · intro i hi hv k hk
    rw [htin] at hv ⊢
    exact hu_dir i hi hv k hk
  · intro i hi hv hne
    rw [htin] at hv hne ⊢
    rw [htimg]
    exact hu_ind i hi hv hne

/-- C3 (corrected): repair followed by re-check reaches a fixed point —
repairing again changes nothing — PROVIDED the image's data-region start was
already 8 and no valid inode carries an out-of-range indirect pointer; a
wrong start or a garbage-walked indirect block breaks idempotence. -/
theorem C3_repair_idempotent (s : St)
    (h8 : s.superblock.data_block_start = 8)
    (hind : ∀ i, i < INODE_COUNT → is_valid_inode s.inodes i = true →
      (s.inodes i).indirect_block = 0 ∨
      (8 ≤ (s.inodes i).indirect_block ∧ (s.inodes i).indirect_block < TOTAL_BLOCKS)) :
    fix_errors (check_all (reset_counters (fix_errors (check_all (init_state s)))))
      = check_all (reset_counters (fix_errors (check_all (init_state s)))) := by
  have p1 := check_all_persist (init_state s)
  have hs1sb : (check_all (init_state s)).superblock = s.superblock := p1.1.trans rfl
  have hs1in : (check_all (init_state s)).inodes = s.inodes := p1.2.2.2.1.trans rfl
  have hs1img : (check_all (init_state s)).img = s.img := p1.2.2.2.2.1.trans rfl
  have hs1start : (check_all (init_state s)).superblock.data_block_start = 8 :=
    (congrArg Superblock.data_block_start hs1sb).trans h8
  have hs1ind : ∀ i, i < INODE_COUNT →
      is_valid_inode (check_all (init_state s)).inodes i = true →
      ((check_all (init_state s)).inodes i).indirect_block = 0 ∨
      (8 ≤ ((check_all (init_state s)).inodes i).indirect_block ∧
       ((check_all (init_state s)).inodes i).indirect_block < TOTAL_BLOCKS) := by
    rw [hs1in]
    exact hind
  have hs1br : ∀ b, (check_all (init_state s)).block_referenced b
      = decide (specReferenced s b) := fun b =>
    (check_all_br _ b).trans (decide_eq_decide.mpr (specReferenced_congr rfl rfl rfl b))
  refine fixpoint_of_clean (fix_errors (check_all (init_state s)))
    (fix_errors_sb _) ?_ ?_ ?_ ?_
  · intro i hi
    rw [fix_errors_ibm _ i hi, fix_errors_valid]
    by_cases hv : is_valid_inode (check_all (init_state s)).inodes i = true
    · simp [hv]
    · simp [hv]
  · intro b hb1 hb2
    rw [fix_errors_dbm _ b hb1 hb2, hs1br b]
    have hchain : specReferenced (fix_errors (check_all (init_state s))) b
        ↔ specReferenced s b :=
      (specReferenced_fix _ b hs1start hs1ind).trans
        (specReferenced_congr hs1sb hs1in hs1img b)
    rw [hchain]
    by_cases hsp : specReferenced s b
    · simp [hsp]
    · simp [hsp]
  · intro i hi hv k hk
    rw [fix_errors_valid] at hv
    rw [fix_errors_dirLow _ i hi hv k hk]
    by_cases hbp : badPtr 8 (((check_all (init_state s)).inodes i).direct_blocks k)
    · rw [if_pos hbp]
      exact badPtr_zero 8
    · rw [if_neg hbp]
      exact hbp
  · intro i hi hv hne
    rw [fix_errors_valid] at hv
    rw [fix_errors_indirect _ i hi hv] at hne ⊢
    by_cases hbp : badPtr 8 (((check_all (init_state s)).inodes i).indirect_block)
    · rw [if_pos hbp] at hne
      exact absurd rfl hne
    · rw [if_neg hbp] at hne ⊢
      rcases hs1ind i hi hv with h0 | ⟨hr1, hr2⟩
      · exact absurd h0 hne
      refine ⟨?_, fun j hj => ?_⟩
      · rintro (h | h) <;> omega
      · rw [fix_errors_img]
        by_cases hbj : badPtr 8 ((check_all (init_state s)).img
            (((check_all (init_state s)).inodes i).indirect_block) j)
        · have hW : writeTouched (check_all (init_state s))
              (((check_all (init_state s)).inodes i).indirect_block) :=
            ⟨i, hi, hv, rfl, hne, by rintro (h | h) <;> omega⟩
          rw [if_pos ⟨hW, hj, hbj⟩]
          exact badPtr_zero 8
        · rw [if_neg (fun hc => hbj hc.2.2)]
          exact hbj

theorem C3_counterexample :
    get_bit (check_all (reset_counters
        (fix_errors (check_all (init_state cxA))))).data_bitmap 0 = 0
    ∧ get_bit (fix_errors (check_all (reset_counters
        (fix_errors (check_all (init_state cxA)))))).data_bitmap 0 = 1 := by
  have hs1in : (check_all (init_state cxA)).inodes = cxA.inodes :=
    (check_all_persist _).2.2.2.1.trans rfl
  have hv0 : is_valid_inode (check_all (init_state cxA)).inodes 0 = true := by
    rw [hs1in]
    decide
  constructor
  · have hbr8 : (check_all (init_state cxA)).block_referenced 8 = false := by
      rw [check_all_br, decide_eq_false_iff_not]
      rintro ⟨hle, -, -⟩
      have h9 : (init_state cxA).superblock.data_block_start = 9 := rfl
      omega
    have h1 := fix_errors_dbm (check_all (init_state cxA)) 8 (by decide) (by decide)
    rw [hbr8] at h1
    have htdbm : (check_all (reset_counters (fix_errors (check_all (init_state cxA))))).data_bitmap
        = (fix_errors (check_all (init_state cxA))).data_bitmap :=
      (check_all_persist _).2.2.1.trans (reset_counters_fields _).2.2.1
    rw [htdbm]
    simp only [Bool.false_eq_true, if_false] at h1
    exact h1
  · have hu_d0 : ((fix_errors (check_all (init_state cxA))).inodes 0).direct_blocks 0 = 8 := by
      rw [fix_errors_dirLow _ 0 (by decide) hv0 0 (by decide)]
      have hd : ((check_all (init_state cxA)).inodes 0).direct_blocks 0 = 8 := by
        rw [hs1in]
        rfl
      rw [hd, if_neg (by decide : ¬ badPtr 8 8)]
    have hvu0 : is_valid_inode (fix_errors (check_all (init_state cxA))).inodes 0 = true := by
      rw [fix_errors_valid]
      exact hv0
    have h8u : (fix_errors (check_all (init_state cxA))).superblock.data_block_start = 8 := by
      rw [fix_errors_sb]
      rfl
    have hspec : specReferenced (fix_errors (check_all (init_state cxA))) 8 := by
      refine ⟨le_of_eq h8u, by decide, 0, by decide, hvu0, Or.inl ⟨0, by decide, ?_, ?_⟩⟩
      · rw [hu_d0]
        decide
      · rw [hu_d0]
    have htbr : (check_all (reset_counters
        (fix_errors (check_all (init_state cxA))))).block_referenced 8 = true := by
      rw [check_all_br, decide_eq_true_eq]
      exact (specReferenced_congr (reset_counters_fields _).1
        (reset_counters_fields _).2.2.2.1 (reset_counters_fields _).2.2.2.2.1 8).mpr hspec
    have h2 := fix_errors_dbm (check_all (reset_counters
      (fix_errors (check_all (init_state cxA))))) 8 (by decide) (by decide)
    rw [htbr, if_pos rfl] at h2
    exact h2

theorem C3_witness :
    (baseSt.superblock.data_block_start = 8
     ∧ ∀ i, i < INODE_COUNT → is_valid_inode baseSt.inodes i = true →
        (baseSt.inodes i).indirect_block = 0 ∨
        (8 ≤ (baseSt.inodes i).indirect_block ∧ (baseSt.inodes i).indirect_block < TOTAL_BLOCKS))
    ∧ fix_errors (check_all (reset_counters (fix_errors (check_all (init_state baseSt)))))
        = check_all (reset_counters (fix_errors (check_all (init_state baseSt)))) :=
  ⟨⟨rfl, fun i hi hv => absurd hv (by
      rw [invalid_of_zeroInode (rfl : baseSt.inodes i = zeroInode)]
      decide)⟩,
   C3_repair_idempotent baseSt rfl (fun i hi hv => absurd hv (by
      rw [invalid_of_zeroInode (rfl : baseSt.inodes i = zeroInode)]
      decide))⟩

end Vsfsck
